import Mathlib

/-!
# ShannonBase rapid engine: small-table cache and optimized nested-loop iterator

A shallow embedding of

* `storage/rapid_engine/include/small_table_cache.h`
* `storage/rapid_engine/imcs/small_table_cache.cpp`
* `storage/rapid_engine/executor/iterators/nested_loop_iterator.{h,cpp}`
* `sql/hybrid_opt/feature_extractor.{h,cc}` (namespace `hybrid_opt`)

Conventions of the embedding.

* A C++ object is a Lean structure; a member function is a function that takes
  the object and returns the updated object next to its return value.
* The two child iterators are arbitrary deterministic machines
  (`RowIterator σ`): their private state is a value of type `σ`, and each
  virtual call maps the state to a result and a new state.
* Every call made on a child iterator is recorded in the ghost field `calls`
  (newest call first), so that "which calls were made, in which order" is
  observable.
* `uint64_t` counters are natural numbers incremented modulo `2 ^ 64`.
* `none` as the result of a member function means that the call does not
  return a value (null dereference, or loop budget exhausted).
-/

namespace ShannonBase

/-- One byte of a row buffer (`uchar`). -/
abbrev uchar := Nat

/-- The constant `SMALL_TABLE_CACHE_THRESHOLD` of small_table_cache.h. -/
def SMALL_TABLE_CACHE_THRESHOLD : Nat := 10000

/-- Modulus of `uint64_t` / `size_t` arithmetic. -/
def UINT64_MOD : Nat := 18446744073709551616

/-- The libc call `memcpy(dst, src, n)` on byte buffers: the first `n` bytes of
`dst` are replaced by the first `n` bytes of `src`. -/
def memcpy (dst src : List uchar) (n : Nat) : List uchar :=
  src.take n ++ dst.drop n

/-- The struct `CachedRow`: an owned buffer and its length. -/
structure CachedRow where
  data : List uchar
  length : Nat
  deriving DecidableEq

/-- The constructor `CachedRow(const uchar *src, size_t len)`: allocates `len` bytes and
copies the first `len` bytes of `src` into them. -/
def CachedRow.create (src : List uchar) (len : Nat) : CachedRow :=
  { data := memcpy (List.replicate len 0) src len, length := len }

/-- The class `CachedTable`. The member `table` is a `TABLE *`; the embedding keeps an
address only, the pointed-to object lives with whoever dereferences it. -/
structure CachedTable where
  rows : List CachedRow
  row_length : Nat
  table : Nat
  deriving DecidableEq

/-- The method `CachedTable::AddRow`. -/
def CachedTable.AddRow (t : CachedTable) (row_data : List uchar) : CachedTable :=
  { t with rows := t.rows ++ [CachedRow.create row_data t.row_length] }

/-- The method `CachedTable::RowCount`. -/
def CachedTable.RowCount (t : CachedTable) : Nat := t.rows.length

/-- The method `CachedTable::GetRow`; `none` is `nullptr`. -/
def CachedTable.GetRow (t : CachedTable) (index : Nat) : Option (List uchar) :=
  if index < t.rows.length then (t.rows.get? index).map CachedRow.data else none

/-- A call made on the storage handler of a table (ghost record, newest first in
`handler.calls`). -/
inductive HandlerCall
  | ha_rnd_init (scan : Bool)
  | ha_rnd_next (code : Int)
  | ha_rnd_end
  deriving DecidableEq

/-- Modelled from the spec: the storage handler behind `table->file` (`sql/handler.h` is not
part of the tree), as the sequential-scan collaborator of section 6 of the spec.
`stats_records` is the row-count estimate `stats.records`; `rnd_init_code` is what
`OpenScan` would return; `rnd_next_script` lists what the coming `Next(buffer)`
calls would return, with the bytes each leaves in the buffer; `calls` records the
calls actually made. -/
structure handler where
  stats_records : Nat := 0
  rnd_init_code : Int := 0
  rnd_next_script : List (Int × List uchar) := []
  calls : List HandlerCall := []
  deriving DecidableEq

/-- Modelled from the spec: the members of `TABLE_SHARE` (`table->s`, `sql/table.h` is not
part of the tree) that the code reads: schema name, relation name and the length
of a row buffer. -/
structure TABLE_SHARE where
  db : String := ""
  table_name : String := ""
  rec_buff_length : Nat := 0
  deriving DecidableEq

/-- Modelled from the spec: the relation descriptor `TABLE` (`sql/table.h` is not part of the
tree), reduced to the members the code touches: the share `s`, the handler `file`
(`none` is a null pointer), the row buffer `record[0]` and the null-row flag. -/
structure TABLE where
  s : TABLE_SHARE := {}
  file : Option handler := none
  record0 : List uchar := []
  null_row : Bool := false
  deriving DecidableEq

/-- Modelled from the spec: `TABLE::set_null_row` (`sql/table.h` is not part of the tree)
marks the current row of the table as entirely null. -/
def TABLE.set_null_row (t : TABLE) : TABLE := { t with null_row := true }

/-- The class `SmallTableCache`: the member `cache_`, an `unordered_map` from key to shared
snapshot, as an association list (at most one entry per key). The mutex is not
modelled. -/
structure SmallTableCache where
  cache : List (String × CachedTable)
  deriving DecidableEq

/-- The method `SmallTableCache::GetCacheKey`: `db.table_name`. -/
def SmallTableCache.GetCacheKey (table : TABLE) : String :=
  table.s.db ++ "." ++ table.s.table_name

/-- The method `SmallTableCache::LoadTable`. Its first statement is an unconditional
`return nullptr;` ("TEMPORARY: Disable caching to debug crashes"); the lookup, scan
and insert written below it (lines 18 to 74) are unreachable (they are written
out as `LoadTable_disabled_part` further down). The result lists the returned
pointer (`none` is null), the cache and the table after the call. -/
def SmallTableCache.LoadTable (self : SmallTableCache) (table : Option TABLE) :
    Option CachedTable × SmallTableCache × Option TABLE :=
  (none, self, table)

/-- The method `SmallTableCache::GetTable`: a lookup of the key in `cache_`; `none` is null.
The result lists the returned pointer, the cache and the table after the call. -/
def SmallTableCache.GetTable (self : SmallTableCache) (table : Option TABLE) :
    Option CachedTable × SmallTableCache × Option TABLE :=
  match table with
  | none => (none, self, none)
  | some t => (self.cache.lookup (SmallTableCache.GetCacheKey t), self, some t)

/-- The constructor `SmallTableCache() = default`: an empty map. -/
def SmallTableCache.create : SmallTableCache := { cache := [] }

/-- The method `SmallTableCache::Clear`: `cache_.clear()`. -/
def SmallTableCache.Clear (_self : SmallTableCache) : SmallTableCache := { cache := [] }

/-- The struct `SmallTableCache::CacheStats`. -/
structure CacheStats where
  cached_tables : Nat
  total_rows : Nat
  memory_used : Nat
  deriving DecidableEq

/-- The method `SmallTableCache::GetStats` (a `const` method; the cache is handed back
unchanged). The two sums are accumulated in `size_t`, so every `+=` and the
product are reduced modulo `2 ^ 64`; `cache_.size()` is a `size_t` already. -/
def SmallTableCache.GetStats (self : SmallTableCache) : CacheStats × SmallTableCache :=
  (self.cache.foldl
    (fun stats pair =>
      { stats with
        total_rows := (stats.total_rows + pair.2.RowCount) % UINT64_MOD
        memory_used :=
          (stats.memory_used + (pair.2.RowCount * pair.2.row_length) % UINT64_MOD)
            % UINT64_MOD })
    { cached_tables := self.cache.length, total_rows := 0, memory_used := 0 },
   self)

/-- The static method `SmallTableCache::ShouldCache`; `stats.records` is an unsigned
`ha_rows`. -/
def SmallTableCache.ShouldCache (table : Option TABLE) : Bool :=
  match table with
  | none => false
  | some t =>
    match t.file with
    | none => false
    | some file =>
      let rows := file.stats_records
      decide (rows > 0 ∧ rows ≤ SMALL_TABLE_CACHE_THRESHOLD)

/-- The constructor `CachedTable(TABLE *tbl)`: no rows yet, the row length of the table's
share, and the address `addr` of `tbl`. -/
def CachedTable.create (addr : Nat) (tbl : TABLE) : CachedTable :=
  { rows := [], row_length := tbl.s.rec_buff_length, table := addr }

/-- What a complete sequential scan delivers, given the outcomes `script` of the successive
`ha_rnd_next` calls and the two handler codes `eof` (`HA_ERR_END_OF_FILE`) and
`deleted` (`HA_ERR_RECORD_DELETED`), which the tree does not declare: the buffers of
the rows found up to the end of the file (a used-up script is the end of the file),
rows reported as deleted left out; `none` when a call fails with another code. -/
def scanYield (eof deleted : Int) : List (Int × List uchar) → Option (List (List uchar))
  | [] => some []
  | (code, bytes) :: rest =>
    if code = eof then some []
    else if code = deleted then scanYield eof deleted rest
    else if code ≠ 0 then none
    else (scanYield eof deleted rest).map (fun rows => bytes :: rows)

/-- A call on the cache made by a client. -/
inductive CacheOp
  | LoadTable (table : Option TABLE)
  | GetTable (table : Option TABLE)
  | Clear
  | GetStats

/-- The cache after one client call. -/
def SmallTableCache.step (self : SmallTableCache) : CacheOp → SmallTableCache
  | CacheOp.LoadTable table => (self.LoadTable table).2.1
  | CacheOp.GetTable table => (self.GetTable table).2.1
  | CacheOp.Clear => self.Clear
  | CacheOp.GetStats => self.GetStats.2

/-- The cache after a sequence of client calls, oldest first. -/
def SmallTableCache.run (self : SmallTableCache) (ops : List CacheOp) : SmallTableCache :=
  ops.foldl SmallTableCache.step self

/-- A table `db.name` with row buffers of `len` bytes whose handler would scan the given
outcomes (code and buffer contents of each `ha_rnd_next`). -/
def scannedTable (db name : String) (len : Nat) (script : List (Int × List uchar)) : TABLE :=
  { s := { db := db, table_name := name, rec_buff_length := len }
    file := some { stats_records := script.length, rnd_next_script := script } }

/-- A table `db.big` whose scan delivers 10001 rows of one byte, one more than the
threshold. -/
def oversizeTable : TABLE :=
  { s := { db := "db", table_name := "big", rec_buff_length := 1 }
    file := some { stats_records := 10001, rnd_next_script := List.replicate 10001 (0, [7]) } }

/-- A table `db.t` whose scan delivers one row and then fails with code 1 on the second
`ha_rnd_next`. -/
def failingTable : TABLE :=
  { s := { db := "db", table_name := "t", rec_buff_length := 1 }
    file := some { stats_records := 2, rnd_next_script := [(0, [7]), (1, [0])] } }

/-- A store that holds, under the key `db.t`, a snapshot with the single row [7]. (No call
sequence produces such a store in this revision; it is written down directly.) -/
def storeWithEntry : SmallTableCache :=
  { cache := [("db.t", (CachedTable.create 0 failingTable).AddRow [7])] }

/-- Modelled from the spec: `handler::ha_rnd_init` (`sql/handler.h` is not part of the tree),
the `OpenScan` of section 6 of the spec: returns the code the handler holds ready
and records the call. -/
def handler.ha_rnd_init (file : handler) (scan : Bool) : Int × handler :=
  (file.rnd_init_code, { file with calls := HandlerCall.ha_rnd_init scan :: file.calls })

/-- Modelled from the spec: `handler::ha_rnd_next` (`sql/handler.h` is not part of the tree),
the `Next(buffer)` of section 6 of the spec: delivers the next scripted outcome
(its code, and its bytes in the buffer), or the code `eof` with the buffer left
alone once the script is used up; records the call. -/
def handler.ha_rnd_next (eof : Int) (file : handler) (buf : List uchar) :
    Int × handler × List uchar :=
  match file.rnd_next_script with
  | [] => (eof, { file with calls := HandlerCall.ha_rnd_next eof :: file.calls }, buf)
  | (code, bytes) :: rest =>
    (code,
     { file with rnd_next_script := rest, calls := HandlerCall.ha_rnd_next code :: file.calls },
     bytes)

/-- Modelled from the spec: `handler::ha_rnd_end` (`sql/handler.h` is not part of the tree),
the `CloseScan` of section 6 of the spec: records the call. -/
def handler.ha_rnd_end (file : handler) : handler :=
  { file with calls := HandlerCall.ha_rnd_end :: file.calls }

/-- The local variables of the scan loop written in `LoadTable` below its early return:
the handler, the buffer `record`, the snapshot under construction and `row_count`. -/
structure LoadTableScan where
  file : handler
  record : List uchar
  cached : CachedTable
  row_count : Nat

/-- How the scan loop written in `LoadTable` is left: by its `return nullptr` on a read error
(after `ha_rnd_end`), or by `break` / a false loop condition. -/
inductive LoadTableScanExit
  | failed (file : handler) (record : List uchar)
  | done (s : LoadTableScan)

/-- The `while (row_count < SMALL_TABLE_CACHE_THRESHOLD)` loop written in `LoadTable` (lines
43 to 62, unreachable), with an iteration budget; `eof` and `deleted` are the codes
`HA_ERR_END_OF_FILE` and `HA_ERR_RECORD_DELETED`, which the tree does not
declare. `row_count++` cannot wrap: it runs below the threshold only. -/
def LoadTableScan.loop (eof deleted : Int) : Nat → LoadTableScan → Option LoadTableScanExit
  | 0, s =>
    if s.row_count < SMALL_TABLE_CACHE_THRESHOLD then none else some (LoadTableScanExit.done s)
  | fuel + 1, s =>
    if s.row_count < SMALL_TABLE_CACHE_THRESHOLD then
      let r := s.file.ha_rnd_next eof s.record
      let error := r.1
      let s1 := { s with file := r.2.1, record := r.2.2 }
      if error = eof then some (LoadTableScanExit.done s1)
      else if error = deleted then LoadTableScan.loop eof deleted fuel s1
      else if error ≠ 0 then some (LoadTableScanExit.failed s1.file.ha_rnd_end s1.record)
      else
        LoadTableScan.loop eof deleted fuel
          { s1 with cached := s1.cached.AddRow s1.record, row_count := s1.row_count + 1 }
    else some (LoadTableScanExit.done s)

/-- The statements written in `SmallTableCache::LoadTable` below its unconditional
`return nullptr;` (lines 18 to 74). They are unreachable; `LoadTable` above is the
behaviour of the method. `addr` is the address of the table, `eof` and `deleted`
are the two handler codes; the loop budget is one more than the outcomes left in
the handler's script; `cache_[key] = cached` runs with `key` absent. -/
def SmallTableCache.LoadTable_disabled_part (eof deleted : Int) (addr : Nat)
    (self : SmallTableCache) (table : Option TABLE) :
    Option (Option CachedTable × SmallTableCache × Option TABLE) :=
  match table with
  | none => some (none, self, none)
  | some t =>
    match t.file with
    | none => some (none, self, some t)
    | some file =>
      let key := SmallTableCache.GetCacheKey t
      match self.cache.lookup key with
      | some found => some (some found, self, some t)
      | none =>
        let cached := CachedTable.create addr t
        let opened := file.ha_rnd_init true
        if opened.1 ≠ 0 then some (none, self, some { t with file := some opened.2 })
        else
          match LoadTableScan.loop eof deleted (opened.2.rnd_next_script.length + 1)
              { file := opened.2, record := t.record0, cached := cached, row_count := 0 } with
          | none => none
          | some (LoadTableScanExit.failed file1 record1) =>
            some (none, self, some { t with file := some file1, record0 := record1 })
          | some (LoadTableScanExit.done s) =>
            let t1 := { t with file := some s.file.ha_rnd_end, record0 := s.record }
            if s.row_count > SMALL_TABLE_CACHE_THRESHOLD then some (none, self, some t1)
            else some (some s.cached, { cache := (key, s.cached) :: self.cache }, some t1)

namespace Executor

/-- Modelled from the spec: the enum `JoinType` (`sql/join_type.h` is not part of the tree),
with the join kinds INNER and LEFT-OUTER of the spec among its values; the
iterator only compares against `JoinType::OUTER`. -/
inductive JoinType
  | INNER | OUTER | ANTI | SEMI | FULL_OUTER
  deriving DecidableEq

/-- The enum `OptimizedNestedLoopIterator::State`. -/
inductive State
  | READING_FIRST_OUTER_ROW
  | READING_FROM_CACHE
  | READING_FROM_ITERATOR
  | END_OF_OUTER_ROWS
  | END_OF_JOIN
  deriving DecidableEq

/-- The virtual interface `RowIterator` as seen by the join: a child iterator with
private state `σ`. `Init` returns `true` on error; `Read` returns 0 (row),
-1 (end of data) or an error code. -/
structure RowIterator (σ : Type) where
  Init : σ → Bool × σ
  Read : σ → Int × σ
  SetNullRowFlag : Bool → σ → σ

/-- A call made on a child iterator, with its result. -/
inductive Call
  | outer_Init (failed : Bool)
  | inner_Init (failed : Bool)
  | outer_Read (code : Int)
  | inner_Read (code : Int)
  | outer_SetNullRowFlag (flag : Bool)
  | inner_SetNullRowFlag (flag : Bool)
  deriving DecidableEq

/-- The class `OptimizedNestedLoopIterator`. `inner_table` is the object that
`cached_inner_table_->table` points to; `calls` is the ghost call log. -/
structure OptimizedNestedLoopIterator (σo σi : Type) where
  outer_iterator : σo
  inner_iterator : σi
  join_type : JoinType
  pfs_batch_mode : Bool
  state : State
  cached_inner_table : Option CachedTable
  current_inner_row_index : Nat
  outer_row_matched : Bool
  outer_rows_scanned : Nat
  inner_rows_scanned : Nat
  cache_hits : Nat
  inner_table : TABLE
  calls : List Call
  deriving DecidableEq

variable {σo σi : Type}

/-- The constructor of `OptimizedNestedLoopIterator`; `cached_inner_table_` is
default-constructed (null). -/
def OptimizedNestedLoopIterator.create (outer_iterator : σo) (inner_iterator : σi)
    (join_type : JoinType) (pfs_batch_mode : Bool) (inner_table : TABLE) :
    OptimizedNestedLoopIterator σo σi :=
  { outer_iterator := outer_iterator
    inner_iterator := inner_iterator
    join_type := join_type
    pfs_batch_mode := pfs_batch_mode
    state := State.READING_FIRST_OUTER_ROW
    cached_inner_table := none
    current_inner_row_index := 0
    outer_row_matched := false
    outer_rows_scanned := 0
    inner_rows_scanned := 0
    cache_hits := 0
    inner_table := inner_table
    calls := [] }

/-- The method `OptimizedNestedLoopIterator::ShouldCacheInnerTable`. -/
def ShouldCacheInnerTable (_it : OptimizedNestedLoopIterator σo σi) : Bool := true

/-- The method `OptimizedNestedLoopIterator::LoadInnerTableCache`: assigns nothing. -/
def LoadInnerTableCache (it : OptimizedNestedLoopIterator σo σi) :
    Bool × OptimizedNestedLoopIterator σo σi := (false, it)

/-- The method `OptimizedNestedLoopIterator::Init`; `true` is failure. -/
def Init (O : RowIterator σo) (I : RowIterator σi) (it : OptimizedNestedLoopIterator σo σi) :
    Bool × OptimizedNestedLoopIterator σo σi :=
  let ro := O.Init it.outer_iterator
  let it1 := { it with outer_iterator := ro.2, calls := Call.outer_Init ro.1 :: it.calls }
  if ro.1 then (true, it1)
  else
    let ri := I.Init it1.inner_iterator
    let it2 := { it1 with inner_iterator := ri.2, calls := Call.inner_Init ri.1 :: it1.calls }
    if ri.1 then (true, it2)
    else
      let it3 := { it2 with
        state := State.READING_FIRST_OUTER_ROW
        current_inner_row_index := 0
        outer_row_matched := false
        cached_inner_table := none }
      if ShouldCacheInnerTable it3 then (false, (LoadInnerTableCache it3).2)
      else (false, it3)

/-- The method `OptimizedNestedLoopIterator::ReadOuterRow`. -/
def ReadOuterRow (O : RowIterator σo) (I : RowIterator σi)
    (it : OptimizedNestedLoopIterator σo σi) : Int × OptimizedNestedLoopIterator σo σi :=
  let r := O.Read it.outer_iterator
  let error := r.1
  let it1 := { it with outer_iterator := r.2, calls := Call.outer_Read error :: it.calls }
  if error ≠ 0 then
    if error = -1 then (error, { it1 with state := State.END_OF_OUTER_ROWS })
    else (error, it1)
  else
    let it2 := { it1 with
      outer_rows_scanned := (it1.outer_rows_scanned + 1) % UINT64_MOD
      outer_row_matched := false
      current_inner_row_index := 0 }
    if it2.cached_inner_table.isSome then
      (0, { it2 with state := State.READING_FROM_CACHE })
    else
      let ri := I.Init it2.inner_iterator
      let it3 := { it2 with inner_iterator := ri.2, calls := Call.inner_Init ri.1 :: it2.calls }
      if ri.1 then (1, it3)
      else (0, { it3 with state := State.READING_FROM_ITERATOR })

/-- How a `while` loop was left: by a `return` inside the body, or because its condition
became false. -/
inductive LoopExit (α : Type)
  | returned (code : Int) (s : α)
  | finished (s : α)

/-- The `while` loop of `ScanCachedInnerTable`, with an iteration budget. The index
increment is not reduced modulo `2 ^ 64`: it only runs when the index is below
`rows.size()`. -/
def ScanCachedInnerTable.scan (ct : CachedTable) :
    Nat → OptimizedNestedLoopIterator σo σi → Option (LoopExit (OptimizedNestedLoopIterator σo σi))
  | 0, it =>
    if it.current_inner_row_index < ct.RowCount then none else some (LoopExit.finished it)
  | fuel + 1, it =>
    if it.current_inner_row_index < ct.RowCount then
      let row_data := ct.GetRow it.current_inner_row_index
      let it1 := { it with
        current_inner_row_index := it.current_inner_row_index + 1
        cache_hits := (it.cache_hits + 1) % UINT64_MOD }
      match row_data with
      | none => ScanCachedInnerTable.scan ct fuel it1
      | some data =>
        some (LoopExit.returned 0 { it1 with
          inner_table := { it1.inner_table with
            record0 := memcpy it1.inner_table.record0 data ct.row_length }
          outer_row_matched := true })
    else some (LoopExit.finished it)

/-- The method `OptimizedNestedLoopIterator::ScanCachedInnerTable`. The result is `none`
when `cached_inner_table_` is null (the C++ dereferences it). The loop budget
`RowCount - index` is the number of indices left. -/
def ScanCachedInnerTable (O : RowIterator σo) (I : RowIterator σi)
    (it : OptimizedNestedLoopIterator σo σi) :
    Option (Int × OptimizedNestedLoopIterator σo σi) :=
  match it.cached_inner_table with
  | none => none
  | some ct =>
    match ScanCachedInnerTable.scan ct (ct.RowCount - it.current_inner_row_index) it with
    | none => none
    | some (LoopExit.returned code it1) => some (code, it1)
    | some (LoopExit.finished it1) =>
      if it1.join_type = JoinType.OUTER ∧ it1.outer_row_matched = false then
        some (0, { it1 with
          inner_table := it1.inner_table.set_null_row
          outer_row_matched := true })
      else some (ReadOuterRow O I it1)

/-- The method `OptimizedNestedLoopIterator::ScanInnerIterator`. Every path through the
body of its `while (true)` returns, so the body runs once. -/
def ScanInnerIterator (O : RowIterator σo) (I : RowIterator σi)
    (it : OptimizedNestedLoopIterator σo σi) : Int × OptimizedNestedLoopIterator σo σi :=
  let r := I.Read it.inner_iterator
  let error := r.1
  let it1 := { it with inner_iterator := r.2, calls := Call.inner_Read error :: it.calls }
  if error = 0 then
    (0, { it1 with
      inner_rows_scanned := (it1.inner_rows_scanned + 1) % UINT64_MOD
      outer_row_matched := true })
  else if error ≠ -1 then (error, it1)
  else if it1.join_type = JoinType.OUTER ∧ it1.outer_row_matched = false then
    (0, { it1 with outer_row_matched := true })
  else ReadOuterRow O I it1

/-- The method `OptimizedNestedLoopIterator::Read`. `fuel` bounds the number of iterations of
the `while (true)` dispatch loop; `none` when the budget is used up or a callee
does not return. -/
def Read (O : RowIterator σo) (I : RowIterator σi) :
    Nat → OptimizedNestedLoopIterator σo σi → Option (Int × OptimizedNestedLoopIterator σo σi)
  | 0, _ => none
  | fuel + 1, it =>
    match it.state with
    | State.READING_FIRST_OUTER_ROW =>
      let r := ReadOuterRow O I it
      if r.1 ≠ 0 then
        if r.1 = -1 then some (-1, { r.2 with state := State.END_OF_JOIN })
        else some (r.1, r.2)
      else Read O I fuel r.2
    | State.READING_FROM_CACHE =>
      match ScanCachedInnerTable O I it with
      | none => none
      | some r =>
        if r.1 = 0 then some (0, r.2)
        else if r.1 ≠ -1 then some (r.1, r.2)
        else Read O I fuel r.2
    | State.READING_FROM_ITERATOR =>
      let r := ScanInnerIterator O I it
      if r.1 = 0 then some (0, r.2)
      else if r.1 ≠ -1 then some (r.1, r.2)
      else Read O I fuel r.2
    | State.END_OF_OUTER_ROWS => some (-1, it)
    | State.END_OF_JOIN => some (-1, it)

/-- The override `OptimizedNestedLoopIterator::SetNullRowFlag`: forwards to both children. -/
def SetNullRowFlag (O : RowIterator σo) (I : RowIterator σi) (is_null_row : Bool)
    (it : OptimizedNestedLoopIterator σo σi) : OptimizedNestedLoopIterator σo σi :=
  { it with
    outer_iterator := O.SetNullRowFlag is_null_row it.outer_iterator
    inner_iterator := I.SetNullRowFlag is_null_row it.inner_iterator
    calls := Call.inner_SetNullRowFlag is_null_row ::
      Call.outer_SetNullRowFlag is_null_row :: it.calls }

/-- A caller that invokes `Read()` `n` times in a row and collects the return codes, oldest
first. -/
def ReadMany (O : RowIterator σo) (I : RowIterator σi) (fuel : Nat) :
    Nat → OptimizedNestedLoopIterator σo σi →
      Option (List Int × OptimizedNestedLoopIterator σo σi)
  | 0, it => some ([], it)
  | n + 1, it =>
    match Read O I fuel it with
    | none => none
    | some r =>
      match ReadMany O I fuel n r.2 with
      | none => none
      | some rs => some (r.1 :: rs.1, rs.2)

/-- A child iterator that replays a list of `Read` results and then reports end of data
forever; `Init` succeeds and leaves the position alone. -/
def scriptedSource : RowIterator (List Int) :=
  { Init := fun s => (false, s)
    Read := fun s =>
      match s with
      | [] => (-1, [])
      | c :: rest => (c, rest)
    SetNullRowFlag := fun _ s => s }

/-- A child iterator over a table of `rows` rows: the state is (rows, position); `Init`
rewinds, `Read` yields a row while the position is below `rows` and end of data
afterwards. -/
def tableSource : RowIterator (Nat × Nat) :=
  { Init := fun s => (false, (s.1, 0))
    Read := fun s => if s.2 < s.1 then (0, (s.1, s.2 + 1)) else (-1, s)
    SetNullRowFlag := fun _ s => s }

/-- A join iterator as the constructor leaves it (no snapshot held, live path), over an
outer child that replays `outer` and an inner child that scans a table of `n` rows. -/
def liveJoin (jt : JoinType) (outer : List Int) (n : Nat) :
    OptimizedNestedLoopIterator (List Int) (Nat × Nat) :=
  OptimizedNestedLoopIterator.create outer (n, 0) jt false { record0 := [], null_row := false }

/-- A snapshot with the given rows, built by `AddRow` in order. -/
def snapshotOf (row_length : Nat) (rows : List (List uchar)) : CachedTable :=
  rows.foldl CachedTable.AddRow { rows := [], row_length := row_length, table := 0 }

/-- A join iterator that holds the snapshot `ct` (cache path), over an outer child that
replays `outer`; the inner working buffer starts as `record0`. -/
def cachedJoin (jt : JoinType) (outer : List Int) (ct : CachedTable) (record0 : List uchar) :
    OptimizedNestedLoopIterator (List Int) (Nat × Nat) :=
  { OptimizedNestedLoopIterator.create outer (0, 0) jt false
      { record0 := record0, null_row := false } with
    cached_inner_table := some ct }

/-- A call is a failed read when it is a `Read` on a child that returned a code other than
0 (row) and -1 (end of data). -/
def Call.isReadError : Call → Bool
  | Call.outer_Read c => decide (c ≠ 0 ∧ c ≠ -1)
  | Call.inner_Read c => decide (c ≠ 0 ∧ c ≠ -1)
  | _ => false

/-- What a member function that returns `r` may have added to the call log: the added calls
`d` (newest first) hold no failed read, or the newest of them is a failed read
whose code is `r` and nothing older in `d` is a failed read. -/
def SurfacesReadError (r : Int) (d : List Call) : Prop :=
  (∀ c ∈ d, c.isReadError = false) ∨
    ∃ c rest, d = c :: rest ∧ c.isReadError = true ∧
      (c = Call.outer_Read r ∨ c = Call.inner_Read r) ∧ ∀ c' ∈ rest, c'.isReadError = false

/-- The object that the first `Read()` leaves behind on `liveJoin JoinType.INNER [0] 0` (one
outer row, empty inner source): the outer source is used up and the iterator rests in
`END_OF_OUTER_ROWS`. -/
def liveJoinAtEnd : OptimizedNestedLoopIterator (List Int) (Nat × Nat) :=
  { liveJoin JoinType.INNER [0] 0 with
    outer_iterator := []
    state := State.END_OF_OUTER_ROWS
    outer_rows_scanned := 1
    calls := [Call.outer_Read (-1), Call.inner_Read (-1), Call.inner_Init false,
      Call.outer_Read 0] }

/-- The object that the first `Read()` leaves behind on `liveJoin JoinType.INNER [5, 0] 1`,
whose outer source fails with code 5 on its first read. -/
def liveJoinAfterError : OptimizedNestedLoopIterator (List Int) (Nat × Nat) :=
  { liveJoin JoinType.INNER [5, 0] 1 with
    outer_iterator := [0]
    calls := [Call.outer_Read 5] }

/-- An iterator that has been read to the end: state `END_OF_JOIN`, counters 4 and 12, over
an exhausted outer source and a table of 3 rows. -/
def liveJoinUsed : OptimizedNestedLoopIterator (List Int) (Nat × Nat) :=
  { liveJoin JoinType.INNER [] 3 with
    state := State.END_OF_JOIN
    current_inner_row_index := 2
    outer_row_matched := true
    outer_rows_scanned := 4
    inner_rows_scanned := 12 }

/-- A join iterator fresh from the constructor whose inner relation is `oversizeTable`
(row-count estimate 10001, above the threshold). -/
def oversizeInnerJoin : OptimizedNestedLoopIterator (List Int) (Nat × Nat) :=
  OptimizedNestedLoopIterator.create [0] (10001, 0) JoinType.INNER false oversizeTable

/-- A join iterator fresh from the constructor whose inner relation has a row-count estimate
of 0 (unknown or empty). -/
def emptyInnerJoin : OptimizedNestedLoopIterator (List Int) (Nat × Nat) :=
  OptimizedNestedLoopIterator.create [0] (0, 0) JoinType.INNER false
    { file := some { stats_records := 0 } }

/-- A call on the join iterator made by its consumer. -/
inductive IterCall
  | Init
  | Read
  deriving DecidableEq

/-- The iterator after a sequence of consumer calls, oldest first; every `Read()` runs with a
budget of three loop iterations; `none` when some `Read()` does not return. -/
def OptimizedNestedLoopIterator.run (O : RowIterator σo) (I : RowIterator σi) :
    List IterCall → OptimizedNestedLoopIterator σo σi →
      Option (OptimizedNestedLoopIterator σo σi)
  | [], it => some it
  | IterCall.Init :: rest, it => OptimizedNestedLoopIterator.run O I rest (Init O I it).2
  | IterCall.Read :: rest, it =>
    match Read O I 3 it with
    | none => none
    | some r => OptimizedNestedLoopIterator.run O I rest r.2

/-- A call is a `Read` on the outer source. -/
def Call.isOuterRead : Call → Bool
  | Call.outer_Read _ => true
  | _ => false

/-- A call is a `Read` on the inner source. -/
def Call.isInnerRead : Call → Bool
  | Call.inner_Read _ => true
  | _ => false

/-- A child iterator that never ends: `Init` succeeds and every `Read` yields a row. -/
def endlessSource : RowIterator Unit :=
  { Init := fun s => (false, s)
    Read := fun s => (0, s)
    SetNullRowFlag := fun _ s => s }

/-- A join iterator as the constructor leaves it (live path), over the outer child
`endlessSource` and an inner child that scans a table of `n` rows. -/
def endlessJoin (jt : JoinType) (n : Nat) : OptimizedNestedLoopIterator Unit (Nat × Nat) :=
  OptimizedNestedLoopIterator.create () (n, 0) jt false { record0 := [], null_row := false }

/-- The correspondence between an iterator `c` on the cache path, holding the snapshot `ct`,
and an iterator `l` on the live path whose inner child is a `tableSource` over as
many rows as `ct` has: same join type, same outer source in the same position with
the same reads made, same match flag, same `outer_rows_scanned`, `cache_hits` of
`c` equal to `inner_rows_scanned` of `l`, and the states agree, with
`READING_FROM_CACHE` at cursor `i` on the one side standing for
`READING_FROM_ITERATOR` at position `i` on the other. -/
def Corresponds {σc : Type} (ct : CachedTable) (c : OptimizedNestedLoopIterator σo σc)
    (l : OptimizedNestedLoopIterator σo (Nat × Nat)) : Prop :=
  c.cached_inner_table = some ct ∧
  l.cached_inner_table = none ∧
  c.join_type = l.join_type ∧
  c.outer_iterator = l.outer_iterator ∧
  c.calls.filter Call.isOuterRead = l.calls.filter Call.isOuterRead ∧
  c.outer_row_matched = l.outer_row_matched ∧
  c.outer_rows_scanned = l.outer_rows_scanned ∧
  c.cache_hits = l.inner_rows_scanned ∧
  l.inner_iterator.1 = ct.RowCount ∧
  ((c.state = State.READING_FIRST_OUTER_ROW ∧ l.state = State.READING_FIRST_OUTER_ROW) ∨
    (c.state = State.READING_FROM_CACHE ∧ l.state = State.READING_FROM_ITERATOR ∧
      l.inner_iterator.2 = c.current_inner_row_index) ∨
    (c.state = State.END_OF_OUTER_ROWS ∧ l.state = State.END_OF_OUTER_ROWS) ∨
    (c.state = State.END_OF_JOIN ∧ l.state = State.END_OF_JOIN))

/-- Modelled from the spec: a source in position `s` "yields `M` rows and then end of data":
its next `M` reads return 0 and the read after them returns -1. -/
def yieldsRows {σ : Type} (S : RowIterator σ) : Nat → σ → Bool
  | 0, s => decide ((S.Read s).1 = -1)
  | M + 1, s => decide ((S.Read s).1 = 0) && yieldsRows S M (S.Read s).2

end Executor

end ShannonBase

namespace hybrid_opt

/-- The constant `NUM_FEATURES` of feature_extractor.h. -/
def NUM_FEATURES : Nat := 140

/-- The constant `DEFAULT_TOP_FEATURES` of feature_extractor.h. -/
def DEFAULT_TOP_FEATURES : Nat := 32

/-- The initializer list of `GetFeatureNames`: the 43 named features. -/
def GetFeatureNames.named : List String :=
  [ -- Table features (0-8)
    "table_count", "total_rows_log", "max_rows_log", "min_rows_log",
    "const_table_count", "fullscan_count", "index_scan_count",
    "is_multi_table", "all_const_tables",
    -- Join features (9-15)
    "inner_joins", "outer_joins", "semi_joins", "anti_joins",
    "max_fanout_log", "total_join_cost_log", "join_count",
    -- Predicate features (16-22)
    "eq_predicates", "range_predicates", "like_predicates", "in_predicates",
    "predicate_count", "avg_selectivity", "min_selectivity",
    -- Aggregation features (23-30)
    "has_groupby", "has_distinct", "has_having", "sum_func_count",
    "has_windows", "has_tmp_table", "group_length_log", "group_parts_log",
    -- Ordering features (31-37)
    "has_orderby", "has_limit", "limit_value_log", "simple_order",
    "simple_group", "need_tmp", "skip_sort_order",
    -- Cost features (38-42)
    "total_read_cost_log", "total_prefix_cost_log", "max_read_cost_log",
    "best_read_log", "best_rowcount_log" ]

/-- The `while (names.size() < NUM_FEATURES)` loop of `GetFeatureNames`, with an iteration
budget; `std::to_string` of a size is its decimal numeral. -/
def GetFeatureNames.fill : Nat → List String → Option (List String)
  | 0, names => if names.length < NUM_FEATURES then none else some names
  | fuel + 1, names =>
    if names.length < NUM_FEATURES then
      GetFeatureNames.fill fuel (names ++ ["f" ++ toString names.length])
    else some names

/-- The function `GetFeatureNames`; the budget `NUM_FEATURES` covers a loop that adds one name
per iteration. -/
def GetFeatureNames : Option (List String) :=
  GetFeatureNames.fill NUM_FEATURES GetFeatureNames.named

/-- The nine values `ExtractTableFeatures` stores, in the order it stores them. -/
structure TableFeatures (F : Type) where
  table_count : F
  total_rows_log : F
  max_rows_log : F
  min_rows_log : F
  const_table_count : F
  fullscan_count : F
  index_scan_count : F
  is_multi_table : F
  all_const_tables : F

/-- The seven values `ExtractJoinFeatures` stores, in the order it stores them. -/
structure JoinFeatures (F : Type) where
  inner_joins : F
  outer_joins : F
  semi_joins : F
  anti_joins : F
  max_fanout_log : F
  total_join_cost_log : F
  join_count : F

/-- The seven values `ExtractPredicateFeatures` stores, in the order it stores them. -/
structure PredicateFeatures (F : Type) where
  eq_predicates : F
  range_predicates : F
  like_predicates : F
  in_predicates : F
  predicate_count : F
  avg_selectivity : F
  min_selectivity : F

/-- The eight values `ExtractAggregationFeatures` stores, in the order it stores them. -/
structure AggregationFeatures (F : Type) where
  has_groupby : F
  has_distinct : F
  has_having : F
  sum_func_count : F
  has_windows : F
  has_tmp_table : F
  group_length_log : F
  group_parts_log : F

/-- The seven values `ExtractOrderingFeatures` stores, in the order it stores them. -/
structure OrderingFeatures (F : Type) where
  has_orderby : F
  has_limit : F
  limit_value_log : F
  simple_order : F
  simple_group : F
  need_tmp : F
  skip_sort_order : F

/-- The five values `ExtractCostFeatures` stores before it pads, in the order it stores
them. -/
structure CostFeatures (F : Type) where
  total_read_cost_log : F
  total_prefix_cost_log : F
  max_read_cost_log : F
  best_read_log : F
  best_rowcount_log : F

/-- The part of the extractors that is not modelled: the loops over `join->qep_tab` and the
floating-point arithmetic (`log1p`, divisions, casts to `float`) that compute, from
a `JOIN` object of type `J`, the values to be stored. `J` and the type `F` of
`float` values are parameters: `sql/sql_optimizer.h` is not part of the tree. -/
structure FeatureMath (J F : Type) where
  table : J → TableFeatures F
  join : J → JoinFeatures F
  predicate : J → PredicateFeatures F
  aggregation : J → AggregationFeatures F
  ordering : J → OrderingFeatures F
  cost : J → CostFeatures F

/-- The output arguments `float *features, int &idx` of an extractor, with the ghost list
`writes` of the array indices written so far, oldest first. -/
structure FeatureCursor (F : Type) where
  features : List F
  idx : Nat
  writes : List Nat

variable {J F : Type}

/-- The statement `features[idx++] = v`. -/
def FeatureCursor.put (c : FeatureCursor F) (v : F) : FeatureCursor F :=
  { features := c.features.set c.idx v, idx := c.idx + 1, writes := c.writes ++ [c.idx] }

/-- The stores of `FeatureExtractor::ExtractTableFeatures` (slots 0 to 8 by its comments). -/
def ExtractTableFeatures (M : FeatureMath J F) (join : J) (c : FeatureCursor F) :
    FeatureCursor F :=
  ((((((((c.put (M.table join).table_count).put (M.table join).total_rows_log).put
    (M.table join).max_rows_log).put (M.table join).min_rows_log).put
    (M.table join).const_table_count).put (M.table join).fullscan_count).put
    (M.table join).index_scan_count).put (M.table join).is_multi_table).put
    (M.table join).all_const_tables

/-- The stores of `FeatureExtractor::ExtractJoinFeatures` (slots 9 to 15 by its comments). -/
def ExtractJoinFeatures (M : FeatureMath J F) (join : J) (c : FeatureCursor F) :
    FeatureCursor F :=
  ((((((c.put (M.join join).inner_joins).put (M.join join).outer_joins).put
    (M.join join).semi_joins).put (M.join join).anti_joins).put
    (M.join join).max_fanout_log).put (M.join join).total_join_cost_log).put
    (M.join join).join_count

/-- The stores of `FeatureExtractor::ExtractPredicateFeatures` (slots 16 to 22 by its
comments). -/
def ExtractPredicateFeatures (M : FeatureMath J F) (join : J) (c : FeatureCursor F) :
    FeatureCursor F :=
  ((((((c.put (M.predicate join).eq_predicates).put (M.predicate join).range_predicates).put
    (M.predicate join).like_predicates).put (M.predicate join).in_predicates).put
    (M.predicate join).predicate_count).put (M.predicate join).avg_selectivity).put
    (M.predicate join).min_selectivity

/-- The stores of `FeatureExtractor::ExtractAggregationFeatures` (slots 23 to 30 by its
comments). -/
def ExtractAggregationFeatures (M : FeatureMath J F) (join : J) (c : FeatureCursor F) :
    FeatureCursor F :=
  (((((((c.put (M.aggregation join).has_groupby).put (M.aggregation join).has_distinct).put
    (M.aggregation join).has_having).put (M.aggregation join).sum_func_count).put
    (M.aggregation join).has_windows).put (M.aggregation join).has_tmp_table).put
    (M.aggregation join).group_length_log).put (M.aggregation join).group_parts_log

/-- The stores of `FeatureExtractor::ExtractOrderingFeatures` (slots 31 to 37 by its
comments). -/
def ExtractOrderingFeatures (M : FeatureMath J F) (join : J) (c : FeatureCursor F) :
    FeatureCursor F :=
  ((((((c.put (M.ordering join).has_orderby).put (M.ordering join).has_limit).put
    (M.ordering join).limit_value_log).put (M.ordering join).simple_order).put
    (M.ordering join).simple_group).put (M.ordering join).need_tmp).put
    (M.ordering join).skip_sort_order

/-- The loop `while (idx < NUM_FEATURES) features[idx++] = 0.0f` of `ExtractCostFeatures`,
with an iteration budget. -/
def ExtractCostFeatures.pad [Zero F] : Nat → FeatureCursor F → Option (FeatureCursor F)
  | 0, c => if c.idx < NUM_FEATURES then none else some c
  | fuel + 1, c =>
    if c.idx < NUM_FEATURES then ExtractCostFeatures.pad fuel (c.put 0) else some c

/-- The stores of `FeatureExtractor::ExtractCostFeatures` (slots 38 to 42 by its comments,
then zeros up to `NUM_FEATURES`); the loop budget is the number of slots left. -/
def ExtractCostFeatures [Zero F] (M : FeatureMath J F) (join : J) (c : FeatureCursor F) :
    Option (FeatureCursor F) :=
  let c5 := ((((c.put (M.cost join).total_read_cost_log).put
    (M.cost join).total_prefix_cost_log).put (M.cost join).max_read_cost_log).put
    (M.cost join).best_read_log).put (M.cost join).best_rowcount_log
  ExtractCostFeatures.pad (NUM_FEATURES - c5.idx) c5

/-- One entry that the code adds under `features` in the optimizer trace: the index, the
value and, where the code adds one, the name. -/
structure TraceItem (F : Type) where
  index : Int
  value : F
  name : Option String

/-- The part of `Opt_trace_context` that the code uses (`sql/opt_trace.h` is not part of the
tree): whether the trace `is_started()`, and the nodes added to it, each with its
key, the number it reports and its list of items, oldest first. -/
structure Opt_trace_context (F : Type) where
  is_started : Bool
  nodes : List (String × Int × List (TraceItem F))

/-- The method `FeatureExtractor::AddToOptimizerTrace`: one node with `feature_count` items
`(i, features[i])`; `none` if `feature_count` items do not fit in `features` (a read
outside the array). -/
def AddToOptimizerTrace [Zero F] (trace : Option (Opt_trace_context F)) (features : List F)
    (feature_count : Nat) : Option (Option (Opt_trace_context F)) :=
  match trace with
  | none => some none
  | some t =>
    if t.is_started = false then some (some t)
    else if features.length < feature_count then none
    else
      some (some { t with
        nodes := t.nodes ++
          [("hybrid_optimizer_features", (feature_count : Int),
            (List.range feature_count).map
              (fun i => { index := (i : Int), value := features.getD i 0, name := none }))] })

/-- The method `FeatureExtractor::ExtractFeatures`. The result lists the return value, the
array `features`, the trace and the ghost list of the indices written; it is
`none` if a loop budget runs out or the trace reads outside the array. A null
`join` returns false before anything is touched. -/
def ExtractFeatures [Zero F] (M : FeatureMath J F) (join : Option J) (features : List F)
    (trace : Option (Opt_trace_context F)) :
    Option (Bool × List F × Option (Opt_trace_context F) × List Nat) :=
  match join with
  | none => some (false, features, trace, [])
  | some j =>
    let c0 : FeatureCursor F :=
      { features := List.replicate NUM_FEATURES 0, idx := 0, writes := [] }
    let c1 := ExtractTableFeatures M j c0
    let c2 := ExtractJoinFeatures M j c1
    let c3 := ExtractPredicateFeatures M j c2
    let c4 := ExtractAggregationFeatures M j c3
    let c5 := ExtractOrderingFeatures M j c4
    match ExtractCostFeatures M j c5 with
    | none => none
    | some c6 =>
      match AddToOptimizerTrace trace c6.features NUM_FEATURES with
      | none => none
      | some trace1 => some (decide (c6.idx > 0), c6.features, trace1, c6.writes)

/-- The selection loop of `ExtractSelectedFeatures`: `push_back(all_features[idx])` for every
`idx` with `0 <= idx < NUM_FEATURES`, in the order of `feature_indices`. -/
def ExtractSelectedFeatures.select [Zero F] (all_features : List F) (feature_indices : List Int) :
    List F :=
  feature_indices.foldl
    (fun selected idx =>
      if idx ≥ 0 ∧ idx < (NUM_FEATURES : Int) then
        selected ++ [all_features.getD idx.toNat 0]
      else selected)
    []

/-- One iteration of the trace loop of `ExtractSelectedFeatures`, for position `i`: the item
`(feature_indices[i], selected_features[i], name)`. The name is looked up whenever
`feature_indices[i] < feature_names.size()`; for a negative index that lookup
`feature_names[feature_indices[i]]` lies outside the vector, and the result is
`none`. -/
def ExtractSelectedFeatures.traceItem (feature_names : List String) (feature_indices : List Int)
    (selected_features : List F) (i : Nat) : Option (TraceItem F) :=
  match feature_indices.get? i, selected_features.get? i with
  | some index, some value =>
    if index < (feature_names.length : Int) then
      if index < 0 then none
      else
        (feature_names.get? index.toNat).map
          (fun name => { index := index, value := value, name := some name })
    else some { index := index, value := value, name := none }
  | _, _ => none

/-- The method `FeatureExtractor::ExtractSelectedFeatures`. The result lists the return
value, the vector `selected_features` and the trace; it is `none` when the call
has no defined result (a read outside `feature_names`). -/
def ExtractSelectedFeatures [Zero F] (M : FeatureMath J F) (join : Option J)
    (feature_indices : List Int) (selected_features : List F)
    (trace : Option (Opt_trace_context F)) :
    Option (Bool × List F × Option (Opt_trace_context F)) :=
  match ExtractFeatures M join [] none with
  | none => none
  | some (false, _, _, _) => some (false, selected_features, trace)
  | some (true, all_features, _, _) =>
    let selected := ExtractSelectedFeatures.select all_features feature_indices
    match trace with
    | none => some (true, selected, none)
    | some t =>
      if t.is_started = false then some (true, selected, some t)
      else
        match GetFeatureNames with
        | none => none
        | some feature_names =>
          ((List.range selected.length).mapM
            (ExtractSelectedFeatures.traceItem feature_names feature_indices selected)).map
            (fun items =>
              (true, selected,
                some { t with
                  nodes := t.nodes ++
                    [("hybrid_optimizer_selected_features", (selected.length : Int), items)] }))

/-- A `FeatureMath` for examples: the `JOIN` is a natural number `j` and the value computed for
the `k`-th named feature is `100 * j + k`. -/
def exampleMath : FeatureMath Nat Int :=
  { table := fun j =>
      { table_count := 100 * j + 0, total_rows_log := 100 * j + 1, max_rows_log := 100 * j + 2
        min_rows_log := 100 * j + 3, const_table_count := 100 * j + 4
        fullscan_count := 100 * j + 5, index_scan_count := 100 * j + 6
        is_multi_table := 100 * j + 7, all_const_tables := 100 * j + 8 }
    join := fun j =>
      { inner_joins := 100 * j + 9, outer_joins := 100 * j + 10, semi_joins := 100 * j + 11
        anti_joins := 100 * j + 12, max_fanout_log := 100 * j + 13
        total_join_cost_log := 100 * j + 14, join_count := 100 * j + 15 }
    predicate := fun j =>
      { eq_predicates := 100 * j + 16, range_predicates := 100 * j + 17
        like_predicates := 100 * j + 18, in_predicates := 100 * j + 19
        predicate_count := 100 * j + 20, avg_selectivity := 100 * j + 21
        min_selectivity := 100 * j + 22 }
    aggregation := fun j =>
      { has_groupby := 100 * j + 23, has_distinct := 100 * j + 24, has_having := 100 * j + 25
        sum_func_count := 100 * j + 26, has_windows := 100 * j + 27
        has_tmp_table := 100 * j + 28, group_length_log := 100 * j + 29
        group_parts_log := 100 * j + 30 }
    ordering := fun j =>
      { has_orderby := 100 * j + 31, has_limit := 100 * j + 32, limit_value_log := 100 * j + 33
        simple_order := 100 * j + 34, simple_group := 100 * j + 35, need_tmp := 100 * j + 36
        skip_sort_order := 100 * j + 37 }
    cost := fun j =>
      { total_read_cost_log := 100 * j + 38, total_prefix_cost_log := 100 * j + 39
        max_read_cost_log := 100 * j + 40, best_read_log := 100 * j + 41
        best_rowcount_log := 100 * j + 42 } }

/-- The 43 values that the six extractors store for a `JOIN`, in the order in which they are
stored. -/
def namedValues (M : FeatureMath J F) (join : J) : List F :=
  [ (M.table join).table_count, (M.table join).total_rows_log, (M.table join).max_rows_log,
    (M.table join).min_rows_log, (M.table join).const_table_count,
    (M.table join).fullscan_count, (M.table join).index_scan_count,
    (M.table join).is_multi_table, (M.table join).all_const_tables,
    (M.join join).inner_joins, (M.join join).outer_joins, (M.join join).semi_joins,
    (M.join join).anti_joins, (M.join join).max_fanout_log, (M.join join).total_join_cost_log,
    (M.join join).join_count,
    (M.predicate join).eq_predicates, (M.predicate join).range_predicates,
    (M.predicate join).like_predicates, (M.predicate join).in_predicates,
    (M.predicate join).predicate_count, (M.predicate join).avg_selectivity,
    (M.predicate join).min_selectivity,
    (M.aggregation join).has_groupby, (M.aggregation join).has_distinct,
    (M.aggregation join).has_having, (M.aggregation join).sum_func_count,
    (M.aggregation join).has_windows, (M.aggregation join).has_tmp_table,
    (M.aggregation join).group_length_log, (M.aggregation join).group_parts_log,
    (M.ordering join).has_orderby, (M.ordering join).has_limit,
    (M.ordering join).limit_value_log, (M.ordering join).simple_order,
    (M.ordering join).simple_group, (M.ordering join).need_tmp,
    (M.ordering join).skip_sort_order,
    (M.cost join).total_read_cost_log, (M.cost join).total_prefix_cost_log,
    (M.cost join).max_read_cost_log, (M.cost join).best_read_log,
    (M.cost join).best_rowcount_log ]

/-- The cursor over an array whose first slots hold `vals`, written in order from slot 0,
and whose other `n` slots hold 0. -/
def FeatureCursor.filled [Zero F] (vals : List F) (n : Nat) : FeatureCursor F :=
  { features := vals ++ List.replicate n 0, idx := vals.length,
    writes := List.range vals.length }

end hybrid_opt

/-! ## Theorems -/

namespace ShannonBase

namespace Executor

variable {σo σi : Type}

/-- C1 (the code at the failing input). INNER join on the live path, outer source of M = 2
rows, inner source of N = 1 row: four `Read()` calls return 0, 0, 0, -1, that is
three row-found signals instead of M * N = 2, while `inner_rows_scanned` ends
at 2. The second row-found is returned right after the next outer row was read
and the inner source re-initialised: the last calls before it are
`inner_Read (-1)`, `outer_Read 0`, `inner_Init`, with no successful inner read. -/
theorem live_inner_join_spurious_row :
    (ReadMany scriptedSource tableSource 3 4 (liveJoin JoinType.INNER [0, 0] 1)).map
        (fun r => (r.1, r.2.inner_rows_scanned, r.2.outer_rows_scanned))
      = some ([0, 0, 0, -1], 2, 2)
    ∧ (ReadMany scriptedSource tableSource 3 1 (liveJoin JoinType.INNER [0, 0] 1)).map
        (fun r => (r.1, r.2.calls))
      = some ([0], [Call.inner_Read 0, Call.inner_Init false, Call.outer_Read 0])
    ∧ (ReadMany scriptedSource tableSource 3 2 (liveJoin JoinType.INNER [0, 0] 1)).map
        (fun r => (r.1, r.2.calls, r.2.inner_rows_scanned, r.2.outer_row_matched))
      = some ([0, 0], [Call.inner_Init false, Call.outer_Read 0, Call.inner_Read (-1),
          Call.inner_Read 0, Call.inner_Init false, Call.outer_Read 0], 1, false) := by
  decide

/-- What the cache path would do if a snapshot were held (`cachedJoin` writes one into the
iterator directly; no call sequence reaches such a state). INNER join, outer =
[o1, o2], snapshot = [i1] with i1 = [7]: four `Read()` calls return 0, 0, 0, -1,
that is three
row-found signals instead of M * N = 2, and `cache_hits` ends at 2. The second
row-found is returned right after outer row o2 was read, with no snapshot row
fetched (cursor 0, `cache_hits` still 1, match flag false). -/
theorem cached_inner_join_spurious_row :
    (ReadMany scriptedSource tableSource 3 4
        (cachedJoin JoinType.INNER [0, 0] (snapshotOf 1 [[7]]) [0])).map
        (fun r => (r.1, r.2.cache_hits, r.2.outer_rows_scanned))
      = some ([0, 0, 0, -1], 2, 2)
    ∧ (ReadMany scriptedSource tableSource 3 1
        (cachedJoin JoinType.INNER [0, 0] (snapshotOf 1 [[7]]) [0])).map
        (fun r => (r.1, r.2.outer_rows_scanned, r.2.current_inner_row_index, r.2.cache_hits,
          r.2.outer_row_matched, r.2.inner_table.record0))
      = some ([0], 1, 1, 1, true, [7])
    ∧ (ReadMany scriptedSource tableSource 3 2
        (cachedJoin JoinType.INNER [0, 0] (snapshotOf 1 [[7]]) [0])).map
        (fun r => (r.1, r.2.outer_rows_scanned, r.2.current_inner_row_index, r.2.cache_hits,
          r.2.outer_row_matched, r.2.inner_table.record0))
      = some ([0, 0], 2, 0, 1, false, [7]) := by
  refine ⟨?_, ?_, ?_⟩ <;> rfl

/-- What the cache path would do if a snapshot were held (`cachedJoin` writes one into the
iterator directly; no call sequence reaches such a state). INNER join holding an
empty snapshot, outer = [o1, o2]: the first `Read()` returns 0 (row found) after
consuming both outer rows, and only the second returns -1; one row is emitted
instead of none. -/
theorem cached_inner_join_empty_snapshot_emits :
    (ReadMany scriptedSource tableSource 3 1
        (cachedJoin JoinType.INNER [0, 0] (snapshotOf 1 []) [0])).map
        (fun r => (r.1, r.2.outer_rows_scanned, r.2.calls))
      = some ([0], 2, [Call.outer_Read 0, Call.outer_Read 0])
    ∧ (ReadMany scriptedSource tableSource 3 3
        (cachedJoin JoinType.INNER [0, 0] (snapshotOf 1 []) [0])).map
        (fun r => (r.1, r.2.outer_rows_scanned, r.2.cache_hits))
      = some ([0, -1, -1], 2, 0) := by
  decide

/-- What the cache path would do if a snapshot were held (`cachedJoin` writes one into the
iterator directly; no call sequence reaches such a state). LEFT-OUTER join holding
an empty snapshot, outer = [o1, o2]: five `Read()` calls return 0, 0, 0, -1, -1,
that is three row-found signals instead of M = 2. The second one is returned
right after o2 was read, with the match flag false and without a `set_null_row`
of its own. For outer = [o1] the sequence is 0, -1 with `cache_hits` = 0. -/
theorem cached_left_join_empty_snapshot_extra_row :
    (ReadMany scriptedSource tableSource 3 5
        (cachedJoin JoinType.OUTER [0, 0] (snapshotOf 1 []) [0])).map
        (fun r => (r.1, r.2.outer_rows_scanned, r.2.cache_hits))
      = some ([0, 0, 0, -1, -1], 2, 0)
    ∧ (ReadMany scriptedSource tableSource 3 1
        (cachedJoin JoinType.OUTER [0, 0] (snapshotOf 1 []) [0])).map
        (fun r => (r.1, r.2.outer_rows_scanned, r.2.outer_row_matched, r.2.inner_table.null_row))
      = some ([0], 1, true, true)
    ∧ (ReadMany scriptedSource tableSource 3 2
        (cachedJoin JoinType.OUTER [0, 0] (snapshotOf 1 []) [0])).map
        (fun r => (r.1, r.2.outer_rows_scanned, r.2.outer_row_matched))
      = some ([0, 0], 2, false)
    ∧ (ReadMany scriptedSource tableSource 3 2
        (cachedJoin JoinType.OUTER [0] (snapshotOf 1 []) [0])).map
        (fun r => (r.1, r.2.outer_rows_scanned, r.2.cache_hits, r.2.inner_table.null_row))
      = some ([0, -1], 1, 0, true) := by
  decide

/-- C5 (the code at the failing input). LEFT-OUTER join on the live path, outer = [o1],
empty inner source: the first `Read()` returns 0 with the match flag set, and the
complete list of calls it made on the children is `outer_Read 0`, `inner_Init`,
`inner_Read (-1)` (newest first below): no `SetNullRowFlag(true)` on the inner
source. The second `Read()` returns -1, so the null-extended row is emitted once. -/
theorem live_left_join_null_row_not_flagged :
    (ReadMany scriptedSource tableSource 3 1 (liveJoin JoinType.OUTER [0] 0)).map
        (fun r => (r.1, r.2.outer_row_matched, r.2.calls))
      = some ([0], true, [Call.inner_Read (-1), Call.inner_Init false, Call.outer_Read 0])
    ∧ (ReadMany scriptedSource tableSource 3 2 (liveJoin JoinType.OUTER [0] 0)).map
        (fun r => (r.1, r.2.calls))
      = some ([0, -1], [Call.outer_Read (-1), Call.inner_Read (-1), Call.inner_Read (-1),
          Call.inner_Init false, Call.outer_Read 0]) := by
  decide

/-! ### Postconditions of the member functions -/

theorem ReadOuterRow_frame (O : RowIterator σo) (I : RowIterator σi)
    (it : OptimizedNestedLoopIterator σo σi) :
    (ReadOuterRow O I it).2.cached_inner_table = it.cached_inner_table ∧
    (ReadOuterRow O I it).2.join_type = it.join_type ∧
    (ReadOuterRow O I it).2.inner_rows_scanned = it.inner_rows_scanned ∧
    (ReadOuterRow O I it).2.cache_hits = it.cache_hits ∧
    (ReadOuterRow O I it).2.inner_table = it.inner_table := by
  unfold ReadOuterRow
  dsimp only
  split_ifs <;> simp

theorem ReadOuterRow_state (O : RowIterator σo) (I : RowIterator σi)
    (it : OptimizedNestedLoopIterator σo σi) :
    ((ReadOuterRow O I it).1 = 0 →
      ((ReadOuterRow O I it).2.state = State.READING_FROM_CACHE ∧
          it.cached_inner_table.isSome = true) ∨
        (ReadOuterRow O I it).2.state = State.READING_FROM_ITERATOR) ∧
    ((ReadOuterRow O I it).1 = -1 → (ReadOuterRow O I it).2.state = State.END_OF_OUTER_ROWS) ∧
    ((ReadOuterRow O I it).1 ≠ 0 → (ReadOuterRow O I it).1 ≠ -1 →
      (ReadOuterRow O I it).2.state = it.state ∧
      ((ReadOuterRow O I it).2.cached_inner_table.isSome = true →
        (ReadOuterRow O I it).2.current_inner_row_index = it.current_inner_row_index ∧
        (ReadOuterRow O I it).2.outer_row_matched = it.outer_row_matched)) := by
  unfold ReadOuterRow
  dsimp only
  split_ifs <;> simp_all

theorem ReadOuterRow_calls (O : RowIterator σo) (I : RowIterator σi)
    (it : OptimizedNestedLoopIterator σo σi) :
    ∃ d, (ReadOuterRow O I it).2.calls = d ++ it.calls ∧ d ≠ [] ∧
      SurfacesReadError (ReadOuterRow O I it).1 d := by
  unfold ReadOuterRow
  dsimp only
  split_ifs with h1 h2 h3 h4
  · exact ⟨[Call.outer_Read (O.Read it.outer_iterator).1], rfl, by simp,
      Or.inl (by simp [Call.isReadError, h2])⟩
  · exact ⟨[Call.outer_Read (O.Read it.outer_iterator).1], rfl, by simp,
      Or.inr ⟨_, [], rfl, by simp [Call.isReadError, h1, h2], Or.inl rfl, by simp⟩⟩
  · simp only [ne_eq, Decidable.not_not] at h1
    exact ⟨[Call.outer_Read (O.Read it.outer_iterator).1], rfl, by simp,
      Or.inl (by simp [Call.isReadError, h1])⟩
  · simp only [ne_eq, Decidable.not_not] at h1
    exact ⟨[Call.inner_Init (I.Init it.inner_iterator).1,
      Call.outer_Read (O.Read it.outer_iterator).1], rfl, by simp,
      Or.inl (by simp [Call.isReadError, h1])⟩
  · simp only [ne_eq, Decidable.not_not] at h1
    exact ⟨[Call.inner_Init (I.Init it.inner_iterator).1,
      Call.outer_Read (O.Read it.outer_iterator).1], rfl, by simp,
      Or.inl (by simp [Call.isReadError, h1])⟩

theorem SurfacesReadError_append {r : Int} {d q : List Call}
    (h : SurfacesReadError r d) (hq : ∀ c ∈ q, c.isReadError = false) :
    SurfacesReadError r (d ++ q) := by
  rcases h with h | ⟨c, rest, hd, hc, hr, hrest⟩
  · left
    intro c hc
    rcases List.mem_append.mp hc with h1 | h1
    · exact h c h1
    · exact hq c h1
  · right
    refine ⟨c, rest ++ q, by simp [hd], hc, hr, ?_⟩
    intro c' hc'
    rcases List.mem_append.mp hc' with h1 | h1
    · exact hrest c' h1
    · exact hq c' h1

theorem ScanInnerIterator_frame (O : RowIterator σo) (I : RowIterator σi)
    (it : OptimizedNestedLoopIterator σo σi) :
    (ScanInnerIterator O I it).2.cached_inner_table = it.cached_inner_table ∧
    (ScanInnerIterator O I it).2.join_type = it.join_type := by
  unfold ScanInnerIterator
  dsimp only
  split_ifs <;> simp [ReadOuterRow_frame]

theorem ScanInnerIterator_state (O : RowIterator σo) (I : RowIterator σi)
    (it : OptimizedNestedLoopIterator σo σi) :
    ((ScanInnerIterator O I it).1 = -1 →
      (ScanInnerIterator O I it).2.state = State.END_OF_OUTER_ROWS) ∧
    ((ScanInnerIterator O I it).1 ≠ 0 → (ScanInnerIterator O I it).1 ≠ -1 →
      (ScanInnerIterator O I it).2.state = it.state) := by
  unfold ScanInnerIterator
  dsimp only
  split_ifs with h1 h2 h3
  · simp
  · simp only [ne_eq, Decidable.not_not] at h2
    simp [h1, h2]
  · simp
  · constructor
    · intro h; exact (ReadOuterRow_state O I _).2.1 h
    · intro h h'; exact ((ReadOuterRow_state O I _).2.2 h h').1

theorem ScanInnerIterator_calls (O : RowIterator σo) (I : RowIterator σi)
    (it : OptimizedNestedLoopIterator σo σi) :
    ∃ d, (ScanInnerIterator O I it).2.calls = d ++ it.calls ∧ d ≠ [] ∧
      SurfacesReadError (ScanInnerIterator O I it).1 d := by
  unfold ScanInnerIterator
  dsimp only
  split_ifs with h1 h2 h3
  · exact ⟨[Call.inner_Read (I.Read it.inner_iterator).1], rfl, by simp,
      Or.inl (by simp [Call.isReadError, h1])⟩
  · exact ⟨[Call.inner_Read (I.Read it.inner_iterator).1], rfl, by simp,
      Or.inr ⟨_, [], rfl, by simp [Call.isReadError, h1, h2], Or.inr rfl, by simp⟩⟩
  · simp only [ne_eq, Decidable.not_not] at h2
    exact ⟨[Call.inner_Read (I.Read it.inner_iterator).1], rfl, by simp,
      Or.inl (by simp [Call.isReadError, h2])⟩
  · simp only [ne_eq, Decidable.not_not] at h2
    obtain ⟨d, hd, hne, hs⟩ := ReadOuterRow_calls O I
      { it with inner_iterator := (I.Read it.inner_iterator).2,
                calls := Call.inner_Read (I.Read it.inner_iterator).1 :: it.calls }
    refine ⟨d ++ [Call.inner_Read (I.Read it.inner_iterator).1], ?_, by simp [hne], ?_⟩
    · rw [hd]; simp
    · exact SurfacesReadError_append hs (by simp [Call.isReadError, h2])

theorem CachedTable.GetRow_lt (t : CachedTable) (index : Nat) (h : index < t.RowCount) :
    ∃ data, t.GetRow index = some data := by
  unfold CachedTable.RowCount at h
  unfold CachedTable.GetRow
  rw [if_pos h]
  rw [List.get?_eq_get h]
  exact ⟨_, rfl⟩

/-- Closed form of `ScanCachedInnerTable` when a snapshot is held. -/
theorem ScanCachedInnerTable_eq (O : RowIterator σo) (I : RowIterator σi)
    (it : OptimizedNestedLoopIterator σo σi) (ct : CachedTable)
    (hct : it.cached_inner_table = some ct) :
    ScanCachedInnerTable O I it =
      if it.current_inner_row_index < ct.RowCount then
        (ct.GetRow it.current_inner_row_index).map (fun data =>
          ((0 : Int), { it with
            current_inner_row_index := it.current_inner_row_index + 1
            cache_hits := (it.cache_hits + 1) % UINT64_MOD
            inner_table := { it.inner_table with
              record0 := memcpy it.inner_table.record0 data ct.row_length }
            outer_row_matched := true }))
      else if it.join_type = JoinType.OUTER ∧ it.outer_row_matched = false then
        some (0, { it with
          inner_table := it.inner_table.set_null_row
          outer_row_matched := true })
      else some (ReadOuterRow O I it) := by
  unfold ScanCachedInnerTable
  split
  · rename_i h; rw [hct] at h; cases h
  rename_i ct' hct'
  obtain rfl : ct = ct' := by rw [hct] at hct'; cases hct'; rfl
  by_cases hlt : it.current_inner_row_index < ct.RowCount
  · obtain ⟨k, hk⟩ : ∃ k, ct.RowCount - it.current_inner_row_index = k + 1 :=
      ⟨ct.RowCount - it.current_inner_row_index - 1, by omega⟩
    obtain ⟨data, hdata⟩ := CachedTable.GetRow_lt ct _ hlt
    rw [hk, if_pos hlt]
    simp [ScanCachedInnerTable.scan, hlt, hdata]
  · have h0 : ct.RowCount - it.current_inner_row_index = 0 := by omega
    rw [h0, if_neg hlt]
    simp only [ScanCachedInnerTable.scan, if_neg hlt]

theorem SurfacesReadError_quiet {r : Int} {d : List Call}
    (h : SurfacesReadError r d) (hr : r = 0 ∨ r = -1) : ∀ c ∈ d, c.isReadError = false := by
  rcases h with h | ⟨c, rest, _, hc, hcr, _⟩
  · exact h
  · exfalso
    rcases hcr with rfl | rfl <;> rcases hr with rfl | rfl <;> simp [Call.isReadError] at hc

/-- Postcondition of `ScanCachedInnerTable` when a snapshot is held: it returns, keeps the
snapshot, and reports -1 only from state `END_OF_OUTER_ROWS`; an error code is only
returned with the cursor at the end of the snapshot and no null row pending. -/
theorem ScanCachedInnerTable_post (O : RowIterator σo) (I : RowIterator σi)
    (it : OptimizedNestedLoopIterator σo σi) (ct : CachedTable)
    (hct : it.cached_inner_table = some ct) :
    ∃ r, ScanCachedInnerTable O I it = some r ∧
      r.2.cached_inner_table = some ct ∧
      (r.1 = -1 → r.2.state = State.END_OF_OUTER_ROWS) ∧
      (r.1 ≠ 0 → r.1 ≠ -1 →
        r.2.state = it.state ∧ ct.RowCount ≤ r.2.current_inner_row_index ∧
        ¬ (r.2.join_type = JoinType.OUTER ∧ r.2.outer_row_matched = false)) ∧
      ∃ d, r.2.calls = d ++ it.calls ∧ SurfacesReadError r.1 d := by
  rw [ScanCachedInnerTable_eq O I it ct hct]
  by_cases hlt : it.current_inner_row_index < ct.RowCount
  · obtain ⟨data, hdata⟩ := CachedTable.GetRow_lt ct _ hlt
    rw [if_pos hlt, hdata]
    refine ⟨_, rfl, hct, by simp, by simp, [], by simp, Or.inl (by simp)⟩
  · rw [if_neg hlt]
    by_cases hnull : it.join_type = JoinType.OUTER ∧ it.outer_row_matched = false
    · rw [if_pos hnull]
      refine ⟨_, rfl, hct, by simp, by simp, [], by simp, Or.inl (by simp)⟩
    · rw [if_neg hnull]
      have hf := ReadOuterRow_frame O I it
      have hs := ReadOuterRow_state O I it
      obtain ⟨d, hd, _, hsur⟩ := ReadOuterRow_calls O I it
      refine ⟨_, rfl, by rw [hf.1, hct], hs.2.1, ?_, d, hd, hsur⟩
      intro h0 h1
      have h3 := hs.2.2 h0 h1
      have h4 := h3.2 (by rw [hf.1, hct]; rfl)
      refine ⟨h3.1, ?_, ?_⟩
      · rw [h4.1]; omega
      · rw [hf.2.1, h4.2]; exact hnull

/-- Every `Read()` only adds calls to the log, and a failed read among them is the newest
one and carries the return value. -/
theorem Read_calls (O : RowIterator σo) (I : RowIterator σi) :
    ∀ (fuel : Nat) (it : OptimizedNestedLoopIterator σo σi) (r : Int)
      (it' : OptimizedNestedLoopIterator σo σi),
      Read O I fuel it = some (r, it') →
      ∃ d, it'.calls = d ++ it.calls ∧ SurfacesReadError r d := by
  intro fuel
  induction fuel with
  | zero => intro it r it' h; simp [Read] at h
  | succ n ih =>
    intro it r it' h
    rw [Read] at h
    split at h
    · dsimp only at h
      obtain ⟨d1, hd1, _, hs1⟩ := ReadOuterRow_calls O I it
      split at h
      · split at h
        · rename_i h1 h2
          simp only [Option.some.injEq, Prod.mk.injEq] at h
          obtain ⟨rfl, rfl⟩ := h
          exact ⟨d1, hd1, by rw [h2] at hs1; exact hs1⟩
        · simp only [Option.some.injEq, Prod.mk.injEq] at h
          obtain ⟨rfl, rfl⟩ := h
          exact ⟨d1, hd1, hs1⟩
      · rename_i h1
        simp only [ne_eq, Decidable.not_not] at h1
        obtain ⟨d2, hd2, hs2⟩ := ih _ _ _ h
        refine ⟨d2 ++ d1, by rw [hd2, hd1, List.append_assoc], ?_⟩
        exact SurfacesReadError_append hs2 (SurfacesReadError_quiet hs1 (Or.inl h1))
    · split at h
      · simp at h
      · rename_i rr hrr
        have hct : ∃ ct, it.cached_inner_table = some ct := by
          cases hc : it.cached_inner_table with
          | none => simp [ScanCachedInnerTable, hc] at hrr
          | some ct => exact ⟨ct, rfl⟩
        obtain ⟨ct, hct⟩ := hct
        obtain ⟨rr', hrr', _, _, _, d1, hd1, hs1⟩ := ScanCachedInnerTable_post O I it ct hct
        rw [hrr] at hrr'
        cases hrr'
        split at h
        · rename_i h1
          simp only [Option.some.injEq, Prod.mk.injEq] at h
          obtain ⟨rfl, rfl⟩ := h
          exact ⟨d1, hd1, by rw [h1] at hs1; exact hs1⟩
        · split at h
          · simp only [Option.some.injEq, Prod.mk.injEq] at h
            obtain ⟨rfl, rfl⟩ := h
            exact ⟨d1, hd1, hs1⟩
          · rename_i h1 h2
            simp only [ne_eq, Decidable.not_not] at h2
            obtain ⟨d2, hd2, hs2⟩ := ih _ _ _ h
            refine ⟨d2 ++ d1, by rw [hd2, hd1, List.append_assoc], ?_⟩
            exact SurfacesReadError_append hs2 (SurfacesReadError_quiet hs1 (Or.inr h2))
    · dsimp only at h
      obtain ⟨d1, hd1, _, hs1⟩ := ScanInnerIterator_calls O I it
      split at h
      · rename_i h1
        simp only [Option.some.injEq, Prod.mk.injEq] at h
        obtain ⟨rfl, rfl⟩ := h
        exact ⟨d1, hd1, by rw [h1] at hs1; exact hs1⟩
      · split at h
        · simp only [Option.some.injEq, Prod.mk.injEq] at h
          obtain ⟨rfl, rfl⟩ := h
          exact ⟨d1, hd1, hs1⟩
        · rename_i h1 h2
          simp only [ne_eq, Decidable.not_not] at h2
          obtain ⟨d2, hd2, hs2⟩ := ih _ _ _ h
          refine ⟨d2 ++ d1, by rw [hd2, hd1, List.append_assoc], ?_⟩
          exact SurfacesReadError_append hs2 (SurfacesReadError_quiet hs1 (Or.inr h2))
    · simp only [Option.some.injEq, Prod.mk.injEq] at h
      obtain ⟨rfl, rfl⟩ := h
      exact ⟨[], by simp, Or.inl (by simp)⟩
    · simp only [Option.some.injEq, Prod.mk.injEq] at h
      obtain ⟨rfl, rfl⟩ := h
      exact ⟨[], by simp, Or.inl (by simp)⟩

theorem Read_terminal (O : RowIterator σo) (I : RowIterator σi) (n : Nat)
    (it : OptimizedNestedLoopIterator σo σi)
    (h : it.state = State.END_OF_OUTER_ROWS ∨ it.state = State.END_OF_JOIN) :
    Read O I (n + 1) it = some (-1, it) := by
  rcases h with h | h <;> simp [Read, h]

theorem Read_minus_one_state (O : RowIterator σo) (I : RowIterator σi) :
    ∀ (fuel : Nat) (it it' : OptimizedNestedLoopIterator σo σi),
      Read O I fuel it = some (-1, it') →
      it'.state = State.END_OF_OUTER_ROWS ∨ it'.state = State.END_OF_JOIN := by
  intro fuel
  induction fuel with
  | zero => intro it it' h; simp [Read] at h
  | succ n ih =>
    intro it it' h
    rw [Read] at h
    split at h
    · dsimp only at h
      split at h
      · split at h
        · simp at h; subst h; right; rfl
        · rename_i h1 h2
          simp only [Option.some.injEq, Prod.mk.injEq] at h
          exact absurd h.1 h2
      · exact ih _ _ h
    · split at h
      · simp at h
      · split at h
        · simp at h
        · split at h
          · rename_i h2
            simp only [Option.some.injEq, Prod.mk.injEq] at h
            exact absurd h.1 h2
          · exact ih _ _ h
    · dsimp only at h
      split at h
      · simp at h
      · split at h
        · rename_i h2
          simp only [Option.some.injEq, Prod.mk.injEq] at h
          exact absurd h.1 h2
        · exact ih _ _ h
    · simp at h; subst h; left; assumption
    · simp at h; subst h; right; assumption

theorem ReadMany_terminal (O : RowIterator σo) (I : RowIterator σi) (n : Nat)
    (it : OptimizedNestedLoopIterator σo σi)
    (h : it.state = State.END_OF_OUTER_ROWS ∨ it.state = State.END_OF_JOIN) :
    ∀ k, ReadMany O I (n + 1) k it = some (List.replicate k (-1), it) := by
  intro k
  induction k with
  | zero => rfl
  | succ k ih => simp [ReadMany, Read_terminal O I n it h, ih, List.replicate_succ]


theorem Read_total_scanning (O : RowIterator σo) (I : RowIterator σi) (n : Nat)
    (it : OptimizedNestedLoopIterator σo σi)
    (hs : it.state = State.READING_FROM_ITERATOR ∨
      (it.state = State.READING_FROM_CACHE ∧ ∃ ct, it.cached_inner_table = some ct)) :
    ∃ r, Read O I (n + 2) it = some r := by
  rw [Read]
  rcases hs with hs | ⟨hs, ct, hct⟩
  · simp only [hs]
    split_ifs with h1 h2
    · exact ⟨_, rfl⟩
    · exact ⟨_, rfl⟩
    · simp only [ne_eq, Decidable.not_not] at h2
      exact ⟨_, Read_terminal O I n _ (Or.inl ((ScanInnerIterator_state O I it).1 h2))⟩
  · obtain ⟨r, hr, _, hm, _, _⟩ := ScanCachedInnerTable_post O I it ct hct
    simp only [hs, hr]
    split_ifs with h1 h2
    · exact ⟨_, rfl⟩
    · exact ⟨_, rfl⟩
    · simp only [ne_eq, Decidable.not_not] at h2
      exact ⟨_, Read_terminal O I n _ (Or.inl (hm h2))⟩

/-- The dispatch loop of `Read()` returns within three iterations from every state that does
not dereference a null snapshot. -/
theorem Read_total (O : RowIterator σo) (I : RowIterator σi) (n : Nat)
    (it : OptimizedNestedLoopIterator σo σi)
    (hc : it.state = State.READING_FROM_CACHE → it.cached_inner_table.isSome = true) :
    ∃ r, Read O I (n + 3) it = some r := by
  cases hst : it.state with
  | READING_FIRST_OUTER_ROW =>
    rw [Read]
    simp only [hst]
    split_ifs with h1 h2
    · exact ⟨_, rfl⟩
    · exact ⟨_, rfl⟩
    · simp only [ne_eq, Decidable.not_not] at h1
      apply Read_total_scanning
      rcases (ReadOuterRow_state O I it).1 h1 with ⟨h3, h4⟩ | h3
      · right
        refine ⟨h3, ?_⟩
        rw [(ReadOuterRow_frame O I it).1]
        exact Option.isSome_iff_exists.mp h4
      · left; exact h3
  | READING_FROM_CACHE =>
    exact Read_total_scanning O I (n + 1) it
      (Or.inr ⟨hst, Option.isSome_iff_exists.mp (hc hst)⟩)
  | READING_FROM_ITERATOR => exact Read_total_scanning O I (n + 1) it (Or.inl hst)
  | END_OF_OUTER_ROWS => exact ⟨_, Read_terminal O I (n + 2) it (Or.inl hst)⟩
  | END_OF_JOIN => exact ⟨_, Read_terminal O I (n + 2) it (Or.inr hst)⟩

/-- A `Read()` that returns an error code leaves the iterator in a non-terminal state; in
state `READING_FROM_CACHE` the cursor is then at the end of the snapshot with no
null row pending, so the next call goes straight to the outer source. -/
theorem Read_error_state (O : RowIterator σo) (I : RowIterator σi) :
    ∀ (fuel : Nat) (it : OptimizedNestedLoopIterator σo σi) (e : Int)
      (it' : OptimizedNestedLoopIterator σo σi),
      Read O I fuel it = some (e, it') → e ≠ 0 → e ≠ -1 →
      it'.state = State.READING_FIRST_OUTER_ROW ∨ it'.state = State.READING_FROM_ITERATOR ∨
      (it'.state = State.READING_FROM_CACHE ∧ ∃ ct, it'.cached_inner_table = some ct ∧
        ct.RowCount ≤ it'.current_inner_row_index ∧
        ¬ (it'.join_type = JoinType.OUTER ∧ it'.outer_row_matched = false)) := by
  intro fuel
  induction fuel with
  | zero => intro it e it' h; simp [Read] at h
  | succ n ih =>
    intro it e it' h he0 he1
    rw [Read] at h
    split at h
    · rename_i hst
      dsimp only at h
      split at h
      · split at h
        · simp only [Option.some.injEq, Prod.mk.injEq] at h
          exact absurd h.1.symm he1
        · rename_i h1 h2
          simp only [Option.some.injEq, Prod.mk.injEq] at h
          obtain ⟨rfl, rfl⟩ := h
          left
          rw [((ReadOuterRow_state O I it).2.2 h1 h2).1, hst]
      · exact ih _ _ _ h he0 he1
    · rename_i hst
      split at h
      · simp at h
      · rename_i rr hrr
        have hct : ∃ ct, it.cached_inner_table = some ct := by
          cases hc : it.cached_inner_table with
          | none => simp [ScanCachedInnerTable, hc] at hrr
          | some ct => exact ⟨ct, rfl⟩
        obtain ⟨ct, hct⟩ := hct
        obtain ⟨rr', hrr', hcached, _, herr, _⟩ := ScanCachedInnerTable_post O I it ct hct
        rw [hrr] at hrr'
        cases hrr'
        split at h
        · simp only [Option.some.injEq, Prod.mk.injEq] at h
          exact absurd h.1.symm he0
        · split at h
          · rename_i h1 h2
            simp only [Option.some.injEq, Prod.mk.injEq] at h
            obtain ⟨rfl, rfl⟩ := h
            right; right
            have h3 := herr h1 h2
            exact ⟨by rw [h3.1, hst], ct, hcached, h3.2.1, h3.2.2⟩
          · exact ih _ _ _ h he0 he1
    · rename_i hst
      dsimp only at h
      split at h
      · simp only [Option.some.injEq, Prod.mk.injEq] at h
        exact absurd h.1.symm he0
      · split at h
        · rename_i h1 h2
          simp only [Option.some.injEq, Prod.mk.injEq] at h
          obtain ⟨rfl, rfl⟩ := h
          right; left
          rw [(ScanInnerIterator_state O I it).2 h1 h2, hst]
        · exact ih _ _ _ h he0 he1
    · simp only [Option.some.injEq, Prod.mk.injEq] at h
      exact absurd h.1.symm he1
    · simp only [Option.some.injEq, Prod.mk.injEq] at h
      exact absurd h.1.symm he1

/-- From a non-terminal state in which the cache path has nothing left to serve, a `Read()`
that returns has made at least one call on a child. -/
theorem Read_calls_nonempty (O : RowIterator σo) (I : RowIterator σi) (n : Nat)
    (it : OptimizedNestedLoopIterator σo σi) (r : Int)
    (it' : OptimizedNestedLoopIterator σo σi)
    (h : Read O I (n + 1) it = some (r, it'))
    (hs : it.state = State.READING_FIRST_OUTER_ROW ∨ it.state = State.READING_FROM_ITERATOR ∨
      (it.state = State.READING_FROM_CACHE ∧ ∃ ct, it.cached_inner_table = some ct ∧
        ct.RowCount ≤ it.current_inner_row_index ∧
        ¬ (it.join_type = JoinType.OUTER ∧ it.outer_row_matched = false))) :
    ∃ d, it'.calls = d ++ it.calls ∧ d ≠ [] := by
  have key : ∀ (mid : OptimizedNestedLoopIterator σo σi) (d1 : List Call),
      mid.calls = d1 ++ it.calls → d1 ≠ [] →
      (it'.calls = mid.calls ∨ ∃ d2, it'.calls = d2 ++ mid.calls) →
      ∃ d, it'.calls = d ++ it.calls ∧ d ≠ [] := by
    intro mid d1 hd1 hne hor
    rcases hor with h1 | ⟨d2, h2⟩
    · exact ⟨d1, by rw [h1, hd1], hne⟩
    · exact ⟨d2 ++ d1, by rw [h2, hd1, List.append_assoc], by simp [hne]⟩
  rw [Read] at h
  rcases hs with hs | hs | ⟨hs, ct, hct, hidx, hnull⟩
  · simp only [hs] at h
    obtain ⟨d1, hd1, hne, _⟩ := ReadOuterRow_calls O I it
    apply key (ReadOuterRow O I it).2 d1 hd1 hne
    split_ifs at h
    · simp only [Option.some.injEq, Prod.mk.injEq] at h
      left; rw [← h.2]
    · simp only [Option.some.injEq, Prod.mk.injEq] at h
      left; rw [← h.2]
    · right
      obtain ⟨d2, hd2, _⟩ := Read_calls O I _ _ _ _ h
      exact ⟨d2, hd2⟩
  · simp only [hs] at h
    obtain ⟨d1, hd1, hne, _⟩ := ScanInnerIterator_calls O I it
    apply key (ScanInnerIterator O I it).2 d1 hd1 hne
    split_ifs at h
    · simp only [Option.some.injEq, Prod.mk.injEq] at h
      left; rw [← h.2]
    · simp only [Option.some.injEq, Prod.mk.injEq] at h
      left; rw [← h.2]
    · right
      obtain ⟨d2, hd2, _⟩ := Read_calls O I _ _ _ _ h
      exact ⟨d2, hd2⟩
  · have heq := ScanCachedInnerTable_eq O I it ct hct
    rw [if_neg (by omega), if_neg hnull] at heq
    simp only [hs, heq] at h
    obtain ⟨d1, hd1, hne, _⟩ := ReadOuterRow_calls O I it
    apply key (ReadOuterRow O I it).2 d1 hd1 hne
    split_ifs at h
    · simp only [Option.some.injEq, Prod.mk.injEq] at h
      left; rw [← h.2]
    · simp only [Option.some.injEq, Prod.mk.injEq] at h
      left; rw [← h.2]
    · right
      obtain ⟨d2, hd2, _⟩ := Read_calls O I _ _ _ _ h
      exact ⟨d2, hd2⟩

/-! ### End of join, errors, initialisation -/

/-- C6. End-of-join idempotence: once a `Read()` call has returned -1, leaving the iterator
as `it'`, every later `Read()` call (any positive loop budget) returns -1 and leaves
the whole object equal to `it'`: state, cursor, match flag, the three counters,
the children and the call log are unchanged, so no call is made on the outer or
inner source. The same holds for any number `k` of further calls in a row. -/
theorem Read_end_of_data_idempotent (O : RowIterator σo) (I : RowIterator σi) (fuel : Nat)
    (it it' : OptimizedNestedLoopIterator σo σi)
    (h : Read O I fuel it = some (-1, it')) (n k : Nat) :
    Read O I (n + 1) it' = some (-1, it') ∧
    ReadMany O I (n + 1) k it' = some (List.replicate k (-1), it') :=
  ⟨Read_terminal O I n it' (Read_minus_one_state O I fuel it it' h),
   ReadMany_terminal O I n it' (Read_minus_one_state O I fuel it it' h) k⟩

/-- Witness of C6: INNER join, live path, outer = [o1], empty inner source. The first
`Read()` returns -1 and rests in `END_OF_OUTER_ROWS` (`liveJoinAtEnd`); two more calls
return -1, -1 and leave the object as it was. -/
theorem Read_end_of_data_idempotent_witness :
    Read scriptedSource tableSource 3 (liveJoin JoinType.INNER [0] 0) = some (-1, liveJoinAtEnd) ∧
    Read scriptedSource tableSource (0 + 1) liveJoinAtEnd = some (-1, liveJoinAtEnd) ∧
    ReadMany scriptedSource tableSource (0 + 1) 2 liveJoinAtEnd
      = some (List.replicate 2 (-1), liveJoinAtEnd) :=
  ⟨by decide,
   Read_end_of_data_idempotent scriptedSource tableSource 3 (liveJoin JoinType.INNER [0] 0)
     liveJoinAtEnd (by decide) 0 2⟩

/-- C7. Read errors are propagated verbatim. From every state that can execute (state
`READING_FROM_CACHE` requires a snapshot), `Read()` returns a code `r` within three
iterations of its loop, having added the calls `d` (newest first) to the log. If
`d` contains an outer-source or inner-source `Read` that returned a code `e` other
than 0 and -1, then `r = e`, that read is the newest entry of `d` (no call at all
was made after it) and no older entry of `d` is a failed read (nothing was retried). -/
theorem Read_propagates_read_error (O : RowIterator σo) (I : RowIterator σi) (n : Nat)
    (it : OptimizedNestedLoopIterator σo σi)
    (hc : it.state = State.READING_FROM_CACHE → it.cached_inner_table.isSome = true) :
    ∃ r it' d, Read O I (n + 3) it = some (r, it') ∧ it'.calls = d ++ it.calls ∧
      ∀ e : Int, e ≠ 0 → e ≠ -1 → (Call.outer_Read e ∈ d ∨ Call.inner_Read e ∈ d) →
        r = e ∧ ∃ rest, (d = Call.outer_Read e :: rest ∨ d = Call.inner_Read e :: rest) ∧
          ∀ e' : Int, e' ≠ 0 → e' ≠ -1 →
            Call.outer_Read e' ∉ rest ∧ Call.inner_Read e' ∉ rest := by
  obtain ⟨⟨r, it'⟩, hr⟩ := Read_total O I n it hc
  obtain ⟨d, hd, hs⟩ := Read_calls O I _ _ _ _ hr
  refine ⟨r, it', d, hr, hd, ?_⟩
  intro e he0 he1 hmem
  have hquiet_absurd : ∀ l : List Call, (∀ c ∈ l, c.isReadError = false) →
      ∀ e' : Int, e' ≠ 0 → e' ≠ -1 → Call.outer_Read e' ∉ l ∧ Call.inner_Read e' ∉ l := by
    intro l hl e' h0 h1
    constructor
    · intro hm
      have := hl _ hm
      simp [Call.isReadError, h0, h1] at this
    · intro hm
      have := hl _ hm
      simp [Call.isReadError, h0, h1] at this
  rcases hs with hq | ⟨c, rest, hdc, _, hcr, hrest⟩
  · exfalso
    have := hquiet_absurd d hq e he0 he1
    rcases hmem with hm | hm
    · exact this.1 hm
    · exact this.2 hm
  · have hrest' := hquiet_absurd rest hrest
    subst hdc
    rcases hmem with hm | hm
    · rcases List.mem_cons.mp hm with h1 | h1
      · rcases hcr with rfl | rfl
        · cases h1
          exact ⟨rfl, rest, Or.inl rfl, hrest'⟩
        · cases h1
      · exact absurd h1 (hrest' e he0 he1).1
    · rcases List.mem_cons.mp hm with h1 | h1
      · rcases hcr with rfl | rfl
        · cases h1
        · cases h1
          exact ⟨rfl, rest, Or.inr rfl, hrest'⟩
      · exact absurd h1 (hrest' e he0 he1).2

/-- Witness of C7: INNER join, live path, outer source whose first read fails with code 5.
The state is `READING_FIRST_OUTER_ROW`, so the precondition holds. -/
theorem Read_propagates_read_error_witness :
    ((liveJoin JoinType.INNER [5, 0] 1).state = State.READING_FROM_CACHE →
      (liveJoin JoinType.INNER [5, 0] 1).cached_inner_table.isSome = true) ∧
    ∃ r it' d, Read scriptedSource tableSource (0 + 3) (liveJoin JoinType.INNER [5, 0] 1)
        = some (r, it') ∧
      it'.calls = d ++ (liveJoin JoinType.INNER [5, 0] 1).calls ∧
      ∀ e : Int, e ≠ 0 → e ≠ -1 → (Call.outer_Read e ∈ d ∨ Call.inner_Read e ∈ d) →
        r = e ∧ ∃ rest, (d = Call.outer_Read e :: rest ∨ d = Call.inner_Read e :: rest) ∧
          ∀ e' : Int, e' ≠ 0 → e' ≠ -1 →
            Call.outer_Read e' ∉ rest ∧ Call.inner_Read e' ∉ rest :=
  ⟨by decide,
   Read_propagates_read_error scriptedSource tableSource 0 (liveJoin JoinType.INNER [5, 0] 1)
     (by decide)⟩

/-- C8 as stated fails: INNER join, live path, outer source whose reads return 5 (an error)
and then 0. The first `Read()` returns 5 and leaves the state
`READING_FIRST_OUTER_ROW`; the second `Read()` does not signal end-of-data: it reads
the outer source again, initialises and reads the inner source, and returns 0. -/
theorem Read_error_is_not_terminal_counterexample :
    (ReadMany scriptedSource tableSource 3 1 (liveJoin JoinType.INNER [5, 0] 1)).map
        (fun r => (r.1, r.2.state, r.2.calls))
      = some ([5], State.READING_FIRST_OUTER_ROW, [Call.outer_Read 5])
    ∧ (ReadMany scriptedSource tableSource 3 2 (liveJoin JoinType.INNER [5, 0] 1)).map
        (fun r => (r.1, r.2.state, r.2.calls))
      = some ([5, 0], State.READING_FROM_ITERATOR,
          [Call.inner_Read 0, Call.inner_Init false, Call.outer_Read 0, Call.outer_Read 5]) := by
  decide

/-- C8, amended. After a `Read()` call has returned an error code `e` (neither 0 nor -1),
the iterator is not in a terminal state: `state_` is `READING_FIRST_OUTER_ROW`,
`READING_FROM_CACHE` or `READING_FROM_ITERATOR`; and the next `Read()` call returns
(within three loop iterations) after making at least one more call on the outer
or inner source. -/
theorem Read_error_leaves_iterator_live (O : RowIterator σo) (I : RowIterator σi) (fuel : Nat)
    (it it' : OptimizedNestedLoopIterator σo σi) (e : Int)
    (h : Read O I fuel it = some (e, it')) (he0 : e ≠ 0) (he1 : e ≠ -1) (n : Nat) :
    (it'.state = State.READING_FIRST_OUTER_ROW ∨ it'.state = State.READING_FROM_CACHE ∨
      it'.state = State.READING_FROM_ITERATOR) ∧
    ∃ r2 it2 d, Read O I (n + 3) it' = some (r2, it2) ∧ it2.calls = d ++ it'.calls ∧ d ≠ [] := by
  have hJ := Read_error_state O I fuel it e it' h he0 he1
  constructor
  · rcases hJ with h1 | h1 | ⟨h1, _⟩
    · exact Or.inl h1
    · exact Or.inr (Or.inr h1)
    · exact Or.inr (Or.inl h1)
  · have hc : it'.state = State.READING_FROM_CACHE → it'.cached_inner_table.isSome = true := by
      intro hst
      rcases hJ with h1 | h1 | ⟨_, ct, hct, _⟩
      · rw [h1] at hst; cases hst
      · rw [h1] at hst; cases hst
      · rw [hct]; rfl
    obtain ⟨⟨r2, it2⟩, hr2⟩ := Read_total O I n it' hc
    obtain ⟨d, hd, hne⟩ := Read_calls_nonempty O I (n + 2) it' r2 it2 hr2 hJ
    exact ⟨r2, it2, d, hr2, hd, hne⟩

/-- Witness of C8 (amended): the outer source fails with code 5 on its first read, which
leaves the iterator as `liveJoinAfterError`. -/
theorem Read_error_leaves_iterator_live_witness :
    Read scriptedSource tableSource 3 (liveJoin JoinType.INNER [5, 0] 1)
      = some (5, liveJoinAfterError) ∧
    (5 : Int) ≠ 0 ∧ (5 : Int) ≠ -1 ∧
    (liveJoinAfterError.state = State.READING_FIRST_OUTER_ROW ∨
      liveJoinAfterError.state = State.READING_FROM_CACHE ∨
      liveJoinAfterError.state = State.READING_FROM_ITERATOR) ∧
    ∃ r2 it2 d, Read scriptedSource tableSource (0 + 3) liveJoinAfterError = some (r2, it2) ∧
      it2.calls = d ++ liveJoinAfterError.calls ∧ d ≠ [] :=
  ⟨by decide, by decide, by decide,
   Read_error_leaves_iterator_live scriptedSource tableSource 3
     (liveJoin JoinType.INNER [5, 0] 1) liveJoinAfterError 5 (by decide) (by decide) (by decide) 0⟩

/-- C9 as stated fails: after one `Read()` on an INNER live join (outer = [o1, o2], one inner
row) the counters are `outer_rows_scanned` = 1 and `inner_rows_scanned` = 1; a
successful `Init()` then resets the state to `READING_FIRST_OUTER_ROW` but leaves
both counters at 1. Likewise `cache_hits` = 1 survives `Init()` on the cache path. -/
theorem Init_keeps_counters_counterexample :
    (Read scriptedSource tableSource 3 (liveJoin JoinType.INNER [0, 0] 1)).map
        (fun r => (r.1, r.2.outer_rows_scanned, r.2.inner_rows_scanned,
          (Init scriptedSource tableSource r.2).1,
          (Init scriptedSource tableSource r.2).2.state,
          (Init scriptedSource tableSource r.2).2.outer_rows_scanned,
          (Init scriptedSource tableSource r.2).2.inner_rows_scanned))
      = some (0, 1, 1, false, State.READING_FIRST_OUTER_ROW, 1, 1)
    ∧ (Read scriptedSource tableSource 3
        (cachedJoin JoinType.INNER [0, 0] (snapshotOf 1 [[7]]) [0])).map
        (fun r => (r.1, r.2.cache_hits,
          (Init scriptedSource tableSource r.2).1,
          (Init scriptedSource tableSource r.2).2.cache_hits))
      = some (0, 1, false, 1) := by
  refine ⟨?_, ?_⟩ <;> rfl

/-- C9, amended. When both sources' `Init` succeed, `Init()` succeeds and leaves state =
`READING_FIRST_OUTER_ROW`, cursor = 0, match flag = false and no snapshot held,
for every prior iterator state; the three counters `outer_rows_scanned`,
`inner_rows_scanned` and `cache_hits` are not written and keep the values they had
before the call. -/
theorem Init_resets_state_keeps_counters (O : RowIterator σo) (I : RowIterator σi)
    (it : OptimizedNestedLoopIterator σo σi)
    (ho : (O.Init it.outer_iterator).1 = false)
    (hi : (I.Init it.inner_iterator).1 = false) :
    (Init O I it).1 = false ∧
    (Init O I it).2.state = State.READING_FIRST_OUTER_ROW ∧
    (Init O I it).2.current_inner_row_index = 0 ∧
    (Init O I it).2.outer_row_matched = false ∧
    (Init O I it).2.cached_inner_table = none ∧
    (Init O I it).2.outer_rows_scanned = it.outer_rows_scanned ∧
    (Init O I it).2.inner_rows_scanned = it.inner_rows_scanned ∧
    (Init O I it).2.cache_hits = it.cache_hits := by
  simp [Init, ho, hi, ShouldCacheInnerTable, LoadInnerTableCache]

/-- Witness of C9 (amended): `liveJoinUsed`, in state `END_OF_JOIN` with counters 4, 12, 0,
whose children (an exhausted outer source and a 3-row table) both initialise. -/
theorem Init_resets_state_keeps_counters_witness :
    (scriptedSource.Init liveJoinUsed.outer_iterator).1 = false ∧
    (tableSource.Init liveJoinUsed.inner_iterator).1 = false ∧
    (Init scriptedSource tableSource liveJoinUsed).1 = false ∧
    (Init scriptedSource tableSource liveJoinUsed).2.state = State.READING_FIRST_OUTER_ROW ∧
    (Init scriptedSource tableSource liveJoinUsed).2.current_inner_row_index = 0 ∧
    (Init scriptedSource tableSource liveJoinUsed).2.outer_row_matched = false ∧
    (Init scriptedSource tableSource liveJoinUsed).2.cached_inner_table = none ∧
    (Init scriptedSource tableSource liveJoinUsed).2.outer_rows_scanned
      = liveJoinUsed.outer_rows_scanned ∧
    (Init scriptedSource tableSource liveJoinUsed).2.inner_rows_scanned
      = liveJoinUsed.inner_rows_scanned ∧
    (Init scriptedSource tableSource liveJoinUsed).2.cache_hits = liveJoinUsed.cache_hits :=
  ⟨by decide, by decide,
   Init_resets_state_keeps_counters scriptedSource tableSource liveJoinUsed
     (by decide) (by decide)⟩

end Executor

/-! ### The small-table cache -/

/-- C10 as stated fails: a table `db.t` whose scan would yield R = 1 row (no deleted row, no
error), looked up in an empty cache. `LoadTable` returns null instead of a snapshot
of that row, makes no call on the handler, stores nothing, and the subsequent
`GetTable` for the same table returns null. -/
theorem LoadTable_builds_nothing_counterexample :
    (SmallTableCache.LoadTable { cache := [] } (some (scannedTable "db" "t" 1 [(0, [7])]))).1
      = none
    ∧ (SmallTableCache.LoadTable { cache := [] }
        (some (scannedTable "db" "t" 1 [(0, [7])]))).2.1 = { cache := [] }
    ∧ (SmallTableCache.LoadTable { cache := [] }
        (some (scannedTable "db" "t" 1 [(0, [7])]))).2.2
      = some (scannedTable "db" "t" 1 [(0, [7])])
    ∧ (SmallTableCache.GetTable
        (SmallTableCache.LoadTable { cache := [] }
          (some (scannedTable "db" "t" 1 [(0, [7])]))).2.1
        (some (scannedTable "db" "t" 1 [(0, [7])]))).1 = none := by
  decide

/-- C10, amended. The build is disabled: for every table whose key is absent from the cache
(whatever its scan would yield), `LoadTable` returns null, leaves the table and its
handler untouched (no scan is opened), leaves the cache map unchanged, and a
subsequent `GetTable` for the same table returns null. -/
theorem LoadTable_returns_null_stores_nothing (self : SmallTableCache) (t : TABLE)
    (habsent : self.cache.lookup (SmallTableCache.GetCacheKey t) = none) :
    (self.LoadTable (some t)).1 = none ∧
    (self.LoadTable (some t)).2.1 = self ∧
    (self.LoadTable (some t)).2.2 = some t ∧
    ((self.LoadTable (some t)).2.1.GetTable (some t)).1 = none := by
  refine ⟨rfl, rfl, rfl, ?_⟩
  simp [SmallTableCache.LoadTable, SmallTableCache.GetTable, habsent]

/-- Witness of C10 (amended): the table `db.t` with a one-row scan and a cache that holds a
snapshot of another table only. -/
theorem LoadTable_returns_null_stores_nothing_witness :
    List.lookup (SmallTableCache.GetCacheKey (scannedTable "db" "t" 1 [(0, [7])]))
        [("db.u", Executor.snapshotOf 1 [[3]])] = none ∧
    (SmallTableCache.LoadTable { cache := [("db.u", Executor.snapshotOf 1 [[3]])] }
        (some (scannedTable "db" "t" 1 [(0, [7])]))).1 = none ∧
    (SmallTableCache.LoadTable { cache := [("db.u", Executor.snapshotOf 1 [[3]])] }
        (some (scannedTable "db" "t" 1 [(0, [7])]))).2.1
      = { cache := [("db.u", Executor.snapshotOf 1 [[3]])] } ∧
    (SmallTableCache.LoadTable { cache := [("db.u", Executor.snapshotOf 1 [[3]])] }
        (some (scannedTable "db" "t" 1 [(0, [7])]))).2.2
      = some (scannedTable "db" "t" 1 [(0, [7])]) ∧
    (SmallTableCache.GetTable
        (SmallTableCache.LoadTable { cache := [("db.u", Executor.snapshotOf 1 [[3]])] }
          (some (scannedTable "db" "t" 1 [(0, [7])]))).2.1
        (some (scannedTable "db" "t" 1 [(0, [7])]))).1 = none :=
  ⟨by decide,
   LoadTable_returns_null_stores_nothing { cache := [("db.u", Executor.snapshotOf 1 [[3]])] }
     (scannedTable "db" "t" 1 [(0, [7])]) (by decide)⟩

/-! ### Reachable cache states, scans -/

/-- Every cache state reachable from the empty store is empty. -/
theorem SmallTableCache.run_create (ops : List CacheOp) :
    SmallTableCache.create.run ops = SmallTableCache.create := by
  unfold SmallTableCache.run
  induction ops with
  | nil => rfl
  | cons op ops ih =>
    rw [List.foldl_cons]
    have : SmallTableCache.create.step op = SmallTableCache.create := by
      cases op with
      | LoadTable table => rfl
      | GetTable table => cases table <;> rfl
      | Clear => rfl
      | GetStats => rfl
    rw [this]
    exact ih

/-- A script of `n` found rows scans to those `n` rows. -/
theorem scanYield_replicate (eof deleted : Int) (h0 : eof ≠ 0) (h1 : deleted ≠ 0)
    (bytes : List uchar) (n : Nat) :
    scanYield eof deleted (List.replicate n (0, bytes)) = some (List.replicate n bytes) := by
  induction n with
  | zero => rfl
  | succ n ih =>
    rw [List.replicate_succ, scanYield, if_neg (Ne.symm h0), if_neg (Ne.symm h1), ih]
    simp [List.replicate_succ]

/-- C11. All-or-nothing on oversize. Let `t` be a table whose scan opens and would deliver
`rows`, more than `SMALL_TABLE_CACHE_THRESHOLD` non-deleted rows. In every store
state `LoadTable` returns null and hands the store back unchanged, so it neither
returns nor stores any snapshot, in particular none that holds a strict part of
the rows; and in every store state reachable from the empty store by `LoadTable`,
`GetTable`, `Clear` and `GetStats` calls, the store holds no entry under the key
of `t` after the call. (`LoadTable` returns before it looks at the table, so the
proof does not use what the scan would deliver.) -/
theorem LoadTable_oversize_not_cached (eof deleted : Int) (t : TABLE) (file : handler)
    (rows : List (List uchar))
    (_hfile : t.file = some file) (_hinit : file.rnd_init_code = 0)
    (_hscan : scanYield eof deleted file.rnd_next_script = some rows)
    (_hbig : SMALL_TABLE_CACHE_THRESHOLD < rows.length) :
    (∀ self : SmallTableCache,
      (self.LoadTable (some t)).1 = none ∧ (self.LoadTable (some t)).2.1 = self) ∧
    (∀ ops : List CacheOp,
      ((SmallTableCache.create.run ops).LoadTable (some t)).1 = none ∧
      ((SmallTableCache.create.run ops).LoadTable (some t)).2.1.cache.lookup
        (SmallTableCache.GetCacheKey t) = none) := by
  refine ⟨fun self => ⟨rfl, rfl⟩, fun ops => ⟨rfl, ?_⟩⟩
  rw [SmallTableCache.run_create]
  rfl

/-- Witness of C11: `oversizeTable`, whose scan delivers 10001 rows (handler codes 137 for
end of file and 134 for a deleted record). -/
theorem LoadTable_oversize_not_cached_witness :
    oversizeTable.file
      = some { stats_records := 10001, rnd_next_script := List.replicate 10001 (0, [7]) } ∧
    ({ stats_records := 10001, rnd_next_script := List.replicate 10001 (0, [7]) } :
      handler).rnd_init_code = 0 ∧
    scanYield 137 134 (List.replicate 10001 (0, [7])) = some (List.replicate 10001 [7]) ∧
    SMALL_TABLE_CACHE_THRESHOLD < (List.replicate 10001 ([7] : List uchar)).length ∧
    (∀ self : SmallTableCache,
      (self.LoadTable (some oversizeTable)).1 = none ∧
      (self.LoadTable (some oversizeTable)).2.1 = self) ∧
    (∀ ops : List CacheOp,
      ((SmallTableCache.create.run ops).LoadTable (some oversizeTable)).1 = none ∧
      ((SmallTableCache.create.run ops).LoadTable (some oversizeTable)).2.1.cache.lookup
        (SmallTableCache.GetCacheKey oversizeTable) = none) :=
  ⟨rfl, rfl, scanYield_replicate 137 134 (by decide) (by decide) [7] 10001,
   by rw [List.length_replicate]; decide,
   LoadTable_oversize_not_cached 137 134 oversizeTable
     { stats_records := 10001, rnd_next_script := List.replicate 10001 (0, [7]) }
     (List.replicate 10001 [7]) rfl rfl
     (scanYield_replicate 137 134 (by decide) (by decide) [7] 10001)
     (by rw [List.length_replicate]; decide)⟩

/-- What `LoadTable` would do on a store with an entry (`storeWithEntry` is written down
directly; no call sequence produces it): the store holds a snapshot under the key
`db.t`, yet `LoadTable` for the table `db.t` returns null, not that snapshot. -/
theorem LoadTable_ignores_entry_counterexample :
    storeWithEntry.cache.lookup (SmallTableCache.GetCacheKey failingTable)
      = some ((CachedTable.create 0 failingTable).AddRow [7]) ∧
    (storeWithEntry.LoadTable (some failingTable)).1 = none := by
  decide

/-- On any store value, reachable or not, `LoadTable` does not consult the map: when the
store already holds a snapshot `ct` under the table's key, `LoadTable` returns null (not `ct`), makes no
call on the table's handler (no scan is opened) and leaves the store unchanged, so
the entry stays in place; a second `LoadTable` call for the same table again
returns null and changes nothing: two successive calls perform no build and
return the same (null) result. -/
theorem LoadTable_ignores_existing_entry (self : SmallTableCache) (t : TABLE) (ct : CachedTable)
    (h : self.cache.lookup (SmallTableCache.GetCacheKey t) = some ct) :
    (self.LoadTable (some t)).1 = none ∧
    (self.LoadTable (some t)).2.1 = self ∧
    (self.LoadTable (some t)).2.2 = some t ∧
    ((self.LoadTable (some t)).2.1.GetTable (some t)).1 = some ct ∧
    ((self.LoadTable (some t)).2.1.LoadTable (self.LoadTable (some t)).2.2).1
      = (self.LoadTable (some t)).1 ∧
    ((self.LoadTable (some t)).2.1.LoadTable (self.LoadTable (some t)).2.2).2.1 = self ∧
    ((self.LoadTable (some t)).2.1.LoadTable (self.LoadTable (some t)).2.2).2.2 = some t := by
  refine ⟨rfl, rfl, rfl, ?_, rfl, rfl, rfl⟩
  simp [SmallTableCache.LoadTable, SmallTableCache.GetTable, h]

/-- The preceding theorem at the store `storeWithEntry` and the table `db.t`. -/
theorem LoadTable_ignores_existing_entry_witness :
    storeWithEntry.cache.lookup (SmallTableCache.GetCacheKey failingTable)
      = some ((CachedTable.create 0 failingTable).AddRow [7]) ∧
    (storeWithEntry.LoadTable (some failingTable)).1 = none ∧
    (storeWithEntry.LoadTable (some failingTable)).2.1 = storeWithEntry ∧
    (storeWithEntry.LoadTable (some failingTable)).2.2 = some failingTable ∧
    ((storeWithEntry.LoadTable (some failingTable)).2.1.GetTable (some failingTable)).1
      = some ((CachedTable.create 0 failingTable).AddRow [7]) ∧
    ((storeWithEntry.LoadTable (some failingTable)).2.1.LoadTable
        (storeWithEntry.LoadTable (some failingTable)).2.2).1
      = (storeWithEntry.LoadTable (some failingTable)).1 ∧
    ((storeWithEntry.LoadTable (some failingTable)).2.1.LoadTable
        (storeWithEntry.LoadTable (some failingTable)).2.2).2.1 = storeWithEntry ∧
    ((storeWithEntry.LoadTable (some failingTable)).2.1.LoadTable
        (storeWithEntry.LoadTable (some failingTable)).2.2).2.2 = some failingTable :=
  ⟨by decide,
   LoadTable_ignores_existing_entry storeWithEntry failingTable
     ((CachedTable.create 0 failingTable).AddRow [7]) (by decide)⟩

/-- C13. Build failure is absorbed atomically. Let `t` be a table whose scan cannot be
opened (`ha_rnd_init` would return a non-zero code) or would hit a read error
(some `ha_rnd_next` would return a code other than 0, end of file and record
deleted). `LoadTable` returns null and hands back the store exactly as it was;
the table and its handler are handed back unchanged, that is, no handler call
was made: writing `d` for the calls added to the handler's log, a scan opened in
`d` comes with exactly one `ha_rnd_end` in `d` (here `d` is empty, no scan is left
open). (`LoadTable` returns before it looks at the table, so the proof does not
use how the scan would fail.) -/
theorem LoadTable_failure_absorbed (eof deleted : Int) (self : SmallTableCache) (t : TABLE)
    (file : handler) (hfile : t.file = some file)
    (_hfail : file.rnd_init_code ≠ 0 ∨ scanYield eof deleted file.rnd_next_script = none) :
    (self.LoadTable (some t)).1 = none ∧
    (self.LoadTable (some t)).2.1 = self ∧
    (self.LoadTable (some t)).2.2 = some t ∧
    ∃ file', (self.LoadTable (some t)).2.2.bind TABLE.file = some file' ∧
      file'.calls = file.calls ∧
      ∀ d : List HandlerCall, file'.calls = d ++ file.calls →
        d = [] ∧
        ((HandlerCall.ha_rnd_init true ∈ d ∨ HandlerCall.ha_rnd_init false ∈ d) →
          d.count HandlerCall.ha_rnd_end = 1) := by
  refine ⟨rfl, rfl, rfl, file, ?_, rfl, ?_⟩
  · simp [SmallTableCache.LoadTable, hfile]
  · intro d hd
    have hnil : d = [] := by
      have := congrArg List.length hd
      simp at this
      exact this
    subst hnil
    exact ⟨rfl, by simp⟩

/-- Witness of C13: `failingTable`, whose second `ha_rnd_next` fails with code 1, and the
store `storeWithEntry`. -/
theorem LoadTable_failure_absorbed_witness :
    failingTable.file
      = some { stats_records := 2, rnd_next_script := [(0, [7]), (1, [0])] } ∧
    scanYield 137 134 [(0, [7]), (1, [0])] = none ∧
    (storeWithEntry.LoadTable (some failingTable)).1 = none ∧
    (storeWithEntry.LoadTable (some failingTable)).2.1 = storeWithEntry ∧
    (storeWithEntry.LoadTable (some failingTable)).2.2 = some failingTable ∧
    ∃ file', (storeWithEntry.LoadTable (some failingTable)).2.2.bind TABLE.file = some file' ∧
      file'.calls
        = ({ stats_records := 2, rnd_next_script := [(0, [7]), (1, [0])] } : handler).calls ∧
      ∀ d : List HandlerCall,
        file'.calls
          = d ++ ({ stats_records := 2, rnd_next_script := [(0, [7]), (1, [0])] } :
              handler).calls →
        d = [] ∧
        ((HandlerCall.ha_rnd_init true ∈ d ∨ HandlerCall.ha_rnd_init false ∈ d) →
          d.count HandlerCall.ha_rnd_end = 1) :=
  ⟨rfl, by decide,
   LoadTable_failure_absorbed 137 134 storeWithEntry failingTable
     { stats_records := 2, rnd_next_script := [(0, [7]), (1, [0])] } rfl
     (Or.inr (by decide))⟩

/-! ### Snapshots: `GetRow`, `AddRow` -/

/-- C14. `GetRow` bounds: for every `CachedTable` `t` with N = `t.RowCount` rows and every
index `i`, `GetRow(i)` is a row (non-null) if and only if `i < N`, and is null for
every `i ≥ N`. -/
theorem CachedTable.GetRow_bounds (t : CachedTable) (i : Nat) :
    ((t.GetRow i).isSome = true ↔ i < t.RowCount) ∧
    (t.RowCount ≤ i → t.GetRow i = none) := by
  unfold CachedTable.GetRow CachedTable.RowCount
  constructor
  · constructor
    · intro h
      by_contra hlt
      rw [if_neg hlt] at h
      simp at h
    · intro h
      rw [if_pos h, List.get?_eq_get h]
      rfl
  · intro h
    rw [if_neg (by omega)]

/-- What `AddRow` stores: the first `len` bytes of the source buffer. -/
theorem CachedRow.create_data (src : List uchar) (len : Nat) :
    (CachedRow.create src len).data = src.take len := by
  simp [CachedRow.create, memcpy]

/-- Adding the buffers `bs` in order appends one row per buffer and touches nothing else. -/
theorem CachedTable.foldl_AddRow (bs : List (List uchar)) :
    ∀ t : CachedTable,
      (bs.foldl CachedTable.AddRow t).rows
          = t.rows ++ bs.map (fun b => CachedRow.create b t.row_length) ∧
      (bs.foldl CachedTable.AddRow t).row_length = t.row_length ∧
      (bs.foldl CachedTable.AddRow t).table = t.table := by
  induction bs with
  | nil => intro t; simp
  | cons b bs ih =>
    intro t
    rw [List.foldl_cons]
    obtain ⟨h1, h2, h3⟩ := ih (t.AddRow b)
    refine ⟨?_, ?_, ?_⟩
    · rw [h1]; simp [CachedTable.AddRow]
    · rw [h2]; rfl
    · rw [h3]; rfl

/-- Reading back a row that was there before the buffers `bs` were added. -/
theorem CachedTable.GetRow_foldl_AddRow_old (t : CachedTable) (bs : List (List uchar))
    (i : Nat) (hi : i < t.RowCount) :
    (bs.foldl CachedTable.AddRow t).GetRow i = t.GetRow i := by
  unfold CachedTable.RowCount at hi
  unfold CachedTable.GetRow
  rw [(CachedTable.foldl_AddRow bs t).1, if_pos hi, if_pos (by simp; omega)]
  simp only [List.get?_eq_getElem?]
  rw [List.getElem?_append_left hi]

/-- Reading back the row stored for the `i`-th of the buffers `bs`. -/
theorem CachedTable.GetRow_foldl_AddRow_new (t : CachedTable) (bs : List (List uchar))
    (i : Nat) (hi : i < bs.length) :
    (bs.foldl CachedTable.AddRow t).GetRow (t.RowCount + i)
      = some ((bs.get ⟨i, hi⟩).take t.row_length) := by
  unfold CachedTable.RowCount
  unfold CachedTable.GetRow
  rw [(CachedTable.foldl_AddRow bs t).1, if_pos (by simp; omega)]
  simp only [List.get?_eq_getElem?]
  rw [List.getElem?_append_right (by omega)]
  simp [hi, CachedRow.create_data]

/-- C15. Row round trip and order. Let a `CachedTable` be constructed for a table with row
length L = `rec_buff_length`, and let the buffers `bs` = b_0 .. b_{n-1}, each of at
least L bytes, be passed to `AddRow` in that order. Then `RowCount()` = n and for
every i < n `GetRow(i)` is exactly the first L bytes of b_i (L bytes long). Rows
added earlier keep their bytes and positions: after any further buffers `cs` are
added (among them later contents of the same source buffer), `RowCount()` is
n + |cs| and `GetRow(i)` for i < n is what it was. -/
theorem CachedTable.AddRow_round_trip (addr : Nat) (tbl : TABLE) (bs cs : List (List uchar))
    (hlen : ∀ b ∈ bs, tbl.s.rec_buff_length ≤ b.length) :
    (bs.foldl CachedTable.AddRow (CachedTable.create addr tbl)).RowCount = bs.length ∧
    (∀ (i : Nat) (hi : i < bs.length),
      (bs.foldl CachedTable.AddRow (CachedTable.create addr tbl)).GetRow i
        = some ((bs.get ⟨i, hi⟩).take tbl.s.rec_buff_length) ∧
      ((bs.get ⟨i, hi⟩).take tbl.s.rec_buff_length).length = tbl.s.rec_buff_length) ∧
    (cs.foldl CachedTable.AddRow
      (bs.foldl CachedTable.AddRow (CachedTable.create addr tbl))).RowCount
        = bs.length + cs.length ∧
    (∀ i : Nat, i < bs.length →
      (cs.foldl CachedTable.AddRow
        (bs.foldl CachedTable.AddRow (CachedTable.create addr tbl))).GetRow i
        = (bs.foldl CachedTable.AddRow (CachedTable.create addr tbl)).GetRow i) := by
  have hcount : (bs.foldl CachedTable.AddRow (CachedTable.create addr tbl)).RowCount
      = bs.length := by
    unfold CachedTable.RowCount
    rw [(CachedTable.foldl_AddRow bs _).1]
    simp [CachedTable.create]
  refine ⟨hcount, ?_, ?_, ?_⟩
  · intro i hi
    constructor
    · have h := CachedTable.GetRow_foldl_AddRow_new (CachedTable.create addr tbl) bs i hi
      have h0 : (CachedTable.create addr tbl).RowCount = 0 := rfl
      rw [h0, Nat.zero_add] at h
      exact h
    · rw [List.length_take]
      exact Nat.min_eq_left (hlen _ (List.get_mem bs i hi))
  · unfold CachedTable.RowCount at hcount ⊢
    rw [(CachedTable.foldl_AddRow cs _).1]
    simp [hcount]
  · intro i hi
    exact CachedTable.GetRow_foldl_AddRow_old _ cs i (by rw [hcount]; exact hi)

/-- Witness of C15: row length 2, buffers [1, 2, 9] and [3, 4] added first, then [5, 6]. -/
theorem CachedTable.AddRow_round_trip_witness :
    (∀ b ∈ [[1, 2, 9], [3, 4]],
      ({ s := { rec_buff_length := 2 } } : TABLE).s.rec_buff_length ≤ List.length b) ∧
    ([[1, 2, 9], [3, 4]].foldl CachedTable.AddRow
      (CachedTable.create 0 { s := { rec_buff_length := 2 } })).RowCount = 2 ∧
    ([[1, 2, 9], [3, 4]].foldl CachedTable.AddRow
      (CachedTable.create 0 { s := { rec_buff_length := 2 } })).GetRow 0 = some [1, 2] ∧
    ([[5, 6]].foldl CachedTable.AddRow
      ([[1, 2, 9], [3, 4]].foldl CachedTable.AddRow
        (CachedTable.create 0 { s := { rec_buff_length := 2 } }))).GetRow 0
      = ([[1, 2, 9], [3, 4]].foldl CachedTable.AddRow
        (CachedTable.create 0 { s := { rec_buff_length := 2 } })).GetRow 0 :=
  ⟨by decide,
   (CachedTable.AddRow_round_trip 0 { s := { rec_buff_length := 2 } }
     [[1, 2, 9], [3, 4]] [[5, 6]] (by decide)).1,
   ((CachedTable.AddRow_round_trip 0 { s := { rec_buff_length := 2 } }
     [[1, 2, 9], [3, 4]] [[5, 6]] (by decide)).2.1 0 (by decide)).1,
   (CachedTable.AddRow_round_trip 0 { s := { rec_buff_length := 2 } }
     [[1, 2, 9], [3, 4]] [[5, 6]] (by decide)).2.2.2 0 (by decide)⟩

/-! ### The store: `GetTable`, `Clear`, `GetStats`, `ShouldCache` -/

/-- In a map (no key twice) the lookup of a key finds the entry stored under it. -/
theorem lookup_of_mem_of_nodup (key : String) (ct : CachedTable) :
    ∀ l : List (String × CachedTable), (l.map Prod.fst).Nodup → (key, ct) ∈ l →
      l.lookup key = some ct := by
  intro l
  induction l with
  | nil => intro _ h; cases h
  | cons p l ih =>
    intro hnd hmem
    obtain ⟨k, v⟩ := p
    rw [List.map_cons, List.nodup_cons] at hnd
    rcases List.mem_cons.mp hmem with h | h
    · cases h
      simp [List.lookup]
    · have hne : key ≠ k := by
        rintro rfl
        exact hnd.1 (List.mem_map.mpr ⟨(key, ct), h, rfl⟩)
      rw [List.lookup_cons, beq_eq_false_iff_ne.mpr hne]
      exact ih hnd.2 h

/-- The lookup of a key that no entry carries finds nothing. -/
theorem lookup_of_not_mem (key : String) :
    ∀ l : List (String × CachedTable), key ∉ l.map Prod.fst → l.lookup key = none := by
  intro l
  induction l with
  | nil => intro _; rfl
  | cons p l ih =>
    intro h
    obtain ⟨k, v⟩ := p
    rw [List.map_cons, List.mem_cons, not_or] at h
    rw [List.lookup_cons, beq_eq_false_iff_ne.mpr h.1]
    exact ih h.2

/-- C16. `GetTable` is a pure lookup. For every store (a map: no key twice) and every
table `t`: `GetTable` returns the snapshot stored under the key of `t` if there is
one, and null if no entry carries that key; it returns null for a null table; it
hands back the store and the table unchanged, so it adds no entry and makes no
call on the table's handler (no scan is opened). -/
theorem GetTable_pure_lookup (self : SmallTableCache)
    (hmap : (self.cache.map Prod.fst).Nodup) (t : TABLE) :
    (∀ ct, (SmallTableCache.GetCacheKey t, ct) ∈ self.cache →
      (self.GetTable (some t)).1 = some ct) ∧
    (SmallTableCache.GetCacheKey t ∉ self.cache.map Prod.fst →
      (self.GetTable (some t)).1 = none) ∧
    (self.GetTable none).1 = none ∧
    (self.GetTable (some t)).2.1 = self ∧ (self.GetTable none).2.1 = self ∧
    (self.GetTable (some t)).2.2 = some t := by
  refine ⟨?_, ?_, rfl, rfl, rfl, rfl⟩
  · intro ct hmem
    exact lookup_of_mem_of_nodup _ ct self.cache hmap hmem
  · intro hnot
    exact lookup_of_not_mem _ self.cache hnot

/-- Witness of C16: the store `storeWithEntry` (one entry, under `db.t`) and the tables
`db.t` and `db.big`. -/
theorem GetTable_pure_lookup_witness :
    (storeWithEntry.cache.map Prod.fst).Nodup ∧
    (SmallTableCache.GetCacheKey failingTable, (CachedTable.create 0 failingTable).AddRow [7])
      ∈ storeWithEntry.cache ∧
    (storeWithEntry.GetTable (some failingTable)).1
      = some ((CachedTable.create 0 failingTable).AddRow [7]) ∧
    (storeWithEntry.GetTable (some failingTable)).2.1 = storeWithEntry ∧
    (storeWithEntry.GetTable (some failingTable)).2.2 = some failingTable :=
  ⟨by decide, by decide,
   (GetTable_pure_lookup storeWithEntry (by decide) failingTable).1 _ (by decide),
   (GetTable_pure_lookup storeWithEntry (by decide) failingTable).2.2.2.1,
   (GetTable_pure_lookup storeWithEntry (by decide) failingTable).2.2.2.2.2⟩

/-- C17. `Clear` empties the store. After `Clear()`, `GetTable` returns null for every table
(and for a null table) and `GetStats` returns {0, 0, 0}; `Clear()` applied twice
equals `Clear()` applied once. A client that obtained a snapshot `ct` from
`GetTable` and then calls `Clear()` on the store it was handed back finds the
store empty, while `ct` is the value it held: `Clear` takes the store only and
yields the empty store, it neither takes nor yields a snapshot, so `RowCount`
and `GetRow` of `ct` are what they were. -/
theorem Clear_empties_store (self : SmallTableCache) :
    (∀ table : Option TABLE, (self.Clear.GetTable table).1 = none) ∧
    self.Clear.GetStats.1 = { cached_tables := 0, total_rows := 0, memory_used := 0 } ∧
    self.Clear.Clear = self.Clear ∧
    self.Clear = SmallTableCache.create ∧
    (∀ (table : Option TABLE) (ct : CachedTable), (self.GetTable table).1 = some ct →
      ((self.GetTable table).1, (self.GetTable table).2.1.Clear)
        = (some ct, SmallTableCache.create) ∧
      ((self.GetTable table).2.1.Clear.GetTable table).1 = none) := by
  refine ⟨?_, rfl, rfl, rfl, ?_⟩
  · intro table
    cases table <;> rfl
  · intro table ct h
    refine ⟨?_, ?_⟩
    · rw [h]; rfl
    · cases table <;> rfl

/-- The loop of `GetStats`, started from any intermediate totals below `2 ^ 64`. -/
theorem GetStats_fold (l : List (String × CachedTable)) :
    ∀ acc : CacheStats, acc.total_rows < UINT64_MOD → acc.memory_used < UINT64_MOD →
      (l.foldl
        (fun stats pair =>
          { stats with
            total_rows := (stats.total_rows + pair.2.RowCount) % UINT64_MOD
            memory_used :=
              (stats.memory_used + (pair.2.RowCount * pair.2.row_length) % UINT64_MOD)
                % UINT64_MOD })
        acc).cached_tables = acc.cached_tables ∧
      (l.foldl
        (fun stats pair =>
          { stats with
            total_rows := (stats.total_rows + pair.2.RowCount) % UINT64_MOD
            memory_used :=
              (stats.memory_used + (pair.2.RowCount * pair.2.row_length) % UINT64_MOD)
                % UINT64_MOD })
        acc).total_rows
        = (acc.total_rows + (l.map (fun pair => pair.2.RowCount)).sum) % UINT64_MOD ∧
      (l.foldl
        (fun stats pair =>
          { stats with
            total_rows := (stats.total_rows + pair.2.RowCount) % UINT64_MOD
            memory_used :=
              (stats.memory_used + (pair.2.RowCount * pair.2.row_length) % UINT64_MOD)
                % UINT64_MOD })
        acc).memory_used
        = (acc.memory_used + (l.map (fun pair => pair.2.RowCount * pair.2.row_length)).sum)
            % UINT64_MOD := by
  induction l with
  | nil =>
    intro acc h1 h2
    simp [Nat.mod_eq_of_lt h1, Nat.mod_eq_of_lt h2]
  | cons p l ih =>
    intro acc h1 h2
    have hpos : 0 < UINT64_MOD := by decide
    rw [List.foldl_cons]
    obtain ⟨e1, e2, e3⟩ := ih
      { acc with
        total_rows := (acc.total_rows + p.2.RowCount) % UINT64_MOD
        memory_used :=
          (acc.memory_used + (p.2.RowCount * p.2.row_length) % UINT64_MOD) % UINT64_MOD }
      (Nat.mod_lt _ hpos) (Nat.mod_lt _ hpos)
    refine ⟨e1, ?_, ?_⟩
    · rw [e2]
      simp only [List.map_cons, List.sum_cons]
      rw [Nat.mod_add_mod, Nat.add_assoc]
    · rw [e3]
      simp only [List.map_cons, List.sum_cons]
      rw [Nat.mod_add_mod]
      generalize p.2.RowCount * p.2.row_length = x
      generalize (l.map (fun pair => pair.2.RowCount * pair.2.row_length)).sum = rest
      unfold UINT64_MOD
      omega

/-- C18. Statistics formula. For every store, `GetStats` returns `cached_tables` = the number
of entries, `total_rows` = the sum over the entries of `RowCount()`, and
`memory_used` = the sum over the entries of `RowCount() * row_length`, both sums in
`size_t` arithmetic (modulo `2 ^ 64`), and hands back the store unchanged. -/
theorem GetStats_formula (self : SmallTableCache) :
    self.GetStats.1.cached_tables = self.cache.length ∧
    self.GetStats.1.total_rows
      = (self.cache.map (fun pair => pair.2.RowCount)).sum % UINT64_MOD ∧
    self.GetStats.1.memory_used
      = (self.cache.map (fun pair => pair.2.RowCount * pair.2.row_length)).sum % UINT64_MOD ∧
    self.GetStats.2 = self := by
  have h := GetStats_fold self.cache
    { cached_tables := self.cache.length, total_rows := 0, memory_used := 0 }
    (show 0 < UINT64_MOD by decide) (show 0 < UINT64_MOD by decide)
  simp only [Nat.zero_add] at h
  exact ⟨h.1, h.2.1, h.2.2, rfl⟩

/-- C19. `ShouldCache` predicate: `ShouldCache` returns true if and only if the table and its
handler are non-null and the handler's row-count estimate r satisfies
0 < r ≤ `SMALL_TABLE_CACHE_THRESHOLD` = 10000; for a table with a handler it is
false for r = 0 and r = 10001 and true for r = 1 and r = 10000. -/
theorem ShouldCache_iff (table : Option TABLE) :
    (SmallTableCache.ShouldCache table = true ↔
      ∃ t file, table = some t ∧ t.file = some file ∧
        0 < file.stats_records ∧ file.stats_records ≤ SMALL_TABLE_CACHE_THRESHOLD) ∧
    SMALL_TABLE_CACHE_THRESHOLD = 10000 ∧
    (∀ (t : TABLE) (file : handler),
      SmallTableCache.ShouldCache
          (some { t with file := some { file with stats_records := 0 } }) = false ∧
      SmallTableCache.ShouldCache
          (some { t with file := some { file with stats_records := 10001 } }) = false ∧
      SmallTableCache.ShouldCache
          (some { t with file := some { file with stats_records := 1 } }) = true ∧
      SmallTableCache.ShouldCache
          (some { t with file := some { file with stats_records := 10000 } }) = true) := by
  refine ⟨?_, rfl, ?_⟩
  · cases table with
    | none => simp [SmallTableCache.ShouldCache]
    | some t =>
      cases hf : t.file with
      | none => simp [SmallTableCache.ShouldCache, hf]
      | some file => simp [SmallTableCache.ShouldCache, hf]
  · intro t file
    simp [SmallTableCache.ShouldCache, SMALL_TABLE_CACHE_THRESHOLD]

namespace Executor

variable {σo σi : Type}

/-! ### The caching gate of the iterator -/

/-- C20 as stated fails: the gate `ShouldCacheInnerTable()` returns true for an iterator
whose inner relation has a row-count estimate of 10001, above the threshold, and
for one whose inner relation has an estimate of 0, although
`SmallTableCache::ShouldCache` is false for both relations. -/
theorem ShouldCacheInnerTable_ungated_counterexample :
    ShouldCacheInnerTable oversizeInnerJoin = true ∧
    SmallTableCache.ShouldCache (some oversizeInnerJoin.inner_table) = false ∧
    ShouldCacheInnerTable emptyInnerJoin = true ∧
    SmallTableCache.ShouldCache (some emptyInnerJoin.inner_table) = false := by
  decide

/-- C20, amended. The iterator's gate is unconditional: `ShouldCacheInnerTable()` returns
true for every iterator, whatever the inner relation and its row-count estimate
(it does not consult `SmallTableCache::ShouldCache`). `Init()` therefore always
goes on to `LoadInnerTableCache()`, which acquires nothing: it returns false and
leaves the iterator, `cached_inner_table_` included, as it is; so after `Init()`
either `Init()` has failed or no snapshot is held. -/
theorem ShouldCacheInnerTable_always_true (O : RowIterator σo) (I : RowIterator σi)
    (it : OptimizedNestedLoopIterator σo σi) :
    ShouldCacheInnerTable it = true ∧
    LoadInnerTableCache it = (false, it) ∧
    ((Init O I it).1 = true ∨ (Init O I it).2.cached_inner_table = none) := by
  refine ⟨rfl, rfl, ?_⟩
  unfold Init
  dsimp only
  split_ifs <;> simp [LoadInnerTableCache]

end Executor

/-! ### The statements below the early return of `LoadTable`

`LoadTable_disabled_part` is never executed. The two facts below record what it would do
if the early return were removed; no claim about `LoadTable` rests on them. -/

/-- The disabled scan loop, run on a script of found rows that reaches the threshold: it
stops at `row_count` = threshold with that many rows added and the other scripted
rows unread. -/
theorem LoadTableScan.loop_reaches_threshold (eof deleted : Int) (h0 : eof ≠ 0)
    (h1 : deleted ≠ 0) (b : List uchar) (m : Nat) :
    ∀ (k fuel : Nat) (s : LoadTableScan), k ≤ fuel →
      s.row_count + k = SMALL_TABLE_CACHE_THRESHOLD →
      s.file.rnd_next_script = List.replicate (k + m) (0, b) →
      ∃ s', LoadTableScan.loop eof deleted fuel s = some (LoadTableScanExit.done s') ∧
        s'.row_count = SMALL_TABLE_CACHE_THRESHOLD ∧
        s'.cached.RowCount = s.cached.RowCount + k ∧
        s'.file.rnd_next_script = List.replicate m (0, b) := by
  intro k
  induction k with
  | zero =>
    intro fuel s _ hrc hscript
    have hcond : ¬ s.row_count < SMALL_TABLE_CACHE_THRESHOLD := by omega
    refine ⟨s, ?_, by omega, rfl, by simpa using hscript⟩
    cases fuel <;> simp [LoadTableScan.loop, hcond]
  | succ k ih =>
    intro fuel s hfuel hrc hscript
    obtain ⟨f, rfl⟩ : ∃ f, fuel = f + 1 := ⟨fuel - 1, by omega⟩
    have hcond : s.row_count < SMALL_TABLE_CACHE_THRESHOLD := by omega
    have hscript' : s.file.rnd_next_script = (0, b) :: List.replicate (k + m) (0, b) := by
      rw [hscript, show k + 1 + m = (k + m) + 1 by omega, List.replicate_succ]
    obtain ⟨s', hs', hrc', hrows', hleft'⟩ := ih f
      { file := { s.file with
                  rnd_next_script := List.replicate (k + m) (0, b)
                  calls := HandlerCall.ha_rnd_next 0 :: s.file.calls }
        record := b
        cached := s.cached.AddRow b
        row_count := s.row_count + 1 }
      (by omega) (by simp only; omega) rfl
    refine ⟨s', ?_, hrc', ?_, hleft'⟩
    · rw [← hs']
      simp [LoadTableScan.loop, hcond, handler.ha_rnd_next, hscript', Ne.symm h0, Ne.symm h1]
    · rw [hrows']
      simp [CachedTable.RowCount, CachedTable.AddRow]
      omega

/-- What the disabled statements would do, the key being absent from the store, with a table
whose scan opens and delivers more rows than the threshold (threshold + `m` + 1
found rows): return and store a snapshot of exactly threshold rows, short of the
table's rows. -/
theorem LoadTable_disabled_part_truncates (eof deleted : Int) (h0 : eof ≠ 0) (h1 : deleted ≠ 0)
    (addr : Nat) (self : SmallTableCache) (t : TABLE) (file : handler) (b : List uchar)
    (m : Nat) (hfile : t.file = some file) (hinit : file.rnd_init_code = 0)
    (hscript : file.rnd_next_script
      = List.replicate (SMALL_TABLE_CACHE_THRESHOLD + (m + 1)) (0, b))
    (habsent : self.cache.lookup (SmallTableCache.GetCacheKey t) = none) :
    ∃ ct store t',
      SmallTableCache.LoadTable_disabled_part eof deleted addr self (some t)
        = some (some ct, store, t') ∧
      ct.RowCount = SMALL_TABLE_CACHE_THRESHOLD ∧
      store.cache.lookup (SmallTableCache.GetCacheKey t) = some ct := by
  obtain ⟨s', hs', hrc', hrows', _⟩ :=
    LoadTableScan.loop_reaches_threshold eof deleted h0 h1 b (m + 1)
      SMALL_TABLE_CACHE_THRESHOLD ((file.ha_rnd_init true).2.rnd_next_script.length + 1)
      { file := (file.ha_rnd_init true).2
        record := t.record0
        cached := CachedTable.create addr t
        row_count := 0 }
      (by simp [handler.ha_rnd_init, hscript]; omega) (by simp) (by simpa [handler.ha_rnd_init] using hscript)
  have hnot : ¬ s'.row_count > SMALL_TABLE_CACHE_THRESHOLD := by omega
  have hopen : ¬ (file.ha_rnd_init true).1 ≠ 0 := by simp [handler.ha_rnd_init, hinit]
  refine ⟨s'.cached,
    { cache := (SmallTableCache.GetCacheKey t, s'.cached) :: self.cache },
    some { t with file := some s'.file.ha_rnd_end, record0 := s'.record },
    ?_, ?_, ?_⟩
  · unfold SmallTableCache.LoadTable_disabled_part
    simp only [hfile, habsent]
    rw [if_neg hopen, hs']
    simp only [if_neg hnot]
  · rw [hrows']
    simp [CachedTable.RowCount, CachedTable.create]
  · simp [List.lookup]

/-! ### Clear and rebuild, size invariant, reachable stores -/

/-- What `Clear()` and `LoadTable` would do on a store with an entry (`storeWithEntry` is
written down directly; no call sequence produces it): the store holds a snapshot
under `db.t`; after `Clear()`, `LoadTable` for the table `db.t` returns null instead of a freshly built
snapshot, and the handler's call log is as before: the scan is neither opened nor
read. -/
theorem Clear_then_LoadTable_counterexample :
    storeWithEntry.cache.lookup (SmallTableCache.GetCacheKey failingTable)
      = some ((CachedTable.create 0 failingTable).AddRow [7]) ∧
    (storeWithEntry.Clear.LoadTable (some failingTable)).1 = none ∧
    (storeWithEntry.Clear.LoadTable (some failingTable)).2.2 = some failingTable ∧
    (storeWithEntry.Clear.LoadTable (some failingTable)).2.1.cache = [] := by
  decide

/-- On any store value, reachable or not, `Clear()` is not followed by a rebuild: for a key
that was cached (the store held a snapshot `ct` under the table's key), `Clear()` followed by
`LoadTable` for the same table performs no scan of the source (the table and its
handler are handed back unchanged), returns null, and leaves the store empty;
the snapshot captured before `Clear()` is not reused either: `GetTable` for the
table returns null afterwards. -/
theorem Clear_then_LoadTable_builds_nothing (self : SmallTableCache) (t : TABLE)
    (ct : CachedTable) (_h : self.cache.lookup (SmallTableCache.GetCacheKey t) = some ct) :
    (self.Clear.LoadTable (some t)).1 = none ∧
    (self.Clear.LoadTable (some t)).2.2 = some t ∧
    (self.Clear.LoadTable (some t)).2.1 = SmallTableCache.create ∧
    ((self.Clear.LoadTable (some t)).2.1.GetTable (some t)).1 = none := by
  refine ⟨rfl, rfl, rfl, rfl⟩

/-- The preceding theorem at the store `storeWithEntry` and the table `db.t`, after
`Clear()`. -/
theorem Clear_then_LoadTable_builds_nothing_witness :
    storeWithEntry.cache.lookup (SmallTableCache.GetCacheKey failingTable)
      = some ((CachedTable.create 0 failingTable).AddRow [7]) ∧
    (storeWithEntry.Clear.LoadTable (some failingTable)).1 = none ∧
    (storeWithEntry.Clear.LoadTable (some failingTable)).2.2 = some failingTable ∧
    (storeWithEntry.Clear.LoadTable (some failingTable)).2.1 = SmallTableCache.create ∧
    ((storeWithEntry.Clear.LoadTable (some failingTable)).2.1.GetTable
      (some failingTable)).1 = none :=
  ⟨by decide,
   Clear_then_LoadTable_builds_nothing storeWithEntry failingTable
     ((CachedTable.create 0 failingTable).AddRow [7]) (by decide)⟩

/-- C22. Snapshot size invariant. In every store state reachable from the empty store by
any sequence of `LoadTable`, `GetTable`, `Clear` (and `GetStats`) calls, every
snapshot stored in the map and every snapshot that a further `LoadTable` call
returns has `RowCount()` ≤ `SMALL_TABLE_CACHE_THRESHOLD`. (The map of such a state
has no entry and `LoadTable` returns null, so there is no snapshot to exceed the
bound.) -/
theorem snapshot_size_invariant (ops : List CacheOp) (table : Option TABLE) :
    (∀ entry ∈ (SmallTableCache.create.run ops).cache,
      entry.2.RowCount ≤ SMALL_TABLE_CACHE_THRESHOLD) ∧
    (∀ ct, ((SmallTableCache.create.run ops).LoadTable table).1 = some ct →
      ct.RowCount ≤ SMALL_TABLE_CACHE_THRESHOLD) ∧
    (∀ entry ∈ ((SmallTableCache.create.run ops).LoadTable table).2.1.cache,
      entry.2.RowCount ≤ SMALL_TABLE_CACHE_THRESHOLD) := by
  rw [SmallTableCache.run_create]
  refine ⟨?_, ?_, ?_⟩
  · intro entry h; cases h
  · intro ct h; cases h
  · intro entry h; cases h

/-- C29. The store is always empty. In every state reachable from the initially empty
`SmallTableCache` by any finite sequence of `LoadTable`, `GetTable`, `Clear` and
`GetStats` calls with arbitrary tables, the map has no entries; every further
`LoadTable` and `GetTable` call returns null and hands back the table (with its
handler) unchanged, so no scan is opened; `GetStats` returns {0, 0, 0}. -/
theorem store_always_empty (ops : List CacheOp) (table : Option TABLE) :
    (SmallTableCache.create.run ops).cache = [] ∧
    ((SmallTableCache.create.run ops).LoadTable table).1 = none ∧
    ((SmallTableCache.create.run ops).LoadTable table).2.2 = table ∧
    ((SmallTableCache.create.run ops).GetTable table).1 = none ∧
    ((SmallTableCache.create.run ops).GetTable table).2.2 = table ∧
    (SmallTableCache.create.run ops).GetStats.1
      = { cached_tables := 0, total_rows := 0, memory_used := 0 } := by
  rw [SmallTableCache.run_create]
  refine ⟨rfl, rfl, rfl, ?_, ?_, rfl⟩
  · cases table <;> rfl
  · cases table <;> rfl

namespace Executor

variable {σo σi : Type}

/-! ### Advancing the outer row -/

/-- C24. Outer-row advance postcondition of `ReadOuterRow`, for an iterator whose
`outer_rows_scanned` is below the largest `uint64_t` value. When the outer read
returns 0: `outer_rows_scanned` increases by exactly 1, the match flag becomes
false, the cursor becomes 0, `inner_rows_scanned` and `cache_hits` are unchanged;
if a snapshot is held the state becomes `READING_FROM_CACHE`, 0 is returned and
the only call made is the outer read (no inner `Init`); otherwise the inner
source's `Init` is called exactly once, right after the outer read, and if it
succeeds the state becomes `READING_FROM_ITERATOR` and 0 is returned (if it fails,
1 is returned and the state stays). When the outer read returns -1: -1 is
returned, the three counters, the cursor and the match flag are unchanged, and
the state becomes `END_OF_OUTER_ROWS`. -/
theorem ReadOuterRow_advance (O : RowIterator σo) (I : RowIterator σi)
    (it : OptimizedNestedLoopIterator σo σi)
    (hmax : it.outer_rows_scanned + 1 < UINT64_MOD) :
    ((O.Read it.outer_iterator).1 = 0 →
      (ReadOuterRow O I it).2.outer_rows_scanned = it.outer_rows_scanned + 1 ∧
      (ReadOuterRow O I it).2.outer_row_matched = false ∧
      (ReadOuterRow O I it).2.current_inner_row_index = 0 ∧
      (ReadOuterRow O I it).2.inner_rows_scanned = it.inner_rows_scanned ∧
      (ReadOuterRow O I it).2.cache_hits = it.cache_hits ∧
      (it.cached_inner_table.isSome = true →
        (ReadOuterRow O I it).1 = 0 ∧
        (ReadOuterRow O I it).2.state = State.READING_FROM_CACHE ∧
        (ReadOuterRow O I it).2.calls = Call.outer_Read 0 :: it.calls) ∧
      (it.cached_inner_table = none →
        (ReadOuterRow O I it).2.calls
          = Call.inner_Init (I.Init it.inner_iterator).1 :: Call.outer_Read 0 :: it.calls ∧
        (ReadOuterRow O I it).2.inner_iterator = (I.Init it.inner_iterator).2 ∧
        ((I.Init it.inner_iterator).1 = false →
          (ReadOuterRow O I it).1 = 0 ∧
          (ReadOuterRow O I it).2.state = State.READING_FROM_ITERATOR) ∧
        ((I.Init it.inner_iterator).1 = true →
          (ReadOuterRow O I it).1 = 1 ∧ (ReadOuterRow O I it).2.state = it.state))) ∧
    ((O.Read it.outer_iterator).1 = -1 →
      (ReadOuterRow O I it).1 = -1 ∧
      (ReadOuterRow O I it).2.outer_rows_scanned = it.outer_rows_scanned ∧
      (ReadOuterRow O I it).2.inner_rows_scanned = it.inner_rows_scanned ∧
      (ReadOuterRow O I it).2.cache_hits = it.cache_hits ∧
      (ReadOuterRow O I it).2.current_inner_row_index = it.current_inner_row_index ∧
      (ReadOuterRow O I it).2.outer_row_matched = it.outer_row_matched ∧
      (ReadOuterRow O I it).2.state = State.END_OF_OUTER_ROWS ∧
      (ReadOuterRow O I it).2.calls = Call.outer_Read (-1) :: it.calls) := by
  constructor
  · intro h0
    have hmod : (it.outer_rows_scanned + 1) % UINT64_MOD = it.outer_rows_scanned + 1 :=
      Nat.mod_eq_of_lt hmax
    unfold ReadOuterRow
    dsimp only
    rw [h0]
    refine ⟨?_, ?_, ?_, ?_, ?_, ?_, ?_⟩
    · split_ifs <;> simp_all
    · split_ifs <;> simp_all
    · split_ifs <;> simp_all
    · split_ifs <;> simp_all
    · split_ifs <;> simp_all
    · intro hc
      simp [hc]
    · intro hc
      simp only [hc]
      refine ⟨?_, ?_, ?_, ?_⟩
      · split_ifs <;> simp_all
      · split_ifs <;> simp_all
      · intro hb; simp [hb]
      · intro hb; simp [hb]
  · intro h1
    unfold ReadOuterRow
    dsimp only
    rw [h1]
    simp

/-- Witness of C24: on `liveJoin JoinType.INNER [0] 1` the outer read returns 0 and no
snapshot is held; on `liveJoin JoinType.INNER [] 1` the outer read returns -1. -/
theorem ReadOuterRow_advance_witness :
    (liveJoin JoinType.INNER [0] 1).outer_rows_scanned + 1 < UINT64_MOD ∧
    (scriptedSource.Read (liveJoin JoinType.INNER [0] 1).outer_iterator).1 = 0 ∧
    (ReadOuterRow scriptedSource tableSource (liveJoin JoinType.INNER [0] 1)).2.outer_rows_scanned
      = (liveJoin JoinType.INNER [0] 1).outer_rows_scanned + 1 ∧
    (scriptedSource.Read (liveJoin JoinType.INNER [] 1).outer_iterator).1 = -1 ∧
    (ReadOuterRow scriptedSource tableSource (liveJoin JoinType.INNER [] 1)).2.state
      = State.END_OF_OUTER_ROWS :=
  ⟨by decide, by decide,
   ((ReadOuterRow_advance scriptedSource tableSource (liveJoin JoinType.INNER [0] 1)
     (by decide)).1 (by decide)).1,
   by decide,
   ((ReadOuterRow_advance scriptedSource tableSource (liveJoin JoinType.INNER [] 1)
     (by decide)).2 (by decide)).2.2.2.2.2.2.1⟩

end Executor

namespace Executor

variable {σo σi : Type}

/-! ### Where the iterator rests after the outer source is exhausted -/

/-- `ReadOuterRow` returns -1 exactly when the outer read does. -/
theorem ReadOuterRow_minus_one_iff (O : RowIterator σo) (I : RowIterator σi)
    (it : OptimizedNestedLoopIterator σo σi) :
    (ReadOuterRow O I it).1 = -1 ↔ (O.Read it.outer_iterator).1 = -1 := by
  unfold ReadOuterRow
  dsimp only
  split_ifs with h1 h2 h3 h4 <;> simp_all

/-- From a scanning state, a `Read()` that returns -1 leaves the state `END_OF_OUTER_ROWS`. -/
theorem Read_minus_one_from_scanning (O : RowIterator σo) (I : RowIterator σi) (fuel : Nat)
    (it it' : OptimizedNestedLoopIterator σo σi)
    (h : Read O I fuel it = some (-1, it'))
    (hs : it.state = State.READING_FROM_CACHE ∨ it.state = State.READING_FROM_ITERATOR) :
    it'.state = State.END_OF_OUTER_ROWS := by
  have terminal : ∀ (k : Nat) (mid : OptimizedNestedLoopIterator σo σi),
      mid.state = State.END_OF_OUTER_ROWS → Read O I k mid = some (-1, it') →
      it'.state = State.END_OF_OUTER_ROWS := by
    intro k mid hmid hk
    cases k with
    | zero => simp [Read] at hk
    | succ k =>
      rw [Read_terminal O I k mid (Or.inl hmid)] at hk
      simp only [Option.some.injEq, Prod.mk.injEq, true_and] at hk
      rw [← hk]; exact hmid
  cases fuel with
  | zero => simp [Read] at h
  | succ n =>
    rw [Read] at h
    rcases hs with hs | hs
    · simp only [hs] at h
      split at h
      · simp at h
      · rename_i rr hrr
        have hct : ∃ ct, it.cached_inner_table = some ct := by
          cases hc : it.cached_inner_table with
          | none => simp [ScanCachedInnerTable, hc] at hrr
          | some ct => exact ⟨ct, rfl⟩
        obtain ⟨ct, hct⟩ := hct
        obtain ⟨rr', hrr', _, hm, _, _⟩ := ScanCachedInnerTable_post O I it ct hct
        rw [hrr] at hrr'
        cases hrr'
        split_ifs at h with h1 h2
        · simp at h
        · simp only [Option.some.injEq, Prod.mk.injEq] at h
          exact absurd h.1 h2
        · simp only [ne_eq, Decidable.not_not] at h2
          exact terminal n _ (hm h2) h
    · simp only [hs] at h
      split_ifs at h with h1 h2
      · simp at h
      · simp only [Option.some.injEq, Prod.mk.injEq] at h
        exact absurd h.1 h2
      · simp only [ne_eq, Decidable.not_not] at h2
        exact terminal n _ ((ScanInnerIterator_state O I it).1 h2) h

/-- C25 as stated fails: INNER join, live path, outer = [o1], empty inner source. The first
`Read()` reads o1, finds no inner row, finds the outer source exhausted and returns
-1; the state after that call is `END_OF_OUTER_ROWS`, not `END_OF_JOIN`, and it is
still `END_OF_OUTER_ROWS` after two more calls. -/
theorem Read_rests_in_END_OF_OUTER_ROWS_counterexample :
    (ReadMany scriptedSource tableSource 3 1 (liveJoin JoinType.INNER [0] 0)).map
        (fun r => (r.1, r.2.state, r.2.outer_rows_scanned))
      = some ([-1], State.END_OF_OUTER_ROWS, 1) ∧
    (ReadMany scriptedSource tableSource 3 3 (liveJoin JoinType.INNER [0] 0)).map
        (fun r => (r.1, r.2.state))
      = some ([-1, -1, -1], State.END_OF_OUTER_ROWS) := by
  decide

/-- C25, amended. Whenever a `Read()` call returns -1: if the outer source was exhausted on
the very first outer read (the call started in `READING_FIRST_OUTER_ROW` and that
outer read returned -1), the state after the call is `END_OF_JOIN`; if the call
started in `READING_FIRST_OUTER_ROW` and read an outer row first, or started in
`READING_FROM_CACHE` or `READING_FROM_ITERATOR` (one or more outer rows had been
processed), the state after the call is `END_OF_OUTER_ROWS`, and that is where
the iterator rests; a call that started in `END_OF_OUTER_ROWS` or `END_OF_JOIN`
leaves the iterator as it was. -/
theorem Read_end_of_data_state (O : RowIterator σo) (I : RowIterator σi) (fuel : Nat)
    (it it' : OptimizedNestedLoopIterator σo σi)
    (h : Read O I fuel it = some (-1, it')) :
    (it.state = State.READING_FIRST_OUTER_ROW → (O.Read it.outer_iterator).1 = -1 →
      it'.state = State.END_OF_JOIN) ∧
    (it.state = State.READING_FIRST_OUTER_ROW → (O.Read it.outer_iterator).1 ≠ -1 →
      it'.state = State.END_OF_OUTER_ROWS) ∧
    (it.state = State.READING_FROM_CACHE ∨ it.state = State.READING_FROM_ITERATOR →
      it'.state = State.END_OF_OUTER_ROWS) ∧
    (it.state = State.END_OF_OUTER_ROWS ∨ it.state = State.END_OF_JOIN → it' = it) := by
  refine ⟨?_, ?_, ?_, ?_⟩
  · intro hst hc
    cases fuel with
    | zero => simp [Read] at h
    | succ n =>
      rw [Read] at h
      simp only [hst] at h
      have hr : (ReadOuterRow O I it).1 = -1 := (ReadOuterRow_minus_one_iff O I it).mpr hc
      rw [if_pos (by rw [hr]; decide), if_pos hr] at h
      simp only [Option.some.injEq, Prod.mk.injEq, true_and] at h
      rw [← h]
  · intro hst hc
    cases fuel with
    | zero => simp [Read] at h
    | succ n =>
      rw [Read] at h
      simp only [hst] at h
      have hr : (ReadOuterRow O I it).1 ≠ -1 :=
        fun hr => hc ((ReadOuterRow_minus_one_iff O I it).mp hr)
      split_ifs at h with h1
      · simp only [Option.some.injEq, Prod.mk.injEq] at h
        exact absurd h.1 hr
      · simp only [ne_eq, Decidable.not_not] at h1
        apply Read_minus_one_from_scanning O I n _ it' h
        rcases (ReadOuterRow_state O I it).1 h1 with ⟨h3, _⟩ | h3
        · exact Or.inl h3
        · exact Or.inr h3
  · intro hst
    exact Read_minus_one_from_scanning O I fuel it it' h hst
  · intro hst
    cases fuel with
    | zero => simp [Read] at h
    | succ n =>
      rw [Read_terminal O I n it hst] at h
      simp only [Option.some.injEq, Prod.mk.injEq, true_and] at h
      exact h.symm

/-- Witness of C25 (amended): `liveJoin JoinType.INNER [0] 0` starts in
`READING_FIRST_OUTER_ROW`, its first outer read returns 0, and its first `Read()`
returns -1 and leaves `liveJoinAtEnd`, in state `END_OF_OUTER_ROWS`. -/
theorem Read_end_of_data_state_witness :
    Read scriptedSource tableSource 3 (liveJoin JoinType.INNER [0] 0) = some (-1, liveJoinAtEnd) ∧
    (liveJoin JoinType.INNER [0] 0).state = State.READING_FIRST_OUTER_ROW ∧
    (scriptedSource.Read (liveJoin JoinType.INNER [0] 0).outer_iterator).1 ≠ -1 ∧
    liveJoinAtEnd.state = State.END_OF_OUTER_ROWS :=
  ⟨by decide, by decide, by decide,
   (Read_end_of_data_state scriptedSource tableSource 3 (liveJoin JoinType.INNER [0] 0)
     liveJoinAtEnd (by decide)).2.1 (by decide) (by decide)⟩

end Executor

namespace Executor

variable {σo σi : Type}

/-! ### The cache path -/

/-- With a snapshot held, `ReadOuterRow` makes the outer read and nothing else: the inner
source and `inner_rows_scanned` are untouched, the snapshot stays, and the state
becomes `READING_FROM_CACHE` or `END_OF_OUTER_ROWS` or stays. -/
theorem ReadOuterRow_cached (O : RowIterator σo) (I : RowIterator σi)
    (it : OptimizedNestedLoopIterator σo σi) (ct : CachedTable)
    (hct : it.cached_inner_table = some ct) :
    (ReadOuterRow O I it).2.calls = Call.outer_Read (O.Read it.outer_iterator).1 :: it.calls ∧
    (ReadOuterRow O I it).2.inner_iterator = it.inner_iterator ∧
    (ReadOuterRow O I it).2.inner_rows_scanned = it.inner_rows_scanned ∧
    (ReadOuterRow O I it).2.cached_inner_table = some ct ∧
    ((ReadOuterRow O I it).2.state = State.READING_FROM_CACHE ∨
      (ReadOuterRow O I it).2.state = State.END_OF_OUTER_ROWS ∨
      (ReadOuterRow O I it).2.state = it.state) := by
  unfold ReadOuterRow
  dsimp only
  split_ifs with h1 h2 h3 h4 <;> simp_all

/-- The facts that every `Read()` keeps when a snapshot is held and the state is not
`READING_FROM_ITERATOR`: the calls it adds are outer reads only, the inner source
and `inner_rows_scanned` are untouched, the snapshot stays and the state stays
off `READING_FROM_ITERATOR`. -/
theorem Read_cache_path (O : RowIterator σo) (I : RowIterator σi) (ct : CachedTable) :
    ∀ (fuel : Nat) (it : OptimizedNestedLoopIterator σo σi) (r : Int)
      (it' : OptimizedNestedLoopIterator σo σi),
      Read O I fuel it = some (r, it') →
      it.cached_inner_table = some ct → it.state ≠ State.READING_FROM_ITERATOR →
      (∃ d, it'.calls = d ++ it.calls ∧ ∀ c ∈ d, ∃ e, c = Call.outer_Read e) ∧
      it'.inner_iterator = it.inner_iterator ∧
      it'.inner_rows_scanned = it.inner_rows_scanned ∧
      it'.cached_inner_table = some ct ∧
      it'.state ≠ State.READING_FROM_ITERATOR := by
  intro fuel
  induction fuel with
  | zero => intro it r it' h; simp [Read] at h
  | succ n ih =>
    intro it r it' h hct hst
    have step : ∀ (mid : OptimizedNestedLoopIterator σo σi),
        ((∃ d, mid.calls = d ++ it.calls ∧ ∀ c ∈ d, ∃ e, c = Call.outer_Read e) ∧
          mid.inner_iterator = it.inner_iterator ∧
          mid.inner_rows_scanned = it.inner_rows_scanned ∧
          mid.cached_inner_table = some ct ∧
          mid.state ≠ State.READING_FROM_ITERATOR) →
        Read O I n mid = some (r, it') →
        (∃ d, it'.calls = d ++ it.calls ∧ ∀ c ∈ d, ∃ e, c = Call.outer_Read e) ∧
          it'.inner_iterator = it.inner_iterator ∧
          it'.inner_rows_scanned = it.inner_rows_scanned ∧
          it'.cached_inner_table = some ct ∧
          it'.state ≠ State.READING_FROM_ITERATOR := by
      intro mid ⟨⟨d1, hd1, hq1⟩, hi1, hr1, hc1, hs1⟩ hmid
      obtain ⟨⟨d2, hd2, hq2⟩, hi2, hr2, hc2, hs2⟩ := ih mid r it' hmid hc1 hs1
      refine ⟨⟨d2 ++ d1, by rw [hd2, hd1, List.append_assoc], ?_⟩, by rw [hi2, hi1],
        by rw [hr2, hr1], hc2, hs2⟩
      intro c hc
      rcases List.mem_append.mp hc with hc | hc
      · exact hq2 c hc
      · exact hq1 c hc
    have outer : (∃ d, (ReadOuterRow O I it).2.calls = d ++ it.calls ∧
          ∀ c ∈ d, ∃ e, c = Call.outer_Read e) ∧
        (ReadOuterRow O I it).2.inner_iterator = it.inner_iterator ∧
        (ReadOuterRow O I it).2.inner_rows_scanned = it.inner_rows_scanned ∧
        (ReadOuterRow O I it).2.cached_inner_table = some ct ∧
        (ReadOuterRow O I it).2.state ≠ State.READING_FROM_ITERATOR := by
      obtain ⟨h1, h2, h3, h4, h5⟩ := ReadOuterRow_cached O I it ct hct
      refine ⟨⟨[Call.outer_Read (O.Read it.outer_iterator).1], by rw [h1]; rfl, ?_⟩,
        h2, h3, h4, ?_⟩
      · intro c hc
        simp only [List.mem_singleton] at hc
        exact ⟨_, hc⟩
      · rcases h5 with h5 | h5 | h5
        · rw [h5]; decide
        · rw [h5]; decide
        · rw [h5]; exact hst
    have same : (∃ d, it.calls = d ++ it.calls ∧ ∀ c ∈ d, ∃ e, c = Call.outer_Read e) :=
      ⟨[], by simp, by simp⟩
    rw [Read] at h
    cases hstate : it.state with
    | READING_FIRST_OUTER_ROW =>
      simp only [hstate] at h
      split_ifs at h with h1 h2
      · simp only [Option.some.injEq, Prod.mk.injEq] at h
        obtain ⟨_, rfl⟩ := h
        exact ⟨outer.1, outer.2.1, outer.2.2.1, outer.2.2.2.1, by simp⟩
      · simp only [Option.some.injEq, Prod.mk.injEq] at h
        obtain ⟨_, rfl⟩ := h
        exact outer
      · exact step _ outer h
    | READING_FROM_CACHE =>
      simp only [hstate] at h
      rw [ScanCachedInnerTable_eq O I it ct hct] at h
      by_cases hlt : it.current_inner_row_index < ct.RowCount
      · obtain ⟨data, hdata⟩ := CachedTable.GetRow_lt ct _ hlt
        rw [if_pos hlt, hdata] at h
        simp only [Option.map_some'] at h
        rw [if_pos trivial] at h
        simp only [Option.some.injEq, Prod.mk.injEq] at h
        obtain ⟨_, rfl⟩ := h
        exact ⟨same, rfl, rfl, hct, by simp [hstate]⟩
      · rw [if_neg hlt] at h
        by_cases hnull : it.join_type = JoinType.OUTER ∧ it.outer_row_matched = false
        · rw [if_pos hnull] at h
          simp only at h
          rw [if_pos trivial] at h
          simp only [Option.some.injEq, Prod.mk.injEq] at h
          obtain ⟨_, rfl⟩ := h
          exact ⟨same, rfl, rfl, hct, by simp [hstate]⟩
        · rw [if_neg hnull] at h
          simp only at h
          split_ifs at h with h1 h2
          · simp only [Option.some.injEq, Prod.mk.injEq] at h
            obtain ⟨_, rfl⟩ := h
            exact outer
          · simp only [Option.some.injEq, Prod.mk.injEq] at h
            obtain ⟨_, rfl⟩ := h
            exact outer
          · exact step _ outer h
    | READING_FROM_ITERATOR => exact absurd hstate hst
    | END_OF_OUTER_ROWS =>
      simp only [hstate] at h
      simp only [Option.some.injEq, Prod.mk.injEq] at h
      obtain ⟨_, rfl⟩ := h
      exact ⟨same, rfl, rfl, hct, hst⟩
    | END_OF_JOIN =>
      simp only [hstate] at h
      simp only [Option.some.injEq, Prod.mk.injEq] at h
      obtain ⟨_, rfl⟩ := h
      exact ⟨same, rfl, rfl, hct, hst⟩

/-- With a snapshot held, a `Read()` either fetches no snapshot row (`cache_hits` and the
inner working buffer are as before) or fetches exactly one: it returns 0,
`cache_hits` is one more, the cursor is one past the position `pos` of the row,
and the buffer received the first `row_length` bytes of that row. -/
theorem Read_cache_fetch (O : RowIterator σo) (I : RowIterator σi) (ct : CachedTable) :
    ∀ (fuel : Nat) (it : OptimizedNestedLoopIterator σo σi) (r : Int)
      (it' : OptimizedNestedLoopIterator σo σi),
      Read O I fuel it = some (r, it') →
      it.cached_inner_table = some ct → it.state ≠ State.READING_FROM_ITERATOR →
      it.cache_hits + 1 < UINT64_MOD →
      (it'.cache_hits = it.cache_hits ∧ it'.inner_table.record0 = it.inner_table.record0) ∨
      (it'.cache_hits = it.cache_hits + 1 ∧ r = 0 ∧
        ∃ pos data, it'.current_inner_row_index = pos + 1 ∧ ct.GetRow pos = some data ∧
          it'.inner_table.record0 = memcpy it.inner_table.record0 data ct.row_length ∧
          (it.state = State.READING_FROM_CACHE → pos = it.current_inner_row_index)) := by
  intro fuel
  induction fuel with
  | zero => intro it r it' h; simp [Read] at h
  | succ n ih =>
    intro it r it' h hct hst hhits
    have houter := ReadOuterRow_frame O I it
    have hcached := ReadOuterRow_cached O I it ct hct
    have hstate := ReadOuterRow_state O I it
    have hno : (ReadOuterRow O I it).2.cache_hits = it.cache_hits ∧
        (ReadOuterRow O I it).2.inner_table.record0 = it.inner_table.record0 :=
      ⟨houter.2.2.2.1, by rw [houter.2.2.2.2]⟩
    rw [Read] at h
    cases hs : it.state with
    | READING_FIRST_OUTER_ROW =>
      simp only [hs] at h
      split_ifs at h with h1 h2
      · simp only [Option.some.injEq, Prod.mk.injEq] at h
        obtain ⟨_, rfl⟩ := h
        exact Or.inl hno
      · simp only [Option.some.injEq, Prod.mk.injEq] at h
        obtain ⟨_, rfl⟩ := h
        exact Or.inl hno
      · have hmid : (ReadOuterRow O I it).2.state ≠ State.READING_FROM_ITERATOR := by
          rcases hcached.2.2.2.2 with h5 | h5 | h5
          · rw [h5]; decide
          · rw [h5]; decide
          · rw [h5, hs]; decide
        rcases ih _ r it' h hcached.2.2.2.1 hmid (by rw [hno.1]; exact hhits) with
          hleft | ⟨hh, hr0, pos, data, hp, hg, hrec, _⟩
        · left
          exact ⟨by rw [hleft.1, hno.1], by rw [hleft.2, hno.2]⟩
        · right
          refine ⟨by rw [hh, hno.1], hr0, pos, data, hp, hg, by rw [hrec, hno.2], ?_⟩
          intro hc
          cases hc
    | READING_FROM_CACHE =>
      simp only [hs] at h
      rw [ScanCachedInnerTable_eq O I it ct hct] at h
      by_cases hlt : it.current_inner_row_index < ct.RowCount
      · obtain ⟨data, hdata⟩ := CachedTable.GetRow_lt ct _ hlt
        rw [if_pos hlt, hdata] at h
        simp only [Option.map_some'] at h
        rw [if_pos trivial] at h
        simp only [Option.some.injEq, Prod.mk.injEq] at h
        obtain ⟨rfl, rfl⟩ := h
        right
        exact ⟨Nat.mod_eq_of_lt hhits, rfl, it.current_inner_row_index, data, rfl, hdata, rfl,
          fun _ => rfl⟩
      · rw [if_neg hlt] at h
        by_cases hnull : it.join_type = JoinType.OUTER ∧ it.outer_row_matched = false
        · rw [if_pos hnull] at h
          simp only at h
          rw [if_pos trivial] at h
          simp only [Option.some.injEq, Prod.mk.injEq] at h
          obtain ⟨_, rfl⟩ := h
          exact Or.inl ⟨rfl, rfl⟩
        · rw [if_neg hnull] at h
          simp only at h
          split_ifs at h with h1 h2
          · simp only [Option.some.injEq, Prod.mk.injEq] at h
            obtain ⟨_, rfl⟩ := h
            exact Or.inl hno
          · simp only [Option.some.injEq, Prod.mk.injEq] at h
            obtain ⟨_, rfl⟩ := h
            exact Or.inl hno
          · simp only [ne_eq, Decidable.not_not] at h2
            have hend := hstate.2.1 h2
            cases n with
            | zero => simp [Read] at h
            | succ k =>
              rw [Read_terminal O I k _ (Or.inl hend)] at h
              simp only [Option.some.injEq, Prod.mk.injEq] at h
              obtain ⟨_, rfl⟩ := h
              exact Or.inl hno
    | READING_FROM_ITERATOR => exact absurd hs hst
    | END_OF_OUTER_ROWS =>
      simp only [hs] at h
      simp only [Option.some.injEq, Prod.mk.injEq] at h
      obtain ⟨_, rfl⟩ := h
      exact Or.inl ⟨rfl, rfl⟩
    | END_OF_JOIN =>
      simp only [hs] at h
      simp only [Option.some.injEq, Prod.mk.injEq] at h
      obtain ⟨_, rfl⟩ := h
      exact Or.inl ⟨rfl, rfl⟩

/-- C26. The cache path never touches the live inner source. Let the iterator hold a
snapshot `ct`, be in a state other than `READING_FROM_ITERATOR` (that state is
only entered without a snapshot) and have `cache_hits` below the largest
`uint64_t` value. Then `Read()` returns, the calls it makes are reads of the
outer source only (neither `Read` nor `Init` of the inner source is called: the
inner source is as before), `inner_rows_scanned` is unchanged, and afterwards the
snapshot is still held and the state is still not `READING_FROM_ITERATOR`, so the
same holds for every later `Read()`. The call fetches at most one snapshot row;
when it fetches the row at cursor position `pos` (the cursor before the call, if
the call started in `READING_FROM_CACHE`), the cursor becomes `pos + 1`,
`cache_hits` increases by exactly 1, and the inner working buffer receives
exactly the first `row_length` bytes of that row; when it fetches none,
`cache_hits` and the buffer are unchanged. -/
theorem Read_cache_path_frame (O : RowIterator σo) (I : RowIterator σi) (n : Nat)
    (it : OptimizedNestedLoopIterator σo σi) (ct : CachedTable)
    (hct : it.cached_inner_table = some ct)
    (hst : it.state ≠ State.READING_FROM_ITERATOR)
    (hhits : it.cache_hits + 1 < UINT64_MOD) :
    ∃ r it' d, Read O I (n + 3) it = some (r, it') ∧
      it'.calls = d ++ it.calls ∧ (∀ c ∈ d, ∃ e, c = Call.outer_Read e) ∧
      it'.inner_iterator = it.inner_iterator ∧
      it'.inner_rows_scanned = it.inner_rows_scanned ∧
      it'.cached_inner_table = some ct ∧
      it'.state ≠ State.READING_FROM_ITERATOR ∧
      ((it'.cache_hits = it.cache_hits ∧
          it'.inner_table.record0 = it.inner_table.record0) ∨
        (it'.cache_hits = it.cache_hits + 1 ∧ r = 0 ∧
          ∃ pos data, it'.current_inner_row_index = pos + 1 ∧ ct.GetRow pos = some data ∧
            it'.inner_table.record0 = memcpy it.inner_table.record0 data ct.row_length ∧
            (it.state = State.READING_FROM_CACHE → pos = it.current_inner_row_index))) := by
  obtain ⟨⟨r, it'⟩, hr⟩ := Read_total O I n it (fun _ => by rw [hct]; rfl)
  obtain ⟨⟨d, hd, hq⟩, hi, hrows, hc, hs⟩ := Read_cache_path O I ct _ it r it' hr hct hst
  exact ⟨r, it', d, hr, hd, hq, hi, hrows, hc, hs,
    Read_cache_fetch O I ct _ it r it' hr hct hst hhits⟩

/-- Witness of C26: INNER join holding the snapshot [i1] = [[7]], in state
`READING_FROM_CACHE` with the cursor at 0 and the buffer [0]. -/
theorem Read_cache_path_frame_witness :
    ({ cachedJoin JoinType.INNER [0, 0] (snapshotOf 1 [[7]]) [0] with
        state := State.READING_FROM_CACHE } :
      OptimizedNestedLoopIterator (List Int) (Nat × Nat)).cached_inner_table
        = some (snapshotOf 1 [[7]]) ∧
    ∃ r it' d, Read scriptedSource tableSource (0 + 3)
        { cachedJoin JoinType.INNER [0, 0] (snapshotOf 1 [[7]]) [0] with
          state := State.READING_FROM_CACHE } = some (r, it') ∧
      it'.calls = d ++ ({ cachedJoin JoinType.INNER [0, 0] (snapshotOf 1 [[7]]) [0] with
        state := State.READING_FROM_CACHE } :
        OptimizedNestedLoopIterator (List Int) (Nat × Nat)).calls ∧
      (∀ c ∈ d, ∃ e, c = Call.outer_Read e) ∧
      it'.inner_iterator = (0, 0) ∧
      it'.inner_rows_scanned = 0 ∧
      it'.cached_inner_table = some (snapshotOf 1 [[7]]) ∧
      it'.state ≠ State.READING_FROM_ITERATOR ∧
      ((it'.cache_hits = 0 ∧ it'.inner_table.record0 = [0]) ∨
        (it'.cache_hits = 0 + 1 ∧ r = 0 ∧
          ∃ pos data, it'.current_inner_row_index = pos + 1 ∧
            (snapshotOf 1 [[7]]).GetRow pos = some data ∧
            it'.inner_table.record0 = memcpy [0] data (snapshotOf 1 [[7]]).row_length ∧
            (State.READING_FROM_CACHE = State.READING_FROM_CACHE → pos = 0))) :=
  ⟨by decide,
   Read_cache_path_frame scriptedSource tableSource 0
     { cachedJoin JoinType.INNER [0, 0] (snapshotOf 1 [[7]]) [0] with
       state := State.READING_FROM_CACHE }
     (snapshotOf 1 [[7]]) (by decide) (by decide) (by decide)⟩

end Executor

namespace Executor

variable {σo σi : Type}

/-! ### No snapshot is ever obtained -/

/-- `ScanInnerIterator` leaves `cache_hits` alone. -/
theorem ScanInnerIterator_cache_hits (O : RowIterator σo) (I : RowIterator σi)
    (it : OptimizedNestedLoopIterator σo σi) :
    (ScanInnerIterator O I it).2.cache_hits = it.cache_hits := by
  unfold ScanInnerIterator
  dsimp only
  split_ifs <;> simp [(ReadOuterRow_frame O I _).2.2.2.1]

/-- Without a snapshot, `ReadOuterRow` never enters `READING_FROM_CACHE`. -/
theorem ReadOuterRow_no_snapshot (O : RowIterator σo) (I : RowIterator σi)
    (it : OptimizedNestedLoopIterator σo σi)
    (hc : it.cached_inner_table = none) (hs : it.state ≠ State.READING_FROM_CACHE) :
    (ReadOuterRow O I it).2.state ≠ State.READING_FROM_CACHE := by
  unfold ReadOuterRow
  dsimp only
  split_ifs with h1 h2 h3 h4 <;> simp_all

/-- Without a snapshot, `ScanInnerIterator` never enters `READING_FROM_CACHE`. -/
theorem ScanInnerIterator_no_snapshot (O : RowIterator σo) (I : RowIterator σi)
    (it : OptimizedNestedLoopIterator σo σi)
    (hc : it.cached_inner_table = none) (hs : it.state ≠ State.READING_FROM_CACHE) :
    (ScanInnerIterator O I it).2.state ≠ State.READING_FROM_CACHE := by
  unfold ScanInnerIterator
  dsimp only
  split_ifs with h1 h2 h3
  · exact hs
  · exact hs
  · exact hs
  · exact ReadOuterRow_no_snapshot O I _ hc hs

/-- A `Read()` keeps: no snapshot held, state not `READING_FROM_CACHE`, `cache_hits` as it
was. -/
theorem Read_no_snapshot (O : RowIterator σo) (I : RowIterator σi) :
    ∀ (fuel : Nat) (it : OptimizedNestedLoopIterator σo σi) (r : Int)
      (it' : OptimizedNestedLoopIterator σo σi),
      Read O I fuel it = some (r, it') →
      it.cached_inner_table = none → it.state ≠ State.READING_FROM_CACHE →
      it'.cached_inner_table = none ∧ it'.state ≠ State.READING_FROM_CACHE ∧
      it'.cache_hits = it.cache_hits := by
  intro fuel
  induction fuel with
  | zero => intro it r it' h; simp [Read] at h
  | succ n ih =>
    intro it r it' h hc hs
    have ho := ReadOuterRow_frame O I it
    have hos := ReadOuterRow_no_snapshot O I it hc hs
    have hi := ScanInnerIterator_frame O I it
    have his := ScanInnerIterator_no_snapshot O I it hc hs
    have hih := ScanInnerIterator_cache_hits O I it
    rw [Read] at h
    cases hst : it.state with
    | READING_FIRST_OUTER_ROW =>
      simp only [hst] at h
      split_ifs at h with h1 h2
      · simp only [Option.some.injEq, Prod.mk.injEq] at h
        obtain ⟨_, rfl⟩ := h
        exact ⟨by rw [← hc]; exact ho.1, by simp, ho.2.2.2.1⟩
      · simp only [Option.some.injEq, Prod.mk.injEq] at h
        obtain ⟨_, rfl⟩ := h
        exact ⟨by rw [ho.1, hc], hos, ho.2.2.2.1⟩
      · obtain ⟨e1, e2, e3⟩ := ih _ r it' h (by rw [ho.1, hc]) hos
        exact ⟨e1, e2, by rw [e3, ho.2.2.2.1]⟩
    | READING_FROM_CACHE => exact absurd hst hs
    | READING_FROM_ITERATOR =>
      simp only [hst] at h
      split_ifs at h with h1 h2
      · simp only [Option.some.injEq, Prod.mk.injEq] at h
        obtain ⟨_, rfl⟩ := h
        exact ⟨by rw [hi.1, hc], his, hih⟩
      · simp only [Option.some.injEq, Prod.mk.injEq] at h
        obtain ⟨_, rfl⟩ := h
        exact ⟨by rw [hi.1, hc], his, hih⟩
      · obtain ⟨e1, e2, e3⟩ := ih _ r it' h (by rw [hi.1, hc]) his
        exact ⟨e1, e2, by rw [e3, hih]⟩
    | END_OF_OUTER_ROWS =>
      simp only [hst] at h
      simp only [Option.some.injEq, Prod.mk.injEq] at h
      obtain ⟨_, rfl⟩ := h
      exact ⟨hc, hs, rfl⟩
    | END_OF_JOIN =>
      simp only [hst] at h
      simp only [Option.some.injEq, Prod.mk.injEq] at h
      obtain ⟨_, rfl⟩ := h
      exact ⟨hc, hs, rfl⟩

/-- An `Init()` keeps: no snapshot held, state not `READING_FROM_CACHE`, `cache_hits` as it
was. -/
theorem Init_no_snapshot (O : RowIterator σo) (I : RowIterator σi)
    (it : OptimizedNestedLoopIterator σo σi)
    (hc : it.cached_inner_table = none) (hs : it.state ≠ State.READING_FROM_CACHE) :
    (Init O I it).2.cached_inner_table = none ∧
    (Init O I it).2.state ≠ State.READING_FROM_CACHE ∧
    (Init O I it).2.cache_hits = it.cache_hits := by
  unfold Init
  dsimp only
  split_ifs <;> simp_all [LoadInnerTableCache]

/-- Every sequence of `Init()` and `Read()` calls runs through, from any state without a
snapshot that is not `READING_FROM_CACHE`, and ends in such a state with
`cache_hits` as it was. -/
theorem run_no_snapshot (O : RowIterator σo) (I : RowIterator σi) :
    ∀ (calls : List IterCall) (it : OptimizedNestedLoopIterator σo σi),
      it.cached_inner_table = none → it.state ≠ State.READING_FROM_CACHE →
      ∃ it', OptimizedNestedLoopIterator.run O I calls it = some it' ∧
        it'.cached_inner_table = none ∧ it'.state ≠ State.READING_FROM_CACHE ∧
        it'.cache_hits = it.cache_hits := by
  intro calls
  induction calls with
  | nil => intro it hc hs; exact ⟨it, rfl, hc, hs, rfl⟩
  | cons c calls ih =>
    intro it hc hs
    cases c with
    | Init =>
      obtain ⟨e1, e2, e3⟩ := Init_no_snapshot O I it hc hs
      obtain ⟨it', h1, h2, h3, h4⟩ := ih _ e1 e2
      exact ⟨it', by rw [OptimizedNestedLoopIterator.run]; exact h1, h2, h3, by rw [h4, e3]⟩
    | Read =>
      obtain ⟨⟨r, mid⟩, hr⟩ := Read_total O I 0 it (fun h => absurd h hs)
      obtain ⟨e1, e2, e3⟩ := Read_no_snapshot O I _ it r mid hr hc hs
      obtain ⟨it', h1, h2, h3, h4⟩ := ih mid e1 e2
      refine ⟨it', ?_, h2, h3, by rw [h4, e3]⟩
      rw [OptimizedNestedLoopIterator.run]
      simp only [Nat.zero_add] at hr
      rw [hr]
      exact h1

/-- C30. The iterator never obtains a snapshot. From a constructed iterator, every sequence
of `Init()` and `Read()` calls runs through (every `Read()` returns within three loop
iterations) and ends in a state `it'` in which `cached_inner_table_` is null, the
state is not `READING_FROM_CACHE` and `cache_hits` is 0. In such a state: a further
`Init()` leaves `cached_inner_table_` null and `LoadInnerTableCache` assigns
nothing and returns false; a further `Read()` returns, which it could not if it
ran `ScanCachedInnerTable` (that function dereferences the null snapshot); and a
`ReadOuterRow` whose outer read returns 0 calls `Init` on the live inner source
right after it. -/
theorem iterator_never_holds_snapshot (O : RowIterator σo) (I : RowIterator σi)
    (calls : List IterCall) (outer_iterator : σo) (inner_iterator : σi)
    (join_type : JoinType) (pfs_batch_mode : Bool) (inner_table : TABLE) :
    ∃ it', OptimizedNestedLoopIterator.run O I calls
        (OptimizedNestedLoopIterator.create outer_iterator inner_iterator join_type
          pfs_batch_mode inner_table) = some it' ∧
      it'.cached_inner_table = none ∧
      it'.state ≠ State.READING_FROM_CACHE ∧
      it'.cache_hits = 0 ∧
      (Init O I it').2.cached_inner_table = none ∧
      LoadInnerTableCache it' = (false, it') ∧
      ScanCachedInnerTable O I it' = none ∧
      (∃ r, Read O I 3 it' = some r) ∧
      ((O.Read it'.outer_iterator).1 ≠ 0 ∨
        (ReadOuterRow O I it').2.calls
          = Call.inner_Init (I.Init it'.inner_iterator).1 :: Call.outer_Read 0 :: it'.calls) := by
  obtain ⟨it', h1, h2, h3, h4⟩ := run_no_snapshot O I calls
    (OptimizedNestedLoopIterator.create outer_iterator inner_iterator join_type
      pfs_batch_mode inner_table) rfl (by simp [OptimizedNestedLoopIterator.create])
  refine ⟨it', h1, h2, h3, h4, (Init_no_snapshot O I it' h2 h3).1, rfl, ?_, ?_, ?_⟩
  · simp [ScanCachedInnerTable, h2]
  · exact Read_total O I 0 it' (fun h => absurd h h3)
  · by_cases h0 : (O.Read it'.outer_iterator).1 = 0
    · right
      unfold ReadOuterRow
      dsimp only
      simp [h0, h2]
      split_ifs <;> simp
    · exact Or.inl h0

end Executor

end ShannonBase

namespace hybrid_opt

variable {J F : Type}

/-! ### Feature names and feature slots -/

/-- The padding loop of `GetFeatureNames`, from a list of at most `NUM_FEATURES` names: it
appends `f<k>` for every missing position `k`. -/
theorem GetFeatureNames.fill_eq :
    ∀ (k fuel : Nat) (names : List String), k ≤ fuel → names.length + k = NUM_FEATURES →
      GetFeatureNames.fill fuel names
        = some (names ++ (List.range' names.length k).map (fun i => "f" ++ toString i)) := by
  intro k
  induction k with
  | zero =>
    intro fuel names _ hlen
    have hnot : ¬ names.length < NUM_FEATURES := by omega
    cases fuel <;> simp [GetFeatureNames.fill, hnot]
  | succ k ih =>
    intro fuel names hfuel hlen
    obtain ⟨f, rfl⟩ : ∃ f, fuel = f + 1 := ⟨fuel - 1, by omega⟩
    have hlt : names.length < NUM_FEATURES := by omega
    rw [GetFeatureNames.fill, if_pos hlt,
      ih f (names ++ ["f" ++ toString names.length]) (by omega) (by simp; omega)]
    simp [List.range'_succ]

/-- Storing into a cursor that has filled its first slots in order. -/
theorem FeatureCursor.put_filled [Zero F] (vals : List F) (n : Nat) (v : F) :
    (FeatureCursor.filled vals (n + 1)).put v = FeatureCursor.filled (vals ++ [v]) n := by
  simp [FeatureCursor.filled, FeatureCursor.put, List.replicate_succ, List.range_succ]

/-- The index written by a store is the running index, which it advances by one. -/
theorem FeatureCursor.put_idx_writes (c : FeatureCursor F) (v : F) :
    (c.put v).idx = c.idx + 1 ∧ (c.put v).writes = c.writes ++ [c.idx] :=
  ⟨rfl, rfl⟩

/-- The padding loop of `ExtractCostFeatures`, from a cursor that has filled its first slots
in order: it stores 0 in every slot left. -/
theorem ExtractCostFeatures.pad_filled [Zero F] :
    ∀ (n fuel : Nat) (vals : List F), n ≤ fuel → vals.length + n = NUM_FEATURES →
      ExtractCostFeatures.pad fuel (FeatureCursor.filled vals n)
        = some (FeatureCursor.filled (vals ++ List.replicate n 0) 0) := by
  intro n
  induction n with
  | zero =>
    intro fuel vals _ hlen
    have hnot : ¬ (FeatureCursor.filled vals 0).idx < NUM_FEATURES := by
      simp only [FeatureCursor.filled]; omega
    cases fuel <;> simp [ExtractCostFeatures.pad, hnot]
  | succ n ih =>
    intro fuel vals hfuel hlen
    obtain ⟨f, rfl⟩ : ∃ f, fuel = f + 1 := ⟨fuel - 1, by omega⟩
    have hlt : (FeatureCursor.filled vals (n + 1)).idx < NUM_FEATURES := by
      simp only [FeatureCursor.filled]; omega
    rw [ExtractCostFeatures.pad, if_pos hlt, FeatureCursor.put_filled,
      ih f (vals ++ [0]) (by omega) (by simp; omega)]
    simp [List.replicate_succ]

/-- The six extractors, stage by stage, in the order of `ExtractFeatures` on a zeroed array:
each finds the slots before its own filled in order and fills its own. -/
theorem ExtractFeatures_stages [Zero F] (M : FeatureMath J F) (j : J) :
    ExtractTableFeatures M j
        { features := List.replicate NUM_FEATURES 0, idx := 0, writes := [] }
      = FeatureCursor.filled ((namedValues M j).take 9) 131 ∧
    ExtractJoinFeatures M j (FeatureCursor.filled ((namedValues M j).take 9) 131)
      = FeatureCursor.filled ((namedValues M j).take 16) 124 ∧
    ExtractPredicateFeatures M j (FeatureCursor.filled ((namedValues M j).take 16) 124)
      = FeatureCursor.filled ((namedValues M j).take 23) 117 ∧
    ExtractAggregationFeatures M j (FeatureCursor.filled ((namedValues M j).take 23) 117)
      = FeatureCursor.filled ((namedValues M j).take 31) 109 ∧
    ExtractOrderingFeatures M j (FeatureCursor.filled ((namedValues M j).take 31) 109)
      = FeatureCursor.filled ((namedValues M j).take 38) 102 ∧
    ExtractCostFeatures M j (FeatureCursor.filled ((namedValues M j).take 38) 102)
      = some (FeatureCursor.filled (namedValues M j ++ List.replicate 97 0) 0) := by
  have h0 : ({ features := List.replicate NUM_FEATURES 0, idx := 0, writes := [] } :
      FeatureCursor F) = FeatureCursor.filled [] (131 + 9) := rfl
  rw [h0]
  refine ⟨?_, ?_, ?_, ?_, ?_, ?_⟩
  · simp only [ExtractTableFeatures, FeatureCursor.put_filled, namedValues, List.take,
      List.nil_append, List.cons_append]
  · rw [show (131 : Nat) = 124 + 7 from rfl]
    simp only [ExtractJoinFeatures, FeatureCursor.put_filled, namedValues, List.take,
      List.nil_append, List.cons_append]
  · rw [show (124 : Nat) = 117 + 7 from rfl]
    simp only [ExtractPredicateFeatures, FeatureCursor.put_filled, namedValues, List.take,
      List.nil_append, List.cons_append]
  · rw [show (117 : Nat) = 109 + 8 from rfl]
    simp only [ExtractAggregationFeatures, FeatureCursor.put_filled, namedValues, List.take,
      List.nil_append, List.cons_append]
  · rw [show (109 : Nat) = 102 + 7 from rfl]
    simp only [ExtractOrderingFeatures, FeatureCursor.put_filled, namedValues, List.take,
      List.nil_append, List.cons_append]
  · have e6 : ((((((FeatureCursor.filled ((namedValues M j).take 38) (97 + 5)).put
        (M.cost j).total_read_cost_log).put (M.cost j).total_prefix_cost_log).put
        (M.cost j).max_read_cost_log).put (M.cost j).best_read_log).put
        (M.cost j).best_rowcount_log) = FeatureCursor.filled (namedValues M j) 97 := by
      simp only [FeatureCursor.put_filled, namedValues, List.take,
        List.nil_append, List.cons_append]
    rw [show (102 : Nat) = 97 + 5 from rfl]
    unfold ExtractCostFeatures
    simp only [e6]
    exact ExtractCostFeatures.pad_filled 97 _ (namedValues M j)
      (by simp [FeatureCursor.filled, namedValues, NUM_FEATURES]) rfl

/-- The six extractors run in the order of `ExtractFeatures` on a zeroed array: the 43 named
values land in slots 0 to 42 and the cursor ends at `NUM_FEATURES`. -/
theorem ExtractFeatures_cursor [Zero F] (M : FeatureMath J F) (j : J) :
    ExtractCostFeatures M j
      (ExtractOrderingFeatures M j (ExtractAggregationFeatures M j
        (ExtractPredicateFeatures M j (ExtractJoinFeatures M j (ExtractTableFeatures M j
          { features := List.replicate NUM_FEATURES 0, idx := 0, writes := [] })))))
      = some (FeatureCursor.filled (namedValues M j ++ List.replicate 97 0) 0) := by
  obtain ⟨e1, e2, e3, e4, e5, e6⟩ := ExtractFeatures_stages M j
  rw [e1, e2, e3, e4, e5, e6]

/-- The padded feature array is `NUM_FEATURES` long. -/
theorem namedValues_padded_length [Zero F] (M : FeatureMath J F) (j : J) :
    (namedValues M j ++ List.replicate 97 (0 : F)).length = NUM_FEATURES := by
  simp [namedValues, NUM_FEATURES]

/-- Adding the `NUM_FEATURES` features to the trace stays inside the array. -/
theorem AddToOptimizerTrace_isSome [Zero F] (M : FeatureMath J F) (j : J)
    (trace : Option (Opt_trace_context F)) :
    ∃ trace1, AddToOptimizerTrace trace (namedValues M j ++ List.replicate 97 0) NUM_FEATURES
      = some trace1 := by
  unfold AddToOptimizerTrace
  cases trace with
  | none => exact ⟨_, rfl⟩
  | some t =>
    simp only
    split_ifs with h1 h2
    · exact ⟨_, rfl⟩
    · rw [namedValues_padded_length] at h2
      exact absurd h2 (Nat.lt_irrefl _)
    · exact ⟨_, rfl⟩

/-- Closed form of `ExtractFeatures` for a non-null `JOIN`: it returns true, the array holds
the 43 named values followed by 97 zeros, and the indices written are
0, 1, ..., 139 in this order. -/
theorem ExtractFeatures_some [Zero F] (M : FeatureMath J F) (j : J) (features : List F)
    (trace : Option (Opt_trace_context F)) :
    ∃ trace1,
      AddToOptimizerTrace trace (namedValues M j ++ List.replicate 97 0) NUM_FEATURES
        = some trace1 ∧
      ExtractFeatures M (some j) features trace
        = some (true, namedValues M j ++ List.replicate 97 0, trace1,
            List.range NUM_FEATURES) := by
  obtain ⟨trace1, h1⟩ := AddToOptimizerTrace_isSome M j trace
  refine ⟨trace1, h1, ?_⟩
  unfold ExtractFeatures
  simp only [ExtractFeatures_cursor M j]
  have hf : (FeatureCursor.filled (namedValues M j ++ List.replicate 97 (0 : F)) 0).features
      = namedValues M j ++ List.replicate 97 0 := by
    simp [FeatureCursor.filled]
  have hi : (FeatureCursor.filled (namedValues M j ++ List.replicate 97 (0 : F)) 0).idx
      = NUM_FEATURES := by
    simp only [FeatureCursor.filled]
    exact namedValues_padded_length M j
  have hw : (FeatureCursor.filled (namedValues M j ++ List.replicate 97 (0 : F)) 0).writes
      = List.range NUM_FEATURES := by
    simp only [FeatureCursor.filled]
    rw [namedValues_padded_length M j]
  rw [hf, hi, hw, h1]
  rfl

/-- The selection loop keeps, in order, the values at the in-range indices. -/
theorem ExtractSelectedFeatures.select_eq [Zero F] (all_features : List F)
    (feature_indices : List Int) :
    ExtractSelectedFeatures.select all_features feature_indices
      = (feature_indices.filter
          (fun idx => decide (idx ≥ 0 ∧ idx < (NUM_FEATURES : Int)))).map
        (fun idx => all_features.getD idx.toNat 0) := by
  unfold ExtractSelectedFeatures.select
  have gen : ∀ (l : List Int) (acc : List F),
      l.foldl
        (fun selected idx =>
          if idx ≥ 0 ∧ idx < (NUM_FEATURES : Int) then
            selected ++ [all_features.getD idx.toNat 0]
          else selected)
        acc
      = acc ++ (l.filter (fun idx => decide (idx ≥ 0 ∧ idx < (NUM_FEATURES : Int)))).map
          (fun idx => all_features.getD idx.toNat 0) := by
    intro l
    induction l with
    | nil => intro acc; simp
    | cons a l ih =>
      intro acc
      rw [List.foldl_cons, ih]
      by_cases ha : a ≥ 0 ∧ a < (NUM_FEATURES : Int)
      · rw [if_pos ha, List.filter_cons_of_pos (by simpa using ha)]
        simp
      · rw [if_neg ha, List.filter_cons_of_neg (by simpa using ha)]
  rw [gen]
  simp

end hybrid_opt

namespace hybrid_opt

variable {J F : Type}

/-! ### `ExtractSelectedFeatures` and `ExtractFeatures` -/

/-- `GetFeatureNames` returns the 43 named entries followed by `f43` .. `f139`. -/
theorem GetFeatureNames_eq :
    GetFeatureNames
      = some (GetFeatureNames.named
          ++ (List.range' 43 97).map (fun i => "f" ++ toString i)) :=
  GetFeatureNames.fill_eq 97 NUM_FEATURES GetFeatureNames.named (by decide) (by decide)

/-- `ExtractSelectedFeatures` with the trace off (a null trace, or one that is not started):
for a non-null `JOIN` it returns true and sets `selected_features` to the values
`all_features[idx]` of the in-range entries `idx` of `feature_indices`, in their
order, where `all_features` holds the 43 named values and 97 zeros; for a null
`JOIN` (whatever the trace) it returns false and leaves `selected_features` as it
was. -/
theorem ExtractSelectedFeatures_untraced [Zero F] (M : FeatureMath J F) (j : J)
    (feature_indices : List Int) (selected_features : List F)
    (trace : Option (Opt_trace_context F))
    (htrace : trace = none ∨ ∃ t, trace = some t ∧ t.is_started = false) :
    ExtractSelectedFeatures M (some j) feature_indices selected_features trace
      = some (true,
          (feature_indices.filter
            (fun idx => decide (idx ≥ 0 ∧ idx < (NUM_FEATURES : Int)))).map
            (fun idx => (namedValues M j ++ List.replicate 97 0).getD idx.toNat 0),
          trace) ∧
    ExtractSelectedFeatures M none feature_indices selected_features trace
      = some (false, selected_features, trace) := by
  constructor
  · obtain ⟨trace1, _, h2⟩ := ExtractFeatures_some M j [] none
    unfold ExtractSelectedFeatures
    simp only [h2, ExtractSelectedFeatures.select_eq]
    rcases htrace with rfl | ⟨t, rfl, ht⟩
    · rfl
    · simp only [ht, if_true]
  · rfl

/-- C27 (the code at the failing input). For every non-null `JOIN`, with the index list
[-1, 0] and a started trace: the selection keeps the value of slot 0 only, then
the trace loop looks up `feature_names[feature_indices[0]]` with
`feature_indices[0]` = -1, a read outside the vector: the call has no defined
result. With the trace off the same call returns true with that one value. -/
theorem ExtractSelectedFeatures_traced_negative_index [Zero F] (M : FeatureMath J F) (j : J)
    (selected_features : List F) (nodes : List (String × Int × List (TraceItem F))) :
    ExtractSelectedFeatures M (some j) [-1, 0] selected_features
        (some { is_started := true, nodes := nodes }) = none ∧
    ExtractSelectedFeatures M (some j) [-1, 0] selected_features none
      = some (true, [(M.table j).table_count], none) := by
  constructor
  · obtain ⟨trace1, _, h2⟩ := ExtractFeatures_some M j [] none
    unfold ExtractSelectedFeatures
    simp only [h2, ExtractSelectedFeatures.select_eq, GetFeatureNames_eq]
    have hsel : (List.filter (fun idx => decide (idx ≥ 0 ∧ idx < (NUM_FEATURES : Int)))
        ([-1, 0] : List Int)) = [0] := by decide
    rw [hsel]
    simp [ExtractSelectedFeatures.traceItem, List.range_succ, List.mapM, List.mapM.loop]
    omega
  · rw [(ExtractSelectedFeatures_untraced M j [-1, 0] selected_features none (Or.inl rfl)).1]
    simp [NUM_FEATURES, namedValues]

/-- C28. Feature-slot bookkeeping. For every non-null `JOIN`, `ExtractFeatures` returns true.
On the zeroed array the six extractors store at the running index, which starts
at 0: the table extractor writes slots 0 to 8, the join extractor 9 to 15, the
predicate extractor 16 to 22, the aggregation extractor 23 to 30, the ordering
extractor 31 to 37, the cost extractor 38 to 42 and then 43 to 139; the indices
written are 0, 1, ..., 139 in this order, each below `NUM_FEATURES`; the running
index ends at 140; slots 43 to 139 hold 0 (the array is the 43 named values
followed by 97 zeros). `GetFeatureNames` returns exactly 140 names: the 43 named
entries followed by `f43` .. `f139`. -/
theorem ExtractFeatures_slot_bookkeeping [Zero F] (M : FeatureMath J F) (j : J)
    (features : List F) (trace : Option (Opt_trace_context F)) :
    (∃ trace1, ExtractFeatures M (some j) features trace
      = some (true, namedValues M j ++ List.replicate 97 0, trace1,
          List.range NUM_FEATURES)) ∧
    (∃ c1 c2 c3 c4 c5 c6,
      ExtractTableFeatures M j
        { features := List.replicate NUM_FEATURES 0, idx := 0, writes := [] } = c1 ∧
      ExtractJoinFeatures M j c1 = c2 ∧
      ExtractPredicateFeatures M j c2 = c3 ∧
      ExtractAggregationFeatures M j c3 = c4 ∧
      ExtractOrderingFeatures M j c4 = c5 ∧
      ExtractCostFeatures M j c5 = some c6 ∧
      c1.writes = List.range' 0 9 ∧
      c2.writes = c1.writes ++ List.range' 9 7 ∧
      c3.writes = c2.writes ++ List.range' 16 7 ∧
      c4.writes = c3.writes ++ List.range' 23 8 ∧
      c5.writes = c4.writes ++ List.range' 31 7 ∧
      c6.writes = c5.writes ++ List.range' 38 5 ++ List.range' 43 97 ∧
      c6.writes = List.range NUM_FEATURES ∧
      (∀ i ∈ c6.writes, i < NUM_FEATURES) ∧
      c6.idx = 140 ∧
      c6.features = namedValues M j ++ List.replicate 97 0 ∧
      (namedValues M j).length = 43 ∧
      c6.features.length = NUM_FEATURES ∧
      (∀ k, 43 ≤ k → k < 140 → c6.features.get? k = some 0)) ∧
    (∃ names, GetFeatureNames = some names ∧ names.length = 140 ∧
      names = GetFeatureNames.named ++ (List.range' 43 97).map (fun i => "f" ++ toString i) ∧
      GetFeatureNames.named.length = 43) := by
  obtain ⟨e1, e2, e3, e4, e5, e6⟩ := ExtractFeatures_stages M j
  have hlen : (namedValues M j).length = 43 := by simp [namedValues]
  refine ⟨?_, ?_, ?_⟩
  · obtain ⟨trace1, _, h2⟩ := ExtractFeatures_some M j features trace
    exact ⟨trace1, h2⟩
  · refine ⟨_, _, _, _, _, _, e1, e2, e3, e4, e5, e6, ?_, ?_, ?_, ?_, ?_, ?_, ?_, ?_, ?_,
      ?_, ?_, ?_, ?_⟩
    · simp only [FeatureCursor.filled, List.length_take, hlen]; decide
    · simp only [FeatureCursor.filled, List.length_take, hlen]; decide
    · simp only [FeatureCursor.filled, List.length_take, hlen]; decide
    · simp only [FeatureCursor.filled, List.length_take, hlen]; decide
    · simp only [FeatureCursor.filled, List.length_take, hlen]; decide
    · simp only [FeatureCursor.filled, List.length_take, hlen]
      rw [namedValues_padded_length M j]
      decide
    · simp only [FeatureCursor.filled]
      rw [namedValues_padded_length M j]
    · simp only [FeatureCursor.filled]
      rw [namedValues_padded_length M j]
      intro i hi
      exact List.mem_range.mp hi
    · simp only [FeatureCursor.filled]
      exact namedValues_padded_length M j
    · simp [FeatureCursor.filled]
    · exact hlen
    · simp only [FeatureCursor.filled, List.append_nil, List.replicate_zero]
      exact namedValues_padded_length M j
    · intro k h1 h2
      simp only [FeatureCursor.filled, List.append_nil, List.replicate_zero]
      rw [List.get?_eq_getElem?, List.getElem?_append_right (by omega)]
      rw [List.getElem?_replicate]
      rw [if_pos (by omega)]
  · refine ⟨_, GetFeatureNames_eq, ?_, rfl, ?_⟩
    · simp [GetFeatureNames.named]
    · simp [GetFeatureNames.named]

end hybrid_opt

namespace hybrid_opt

/-- An evaluation of `ExtractSelectedFeatures` with the trace off, on `exampleMath` and the
`JOIN` 1: the index list [3, 200, 3, -5, 42, 43] selects slots 3, 3, 42 and 43 (the
out-of-range entries 200 and -5 are dropped, the duplicate is kept), and slot 43
holds 0. -/
theorem ExtractSelectedFeatures_example :
    ExtractSelectedFeatures exampleMath (some 1) [3, 200, 3, -5, 42, 43] [7] none
      = some (true, [103, 103, 142, 0], none) := by
  rw [(ExtractSelectedFeatures_untraced exampleMath 1 [3, 200, 3, -5, 42, 43] [7] none
    (Or.inl rfl)).1]
  have hsel : (List.filter (fun idx => decide (idx ≥ 0 ∧ idx < (NUM_FEATURES : Int)))
      ([3, 200, 3, -5, 42, 43] : List Int)) = [3, 3, 42, 43] := by decide
  rw [hsel]
  simp [namedValues, exampleMath]

end hybrid_opt

namespace ShannonBase

namespace Executor

variable {σo σi : Type}

/-! ### `Read()` is bounded -/

/-- `ReadOuterRow` reads the outer source exactly once and the inner source not at all. -/
theorem ReadOuterRow_read_counts (O : RowIterator σo) (I : RowIterator σi)
    (it : OptimizedNestedLoopIterator σo σi) :
    (ReadOuterRow O I it).2.calls.countP Call.isOuterRead
      = it.calls.countP Call.isOuterRead + 1 ∧
    (ReadOuterRow O I it).2.calls.countP Call.isInnerRead
      = it.calls.countP Call.isInnerRead := by
  unfold ReadOuterRow
  dsimp only
  split_ifs <;> simp [List.countP_cons, Call.isOuterRead, Call.isInnerRead]

/-- `ScanInnerIterator` reads the inner source exactly once (the body of its loop runs once)
and the outer source at most once. -/
theorem ScanInnerIterator_read_counts (O : RowIterator σo) (I : RowIterator σi)
    (it : OptimizedNestedLoopIterator σo σi) :
    (ScanInnerIterator O I it).2.calls.countP Call.isOuterRead
      ≤ it.calls.countP Call.isOuterRead + 1 ∧
    (ScanInnerIterator O I it).2.calls.countP Call.isInnerRead
      = it.calls.countP Call.isInnerRead + 1 := by
  unfold ScanInnerIterator
  dsimp only
  split_ifs
  · simp [List.countP_cons, Call.isOuterRead, Call.isInnerRead]
  · simp [List.countP_cons, Call.isOuterRead, Call.isInnerRead]
  · simp [List.countP_cons, Call.isOuterRead, Call.isInnerRead]
  · obtain ⟨h1, h2⟩ := ReadOuterRow_read_counts O I
      { it with inner_iterator := (I.Read it.inner_iterator).2,
                calls := Call.inner_Read (I.Read it.inner_iterator).1 :: it.calls }
    rw [h1, h2]
    simp [List.countP_cons, Call.isOuterRead, Call.isInnerRead]

/-- `ScanCachedInnerTable`, when it returns, has read the outer source at most once and the
inner source not at all. -/
theorem ScanCachedInnerTable_read_counts (O : RowIterator σo) (I : RowIterator σi)
    (it : OptimizedNestedLoopIterator σo σi) (r : Int × OptimizedNestedLoopIterator σo σi)
    (h : ScanCachedInnerTable O I it = some r) :
    r.2.calls.countP Call.isOuterRead ≤ it.calls.countP Call.isOuterRead + 1 ∧
    r.2.calls.countP Call.isInnerRead = it.calls.countP Call.isInnerRead := by
  cases hct : it.cached_inner_table with
  | none => simp [ScanCachedInnerTable, hct] at h
  | some ct =>
    rw [ScanCachedInnerTable_eq O I it ct hct] at h
    by_cases hlt : it.current_inner_row_index < ct.RowCount
    · obtain ⟨data, hdata⟩ := CachedTable.GetRow_lt ct _ hlt
      rw [if_pos hlt, hdata] at h
      simp only [Option.map_some', Option.some.injEq] at h
      subst h
      simp
    · rw [if_neg hlt] at h
      split_ifs at h
      · simp only [Option.some.injEq] at h
        subst h
        simp
      · simp only [Option.some.injEq] at h
        subst h
        obtain ⟨h1, h2⟩ := ReadOuterRow_read_counts O I it
        rw [h1, h2]
        simp

/-- The loop of `ScanCachedInnerTable` runs its body at most once: a budget of one iteration
is enough from every cursor position. -/
theorem ScanCachedInnerTable.scan_once (ct : CachedTable)
    (it : OptimizedNestedLoopIterator σo σi) :
    ∃ e, ScanCachedInnerTable.scan ct 1 it = some e := by
  by_cases hlt : it.current_inner_row_index < ct.RowCount
  · obtain ⟨data, hdata⟩ := CachedTable.GetRow_lt ct _ hlt
    simp [ScanCachedInnerTable.scan, hlt, hdata]
  · simp [ScanCachedInnerTable.scan, hlt]

/-- How many child reads a `Read()` that returns has made, by the state it started in. -/
theorem Read_read_counts (O : RowIterator σo) (I : RowIterator σi) :
    ∀ (fuel : Nat) (it : OptimizedNestedLoopIterator σo σi) (r : Int)
      (it' : OptimizedNestedLoopIterator σo σi),
      Read O I fuel it = some (r, it') →
      it'.calls.countP Call.isOuterRead ≤ it.calls.countP Call.isOuterRead + 2 ∧
      it'.calls.countP Call.isInnerRead ≤ it.calls.countP Call.isInnerRead + 1 ∧
      (it.state ≠ State.READING_FIRST_OUTER_ROW →
        it'.calls.countP Call.isOuterRead ≤ it.calls.countP Call.isOuterRead + 1) ∧
      (it.state = State.END_OF_OUTER_ROWS ∨ it.state = State.END_OF_JOIN → it' = it) := by
  intro fuel
  induction fuel with
  | zero => intro it r it' h; simp [Read] at h
  | succ n ih =>
    intro it r it' h
    rw [Read] at h
    cases hstate : it.state with
    | READING_FIRST_OUTER_ROW =>
      simp only [hstate] at h
      obtain ⟨c1, c2⟩ := ReadOuterRow_read_counts O I it
      split_ifs at h with h1 h2
      · simp only [Option.some.injEq, Prod.mk.injEq] at h
        obtain ⟨_, rfl⟩ := h
        simp only [c1, c2]
        simp
      · simp only [Option.some.injEq, Prod.mk.injEq] at h
        obtain ⟨_, rfl⟩ := h
        simp only [c1, c2]
        simp
      · simp only [ne_eq, Decidable.not_not] at h1
        obtain ⟨_, i2, i3, _⟩ := ih _ r it' h
        have hne : (ReadOuterRow O I it).2.state ≠ State.READING_FIRST_OUTER_ROW := by
          rcases (ReadOuterRow_state O I it).1 h1 with ⟨h3, _⟩ | h3 <;> rw [h3] <;> decide
        have i4 := i3 hne
        rw [c1] at i4
        rw [c2] at i2
        refine ⟨by omega, i2, by simp, by simp⟩
    | READING_FROM_CACHE =>
      simp only [hstate] at h
      cases hscan : ScanCachedInnerTable O I it with
      | none => simp [hscan] at h
      | some q =>
        simp only [hscan] at h
        obtain ⟨c1, c2⟩ := ScanCachedInnerTable_read_counts O I it q hscan
        have hct : ∃ ct, it.cached_inner_table = some ct := by
          cases hc : it.cached_inner_table with
          | none => simp [ScanCachedInnerTable, hc] at hscan
          | some ct => exact ⟨ct, rfl⟩
        obtain ⟨ct, hct⟩ := hct
        obtain ⟨q', hq', _, hm, _, _⟩ := ScanCachedInnerTable_post O I it ct hct
        rw [hscan] at hq'
        obtain rfl : q = q' := by simpa using hq'
        split_ifs at h with h1 h2
        · simp only [Option.some.injEq, Prod.mk.injEq] at h
          obtain ⟨_, rfl⟩ := h
          refine ⟨by omega, by omega, fun _ => c1, by simp⟩
        · simp only [Option.some.injEq, Prod.mk.injEq] at h
          obtain ⟨_, rfl⟩ := h
          refine ⟨by omega, by omega, fun _ => c1, by simp⟩
        · simp only [ne_eq, Decidable.not_not] at h2
          obtain ⟨_, _, _, i4⟩ := ih _ r it' h
          have := i4 (Or.inl (hm h2))
          subst this
          refine ⟨by omega, by omega, fun _ => c1, by simp⟩
    | READING_FROM_ITERATOR =>
      simp only [hstate] at h
      obtain ⟨c1, c2⟩ := ScanInnerIterator_read_counts O I it
      split_ifs at h with h1 h2
      · simp only [Option.some.injEq, Prod.mk.injEq] at h
        obtain ⟨_, rfl⟩ := h
        refine ⟨by omega, by omega, fun _ => c1, by simp⟩
      · simp only [Option.some.injEq, Prod.mk.injEq] at h
        obtain ⟨_, rfl⟩ := h
        refine ⟨by omega, by omega, fun _ => c1, by simp⟩
      · simp only [ne_eq, Decidable.not_not] at h2
        obtain ⟨_, _, _, i4⟩ := ih _ r it' h
        have := i4 (Or.inl ((ScanInnerIterator_state O I it).1 h2))
        subst this
        refine ⟨by omega, by omega, fun _ => c1, by simp⟩
    | END_OF_OUTER_ROWS =>
      simp only [hstate] at h
      simp only [Option.some.injEq, Prod.mk.injEq] at h
      obtain ⟨_, rfl⟩ := h
      simp
    | END_OF_JOIN =>
      simp only [hstate] at h
      simp only [Option.some.injEq, Prod.mk.injEq] at h
      obtain ⟨_, rfl⟩ := h
      simp

/-- Every `Read()` leaves the snapshot pointer and the join type alone, and keeps the class
invariant that state `READING_FROM_CACHE` is only held together with a snapshot. -/
theorem Read_snapshot_frame (O : RowIterator σo) (I : RowIterator σi) :
    ∀ (fuel : Nat) (it : OptimizedNestedLoopIterator σo σi) (r : Int)
      (it' : OptimizedNestedLoopIterator σo σi),
      Read O I fuel it = some (r, it') →
      it'.cached_inner_table = it.cached_inner_table ∧
      it'.join_type = it.join_type ∧
      ((it.state = State.READING_FROM_CACHE → it.cached_inner_table.isSome = true) →
        (it'.state = State.READING_FROM_CACHE → it'.cached_inner_table.isSome = true)) := by
  intro fuel
  induction fuel with
  | zero => intro it r it' h; simp [Read] at h
  | succ n ih =>
    intro it r it' h
    have outer : (ReadOuterRow O I it).2.cached_inner_table = it.cached_inner_table ∧
        (ReadOuterRow O I it).2.join_type = it.join_type ∧
        ((ReadOuterRow O I it).2.state = State.READING_FROM_CACHE →
          it.state ≠ State.READING_FROM_CACHE →
          (ReadOuterRow O I it).2.cached_inner_table.isSome = true) := by
      refine ⟨(ReadOuterRow_frame O I it).1, (ReadOuterRow_frame O I it).2.1, ?_⟩
      unfold ReadOuterRow
      dsimp only
      split_ifs <;> simp_all
    rw [Read] at h
    cases hstate : it.state with
    | READING_FIRST_OUTER_ROW =>
      simp only [hstate] at h
      have ho3 := outer.2.2
      rw [hstate] at ho3
      split_ifs at h with h1 h2
      · simp only [Option.some.injEq, Prod.mk.injEq] at h
        obtain ⟨_, rfl⟩ := h
        exact ⟨outer.1, outer.2.1, fun _ h => by simp at h⟩
      · simp only [Option.some.injEq, Prod.mk.injEq] at h
        obtain ⟨_, rfl⟩ := h
        exact ⟨outer.1, outer.2.1, fun _ h => ho3 h (by decide)⟩
      · obtain ⟨i1, i2, i3⟩ := ih _ r it' h
        refine ⟨by rw [i1, outer.1], by rw [i2, outer.2.1], fun _ => ?_⟩
        exact i3 (fun h => ho3 h (by decide))
    | READING_FROM_CACHE =>
      simp only [hstate] at h
      cases hscan : ScanCachedInnerTable O I it with
      | none => simp [hscan] at h
      | some q =>
        simp only [hscan] at h
        have hct : ∃ ct, it.cached_inner_table = some ct := by
          cases hc : it.cached_inner_table with
          | none => simp [ScanCachedInnerTable, hc] at hscan
          | some ct => exact ⟨ct, rfl⟩
        obtain ⟨ct, hct⟩ := hct
        have hjt : q.2.join_type = it.join_type := by
          rw [ScanCachedInnerTable_eq O I it ct hct] at hscan
          by_cases hlt : it.current_inner_row_index < ct.RowCount
          · obtain ⟨data, hdata⟩ := CachedTable.GetRow_lt ct _ hlt
            rw [if_pos hlt, hdata] at hscan
            simp only [Option.map_some', Option.some.injEq] at hscan
            subst hscan
            rfl
          · rw [if_neg hlt] at hscan
            split_ifs at hscan
            · simp only [Option.some.injEq] at hscan
              subst hscan
              rfl
            · simp only [Option.some.injEq] at hscan
              subst hscan
              exact (ReadOuterRow_frame O I it).2.1
        obtain ⟨q', hq', hc', _, _, _⟩ := ScanCachedInnerTable_post O I it ct hct
        rw [hscan] at hq'
        obtain rfl : q = q' := by simpa using hq'
        have hsome : q.2.cached_inner_table.isSome = true := by rw [hc']; rfl
        split_ifs at h with h1 h2
        · simp only [Option.some.injEq, Prod.mk.injEq] at h
          obtain ⟨_, rfl⟩ := h
          exact ⟨by rw [hc', hct], hjt, fun _ _ => hsome⟩
        · simp only [Option.some.injEq, Prod.mk.injEq] at h
          obtain ⟨_, rfl⟩ := h
          exact ⟨by rw [hc', hct], hjt, fun _ _ => hsome⟩
        · obtain ⟨i1, i2, i3⟩ := ih _ r it' h
          exact ⟨by rw [i1, hc', hct], by rw [i2, hjt], fun _ _ => by rw [i1]; exact hsome⟩
    | READING_FROM_ITERATOR =>
      simp only [hstate] at h
      obtain ⟨f1, f2⟩ := ScanInnerIterator_frame O I it
      have hs : (ScanInnerIterator O I it).2.state = State.READING_FROM_CACHE →
          (ScanInnerIterator O I it).2.cached_inner_table.isSome = true := by
        unfold ScanInnerIterator
        dsimp only
        split_ifs
        · simp [hstate]
        · simp [hstate]
        · simp [hstate]
        · intro hq
          have := (ReadOuterRow_state O I
            { it with inner_iterator := (I.Read it.inner_iterator).2,
                      calls := Call.inner_Read (I.Read it.inner_iterator).1 :: it.calls })
          revert hq this
          unfold ReadOuterRow
          dsimp only
          split_ifs <;> simp_all
      split_ifs at h with h1 h2
      · simp only [Option.some.injEq, Prod.mk.injEq] at h
        obtain ⟨_, rfl⟩ := h
        exact ⟨f1, f2, fun _ => hs⟩
      · simp only [Option.some.injEq, Prod.mk.injEq] at h
        obtain ⟨_, rfl⟩ := h
        exact ⟨f1, f2, fun _ => hs⟩
      · obtain ⟨i1, i2, i3⟩ := ih _ r it' h
        exact ⟨by rw [i1, f1], by rw [i2, f2], fun _ => i3 hs⟩
    | END_OF_OUTER_ROWS =>
      simp only [hstate] at h
      simp only [Option.some.injEq, Prod.mk.injEq] at h
      obtain ⟨_, rfl⟩ := h
      exact ⟨rfl, rfl, fun _ h => by simp [hstate] at h⟩
    | END_OF_JOIN =>
      simp only [hstate] at h
      simp only [Option.some.injEq, Prod.mk.injEq] at h
      obtain ⟨_, rfl⟩ := h
      exact ⟨rfl, rfl, fun _ h => by simp [hstate] at h⟩

/-- C32. `Read()` is bounded. From every iterator state (state `READING_FROM_CACHE` only
together with a snapshot, as the class keeps it) and for every behaviour of the
outer and inner sources, a single `Read()` returns within three iterations of its
dispatch loop; the calls it makes are added to the log, among them at most two
reads of the outer source and at most one read of the inner source; the state
it leaves again holds `READING_FROM_CACHE` only together with a snapshot. The
loop of `ScanCachedInnerTable` runs its body at most once (a budget of one
iteration suffices from every cursor position), and `ScanInnerIterator` reads
the inner source exactly once per call (its loop body starts with that read and
runs once). -/
theorem Read_bounded (O : RowIterator σo) (I : RowIterator σi)
    (it : OptimizedNestedLoopIterator σo σi)
    (hc : it.state = State.READING_FROM_CACHE → it.cached_inner_table.isSome = true) :
    (∃ r it' d, Read O I 3 it = some (r, it') ∧
      it'.calls = d ++ it.calls ∧
      d.countP Call.isOuterRead ≤ 2 ∧
      d.countP Call.isInnerRead ≤ 1 ∧
      (it'.state = State.READING_FROM_CACHE → it'.cached_inner_table.isSome = true)) ∧
    (∀ ct : CachedTable, ∃ e, ScanCachedInnerTable.scan ct 1 it = some e) ∧
    (ScanInnerIterator O I it).2.calls.countP Call.isInnerRead
      = it.calls.countP Call.isInnerRead + 1 := by
  refine ⟨?_, fun ct => ScanCachedInnerTable.scan_once ct it,
    (ScanInnerIterator_read_counts O I it).2⟩
  obtain ⟨⟨r, it'⟩, h⟩ := Read_total O I 0 it hc
  obtain ⟨d, hd, _⟩ := Read_calls O I _ it r it' h
  obtain ⟨c1, c2, _, _⟩ := Read_read_counts O I _ it r it' h
  rw [hd, List.countP_append] at c1 c2
  exact ⟨r, it', d, h, hd, by omega, by omega, (Read_snapshot_frame O I _ it r it' h).2.2 hc⟩

/-- C32 at an outer source that never ends, joined with an empty inner relation. -/
theorem Read_bounded_witness :
    ((endlessJoin JoinType.INNER 0).state = State.READING_FROM_CACHE →
      (endlessJoin JoinType.INNER 0).cached_inner_table.isSome = true) ∧
    ((∃ r it' d, Read endlessSource tableSource 3 (endlessJoin JoinType.INNER 0)
        = some (r, it') ∧
      it'.calls = d ++ (endlessJoin JoinType.INNER 0).calls ∧
      d.countP Call.isOuterRead ≤ 2 ∧
      d.countP Call.isInnerRead ≤ 1 ∧
      (it'.state = State.READING_FROM_CACHE → it'.cached_inner_table.isSome = true)) ∧
    (∀ ct : CachedTable, ∃ e,
      ScanCachedInnerTable.scan ct 1 (endlessJoin JoinType.INNER 0) = some e) ∧
    (ScanInnerIterator endlessSource tableSource (endlessJoin JoinType.INNER 0)).2.calls.countP
        Call.isInnerRead
      = (endlessJoin JoinType.INNER 0).calls.countP Call.isInnerRead + 1) :=
  ⟨by decide, Read_bounded endlessSource tableSource (endlessJoin JoinType.INNER 0) (by decide)⟩

/-- The bounds of `Read()` are attained. With an outer source that never ends and an empty
inner relation, every `Read()` returns 0 after two iterations, having read the
outer source twice (first call) or once and the inner source once. With one
outer row and an empty inner relation, the first `Read()` needs all three
iterations: two are not enough. -/
theorem Read_bounds_attained :
    (ReadMany endlessSource tableSource 3 3 (endlessJoin JoinType.INNER 0)).map
        (fun r => (r.1, r.2.outer_rows_scanned, r.2.inner_rows_scanned, r.2.calls))
      = some ([0, 0, 0], 4, 0,
          [Call.inner_Init false, Call.outer_Read 0, Call.inner_Read (-1),
            Call.inner_Init false, Call.outer_Read 0, Call.inner_Read (-1),
            Call.inner_Init false, Call.outer_Read 0, Call.inner_Read (-1),
            Call.inner_Init false, Call.outer_Read 0]) ∧
    Read scriptedSource tableSource 2 (liveJoin JoinType.INNER [0] 0) = none ∧
    (Read scriptedSource tableSource 3 (liveJoin JoinType.INNER [0] 0)).map
        (fun r => (r.1, r.2.state, r.2.calls))
      = some (-1, State.END_OF_OUTER_ROWS,
          [Call.outer_Read (-1), Call.inner_Read (-1), Call.inner_Init false,
            Call.outer_Read 0]) := by
  refine ⟨?_, ?_, ?_⟩ <;> rfl

end Executor

end ShannonBase

namespace ShannonBase

namespace Executor

variable {σo σi : Type}

/-! ### The cursor stays in range -/

/-- `ReadOuterRow` sets the cursor to 0 or leaves it. -/
theorem ReadOuterRow_cursor (O : RowIterator σo) (I : RowIterator σi)
    (it : OptimizedNestedLoopIterator σo σi) :
    (ReadOuterRow O I it).2.current_inner_row_index = 0 ∨
      (ReadOuterRow O I it).2.current_inner_row_index = it.current_inner_row_index := by
  unfold ReadOuterRow
  dsimp only
  split_ifs <;> simp

/-- `ScanInnerIterator` sets the cursor to 0 or leaves it. -/
theorem ScanInnerIterator_cursor (O : RowIterator σo) (I : RowIterator σi)
    (it : OptimizedNestedLoopIterator σo σi) :
    (ScanInnerIterator O I it).2.current_inner_row_index = 0 ∨
      (ScanInnerIterator O I it).2.current_inner_row_index = it.current_inner_row_index := by
  unfold ScanInnerIterator
  dsimp only
  split_ifs
  · simp
  · simp
  · simp
  · exact ReadOuterRow_cursor O I _

/-- With a snapshot held, `ScanCachedInnerTable` keeps the cursor within the snapshot, and it
either leaves `cache_hits` alone or fetches the row at the cursor: it returns 0,
`cache_hits` is one more (modulo 2 ^ 64), the cursor is one further, the match flag
is set and the inner working buffer received the first `row_length` bytes of the
row. -/
theorem ScanCachedInnerTable_cursor (O : RowIterator σo) (I : RowIterator σi)
    (it : OptimizedNestedLoopIterator σo σi) (ct : CachedTable)
    (hct : it.cached_inner_table = some ct)
    (r : Int × OptimizedNestedLoopIterator σo σi)
    (h : ScanCachedInnerTable O I it = some r) :
    (it.current_inner_row_index ≤ ct.RowCount → r.2.current_inner_row_index ≤ ct.RowCount) ∧
    (r.2.cache_hits = it.cache_hits ∨
      (r.1 = 0 ∧ r.2.cache_hits = (it.cache_hits + 1) % UINT64_MOD ∧
        ∃ data, it.current_inner_row_index < ct.RowCount ∧
          ct.GetRow it.current_inner_row_index = some data ∧
          r.2.current_inner_row_index = it.current_inner_row_index + 1 ∧
          r.2.outer_row_matched = true ∧
          r.2.inner_table.record0 = memcpy it.inner_table.record0 data ct.row_length)) := by
  rw [ScanCachedInnerTable_eq O I it ct hct] at h
  by_cases hlt : it.current_inner_row_index < ct.RowCount
  · obtain ⟨data, hdata⟩ := CachedTable.GetRow_lt ct _ hlt
    rw [if_pos hlt, hdata] at h
    simp only [Option.map_some', Option.some.injEq] at h
    subst h
    refine ⟨fun _ => hlt, Or.inr ⟨rfl, rfl, data, hlt, hdata, rfl, rfl, rfl⟩⟩
  · rw [if_neg hlt] at h
    split_ifs at h
    · simp only [Option.some.injEq] at h
      subst h
      exact ⟨fun h => h, Or.inl rfl⟩
    · simp only [Option.some.injEq] at h
      subst h
      refine ⟨fun h => ?_, Or.inl (ReadOuterRow_frame O I it).2.2.2.1⟩
      rcases ReadOuterRow_cursor O I it with h0 | h0 <;> rw [h0]
      · exact Nat.zero_le _
      · exact h

/-- With a snapshot held, every `Read()` keeps the cursor within the snapshot, and it either
leaves `cache_hits` alone or has fetched exactly one snapshot row: it returns 0,
`cache_hits` is one more (modulo 2 ^ 64), the row at a position `pos` below
`RowCount()` was obtained from `GetRow`, the cursor is `pos + 1`, the match flag is
set and the inner working buffer received the first `row_length` bytes of the
row. -/
theorem Read_cursor_fetch (O : RowIterator σo) (I : RowIterator σi) (ct : CachedTable) :
    ∀ (fuel : Nat) (it : OptimizedNestedLoopIterator σo σi) (r : Int)
      (it' : OptimizedNestedLoopIterator σo σi),
      Read O I fuel it = some (r, it') →
      it.cached_inner_table = some ct →
      (it.current_inner_row_index ≤ ct.RowCount →
        it'.current_inner_row_index ≤ ct.RowCount) ∧
      (it'.cache_hits = it.cache_hits ∨
        (r = 0 ∧ it'.cache_hits = (it.cache_hits + 1) % UINT64_MOD ∧
          ∃ pos data, pos < ct.RowCount ∧ ct.GetRow pos = some data ∧
            it'.current_inner_row_index = pos + 1 ∧
            it'.outer_row_matched = true ∧
            it'.inner_table.record0 = memcpy it.inner_table.record0 data ct.row_length ∧
            (it.state = State.READING_FROM_CACHE → pos = it.current_inner_row_index))) := by
  intro fuel
  induction fuel with
  | zero => intro it r it' h; simp [Read] at h
  | succ n ih =>
    intro it r it' h hct
    have terminal : ∀ (mid : OptimizedNestedLoopIterator σo σi),
        mid.state = State.END_OF_OUTER_ROWS → Read O I n mid = some (r, it') → it' = mid := by
      intro mid hmid hread
      cases n with
      | zero => simp [Read] at hread
      | succ m =>
        rw [Read_terminal O I m mid (Or.inl hmid)] at hread
        simp only [Option.some.injEq, Prod.mk.injEq] at hread
        exact hread.2.symm
    have outer : ((ReadOuterRow O I it).2.current_inner_row_index = 0 ∨
          (ReadOuterRow O I it).2.current_inner_row_index = it.current_inner_row_index) :=
      ReadOuterRow_cursor O I it
    obtain ⟨f1, _, _, f4, f5⟩ := ReadOuterRow_frame O I it
    have outer_le : it.current_inner_row_index ≤ ct.RowCount →
        (ReadOuterRow O I it).2.current_inner_row_index ≤ ct.RowCount := by
      intro hle
      rcases outer with h0 | h0 <;> rw [h0]
      · exact Nat.zero_le _
      · exact hle
    rw [Read] at h
    cases hstate : it.state with
    | READING_FIRST_OUTER_ROW =>
      simp only [hstate] at h
      split_ifs at h with h1 h2
      · simp only [Option.some.injEq, Prod.mk.injEq] at h
        obtain ⟨_, rfl⟩ := h
        exact ⟨outer_le, Or.inl f4⟩
      · simp only [Option.some.injEq, Prod.mk.injEq] at h
        obtain ⟨_, rfl⟩ := h
        exact ⟨outer_le, Or.inl f4⟩
      · obtain ⟨i1, i2⟩ := ih _ r it' h (by rw [f1, hct])
        refine ⟨fun hle => i1 (outer_le hle), ?_⟩
        rcases i2 with i2 | ⟨hr, hh, pos, data, hp, hg, hcur, hm, hrec, _⟩
        · left; rw [i2, f4]
        · right
          refine ⟨hr, by rw [hh, f4], pos, data, hp, hg, hcur, hm, by rw [hrec, f5], ?_⟩
          intro hc; cases hc
    | READING_FROM_CACHE =>
      simp only [hstate] at h
      cases hscan : ScanCachedInnerTable O I it with
      | none => simp [hscan] at h
      | some q =>
        simp only [hscan] at h
        obtain ⟨s1, s2⟩ := ScanCachedInnerTable_cursor O I it ct hct q hscan
        obtain ⟨q', hq', _, hm, _, _⟩ := ScanCachedInnerTable_post O I it ct hct
        rw [hscan] at hq'
        obtain rfl : q = q' := by simpa using hq'
        have fetch : q.2.cache_hits = it.cache_hits ∨
            (q.1 = 0 ∧ q.2.cache_hits = (it.cache_hits + 1) % UINT64_MOD ∧
              ∃ pos data, pos < ct.RowCount ∧ ct.GetRow pos = some data ∧
                q.2.current_inner_row_index = pos + 1 ∧
                q.2.outer_row_matched = true ∧
                q.2.inner_table.record0
                  = memcpy it.inner_table.record0 data ct.row_length ∧
                (State.READING_FROM_CACHE = State.READING_FROM_CACHE →
                  pos = it.current_inner_row_index)) := by
          rcases s2 with s2 | ⟨hr, hh, data, hlt, hg, hcur, hmf, hrec⟩
          · exact Or.inl s2
          · exact Or.inr ⟨hr, hh, _, data, hlt, hg, hcur, hmf, hrec, fun _ => rfl⟩
        split_ifs at h with h1 h2
        · simp only [Option.some.injEq, Prod.mk.injEq] at h
          obtain ⟨rfl, rfl⟩ := h
          rcases fetch with f | ⟨_, f⟩
          · exact ⟨s1, Or.inl f⟩
          · exact ⟨s1, Or.inr ⟨rfl, f⟩⟩
        · simp only [Option.some.injEq, Prod.mk.injEq] at h
          obtain ⟨_, rfl⟩ := h
          rcases fetch with f | ⟨f, _⟩
          · exact ⟨s1, Or.inl f⟩
          · exact absurd f h1
        · simp only [ne_eq, Decidable.not_not] at h2
          have := terminal _ (hm h2) h
          subst this
          rcases fetch with f | ⟨f, _⟩
          · exact ⟨s1, Or.inl f⟩
          · exact absurd f h1
    | READING_FROM_ITERATOR =>
      simp only [hstate] at h
      have c1 := ScanInnerIterator_cache_hits O I it
      have c2 : it.current_inner_row_index ≤ ct.RowCount →
          (ScanInnerIterator O I it).2.current_inner_row_index ≤ ct.RowCount := by
        intro hle
        rcases ScanInnerIterator_cursor O I it with h0 | h0 <;> rw [h0]
        · exact Nat.zero_le _
        · exact hle
      split_ifs at h with h1 h2
      · simp only [Option.some.injEq, Prod.mk.injEq] at h
        obtain ⟨_, rfl⟩ := h
        exact ⟨c2, Or.inl c1⟩
      · simp only [Option.some.injEq, Prod.mk.injEq] at h
        obtain ⟨_, rfl⟩ := h
        exact ⟨c2, Or.inl c1⟩
      · simp only [ne_eq, Decidable.not_not] at h2
        have := terminal _ ((ScanInnerIterator_state O I it).1 h2) h
        subst this
        exact ⟨c2, Or.inl c1⟩
    | END_OF_OUTER_ROWS =>
      simp only [hstate] at h
      simp only [Option.some.injEq, Prod.mk.injEq] at h
      obtain ⟨_, rfl⟩ := h
      exact ⟨fun h => h, Or.inl rfl⟩
    | END_OF_JOIN =>
      simp only [hstate] at h
      simp only [Option.some.injEq, Prod.mk.injEq] at h
      obtain ⟨_, rfl⟩ := h
      exact ⟨fun h => h, Or.inl rfl⟩

/-- With a snapshot held and the cursor within it, any number of `Read()` calls run through
and leave the snapshot held and the cursor within it; `cache_hits` has grown by at
most the number of calls that returned 0. -/
theorem ReadMany_cursor_in_range (O : RowIterator σo) (I : RowIterator σi) (n : Nat)
    (ct : CachedTable) :
    ∀ (k : Nat) (it : OptimizedNestedLoopIterator σo σi),
      it.cached_inner_table = some ct →
      it.current_inner_row_index ≤ ct.RowCount →
      ∃ codes it', ReadMany O I (n + 3) k it = some (codes, it') ∧
        it'.cached_inner_table = some ct ∧
        it'.current_inner_row_index ≤ ct.RowCount ∧
        it'.cache_hits ≤ it.cache_hits + codes.count 0 := by
  intro k
  induction k with
  | zero =>
    intro it hct hcur
    exact ⟨[], it, rfl, hct, hcur, by simp⟩
  | succ k ih =>
    intro it hct hcur
    obtain ⟨⟨r, mid⟩, h⟩ := Read_total O I n it (fun _ => by rw [hct]; rfl)
    obtain ⟨m1, m2⟩ := Read_cursor_fetch O I ct _ it r mid h hct
    have m3 : mid.cached_inner_table = some ct := by
      rw [(Read_snapshot_frame O I _ it r mid h).1, hct]
    obtain ⟨codes, it', hmany, i1, i2, i3⟩ := ih mid m3 (m1 hcur)
    refine ⟨r :: codes, it', ?_, i1, i2, ?_⟩
    · simp only [ReadMany, h, hmany]
    · rw [List.count_cons]
      rcases m2 with m2 | ⟨hr, hh, _⟩
      · rw [m2] at i3
        omega
      · have hle : (it.cache_hits + 1) % UINT64_MOD ≤ it.cache_hits + 1 := Nat.mod_le _ _
        rw [hh] at i3
        subst hr
        simp only [beq_self_eq_true, if_true]
        omega

/-- C33. The cursor stays in range. Let the iterator hold a snapshot `ct` and start with the
cursor within it (in particular at 0). Then any number `k` of `Read()` calls run
through, and in the state reached the snapshot is still held and the cursor is
at most `RowCount()`. In that state, whenever the loop of `ScanCachedInnerTable`
runs its body (the cursor is below `RowCount()`), `GetRow` at the cursor returns a
row, not null, so the branch that skips invalid rows is not taken; and
`cache_hits` counts fetched rows only: it has grown by at most the number of
calls that returned 0, and in every further `Read()` it either stays or goes up
by one (modulo 2 ^ 64) in a call that returns 0 with the row at a position
`pos` below `RowCount()` copied into the inner working buffer, the match flag set
and the cursor at `pos + 1`. -/
theorem cursor_stays_in_range (O : RowIterator σo) (I : RowIterator σi) (n k : Nat)
    (it : OptimizedNestedLoopIterator σo σi) (ct : CachedTable)
    (hct : it.cached_inner_table = some ct)
    (hcur : it.current_inner_row_index ≤ ct.RowCount) :
    ∃ codes it', ReadMany O I (n + 3) k it = some (codes, it') ∧
      it'.cached_inner_table = some ct ∧
      it'.current_inner_row_index ≤ ct.RowCount ∧
      it'.cache_hits ≤ it.cache_hits + codes.count 0 ∧
      (it'.current_inner_row_index < ct.RowCount →
        ∃ data, ct.GetRow it'.current_inner_row_index = some data) ∧
      ∃ r it'', Read O I (n + 3) it' = some (r, it'') ∧
        (it''.cache_hits = it'.cache_hits ∨
          (r = 0 ∧ it''.cache_hits = (it'.cache_hits + 1) % UINT64_MOD ∧
            ∃ pos data, pos < ct.RowCount ∧ ct.GetRow pos = some data ∧
              it''.current_inner_row_index = pos + 1 ∧
              it''.outer_row_matched = true ∧
              it''.inner_table.record0
                = memcpy it'.inner_table.record0 data ct.row_length ∧
              (it'.state = State.READING_FROM_CACHE →
                pos = it'.current_inner_row_index))) := by
  obtain ⟨codes, it', hmany, h1, h2, h3⟩ := ReadMany_cursor_in_range O I n ct k it hct hcur
  obtain ⟨⟨r, it''⟩, h⟩ := Read_total O I n it' (fun _ => by rw [h1]; rfl)
  exact ⟨codes, it', hmany, h1, h2, h3, CachedTable.GetRow_lt ct _, r, it'', h,
    (Read_cursor_fetch O I ct _ it' r it'' h h1).2⟩

/-- Witness of C33: INNER join holding the snapshot [i1, i2] = [[1, 2], [3, 4]], cursor 0,
over an outer source with two rows, read four times. -/
theorem cursor_stays_in_range_witness :
    (cachedJoin JoinType.INNER [0, 0] (snapshotOf 2 [[1, 2], [3, 4]]) [9, 9]).cached_inner_table
      = some (snapshotOf 2 [[1, 2], [3, 4]]) ∧
    (cachedJoin JoinType.INNER [0, 0]
        (snapshotOf 2 [[1, 2], [3, 4]]) [9, 9]).current_inner_row_index = 0 ∧
    ∃ codes it', ReadMany scriptedSource tableSource (0 + 3) 4
        (cachedJoin JoinType.INNER [0, 0] (snapshotOf 2 [[1, 2], [3, 4]]) [9, 9])
          = some (codes, it') ∧
      it'.cached_inner_table = some (snapshotOf 2 [[1, 2], [3, 4]]) ∧
      it'.current_inner_row_index ≤ (snapshotOf 2 [[1, 2], [3, 4]]).RowCount ∧
      it'.cache_hits ≤ 0 + codes.count 0 ∧
      (it'.current_inner_row_index < (snapshotOf 2 [[1, 2], [3, 4]]).RowCount →
        ∃ data, (snapshotOf 2 [[1, 2], [3, 4]]).GetRow it'.current_inner_row_index
          = some data) ∧
      ∃ r it'', Read scriptedSource tableSource (0 + 3) it' = some (r, it'') ∧
        (it''.cache_hits = it'.cache_hits ∨
          (r = 0 ∧ it''.cache_hits = (it'.cache_hits + 1) % UINT64_MOD ∧
            ∃ pos data, pos < (snapshotOf 2 [[1, 2], [3, 4]]).RowCount ∧
              (snapshotOf 2 [[1, 2], [3, 4]]).GetRow pos = some data ∧
              it''.current_inner_row_index = pos + 1 ∧
              it''.outer_row_matched = true ∧
              it''.inner_table.record0
                = memcpy it'.inner_table.record0 data
                    (snapshotOf 2 [[1, 2], [3, 4]]).row_length ∧
              (it'.state = State.READING_FROM_CACHE →
                pos = it'.current_inner_row_index))) :=
  ⟨rfl, rfl,
   cursor_stays_in_range scriptedSource tableSource 0 4
     (cachedJoin JoinType.INNER [0, 0] (snapshotOf 2 [[1, 2], [3, 4]]) [9, 9])
     (snapshotOf 2 [[1, 2], [3, 4]]) rfl (Nat.zero_le _)⟩

/-- The run of the witness of C33, evaluated: the four calls return 0, 0, 0, 0 (rows i1 and
i2 for the first outer row, the code of the next outer read, then i1 again); the
cursor goes 1, 2, 0, 1 and `cache_hits` 1, 2, 2, 3. -/
theorem cached_run_cursor_example :
    ((List.range 5).map (fun k =>
      (ReadMany scriptedSource tableSource 3 k
        (cachedJoin JoinType.INNER [0, 0] (snapshotOf 2 [[1, 2], [3, 4]]) [9, 9])).map
        (fun r => (r.1, r.2.current_inner_row_index, r.2.cache_hits,
          r.2.inner_table.record0))))
      = [some ([], 0, 0, [9, 9]), some ([0], 1, 1, [1, 2]), some ([0, 0], 2, 2, [3, 4]),
          some ([0, 0, 0], 0, 2, [3, 4]), some ([0, 0, 0, 0], 1, 3, [1, 2])] := by
  rfl

end Executor

end ShannonBase

namespace ShannonBase

namespace Executor

variable {σo σi : Type}

/-! ### The cache path and the live path -/

/-- `ReadOuterRow` on corresponding iterators returns the same code and leaves corresponding
iterators. -/
theorem ReadOuterRow_corresponds (O : RowIterator σo) (I : RowIterator σi) (ct : CachedTable)
    (c : OptimizedNestedLoopIterator σo σi) (l : OptimizedNestedLoopIterator σo (Nat × Nat))
    (h : Corresponds ct c l) :
    (ReadOuterRow O I c).1 = (ReadOuterRow O tableSource l).1 ∧
    Corresponds ct (ReadOuterRow O I c).2 (ReadOuterRow O tableSource l).2 := by
  obtain ⟨h1, h2, h3, h4, h5, h6, h7, h8, h9, h10⟩ := h
  unfold ReadOuterRow Corresponds
  dsimp only
  rw [h4]
  by_cases e0 : (O.Read l.outer_iterator).1 = 0
  · simp [e0, h1, h2, h3, h5, h6, h7, h8, h9, tableSource, Call.isOuterRead]
  · by_cases e1 : (O.Read l.outer_iterator).1 = -1
    · simp [e1, h1, h2, h3, h5, h6, h7, h8, h9, Call.isOuterRead]
    · simp [e0, e1, h1, h2, h3, h5, h6, h7, h8, h9, h10, Call.isOuterRead]

/-- On corresponding iterators in states `READING_FROM_CACHE` and `READING_FROM_ITERATOR`,
`ScanCachedInnerTable` returns, with the code that `ScanInnerIterator` returns, and
the two leave corresponding iterators. -/
theorem Scan_corresponds (O : RowIterator σo) (I : RowIterator σi) (ct : CachedTable)
    (c : OptimizedNestedLoopIterator σo σi) (l : OptimizedNestedLoopIterator σo (Nat × Nat))
    (h : Corresponds ct c l) (hs : c.state = State.READING_FROM_CACHE) :
    ∃ q, ScanCachedInnerTable O I c = some q ∧
      q.1 = (ScanInnerIterator O tableSource l).1 ∧
      Corresponds ct q.2 (ScanInnerIterator O tableSource l).2 := by
  have h0 := h
  obtain ⟨h1, h2, h3, h4, h5, h6, h7, h8, h9, h10⟩ := h
  have hl : l.state = State.READING_FROM_ITERATOR ∧
      l.inner_iterator.2 = c.current_inner_row_index := by
    rcases h10 with ⟨h, _⟩ | ⟨_, h, h'⟩ | ⟨h, _⟩ | ⟨h, _⟩
    · rw [hs] at h; cases h
    · exact ⟨h, h'⟩
    · rw [hs] at h; cases h
    · rw [hs] at h; cases h
  obtain ⟨hl1, hl2⟩ := hl
  rw [ScanCachedInnerTable_eq O I c ct h1]
  by_cases hlt : c.current_inner_row_index < ct.RowCount
  · obtain ⟨data, hdata⟩ := CachedTable.GetRow_lt ct _ hlt
    have hlt' : l.inner_iterator.2 < l.inner_iterator.1 := by rw [hl2, h9]; exact hlt
    rw [if_pos hlt, hdata]
    refine ⟨_, rfl, ?_, ?_⟩
    · simp [ScanInnerIterator, tableSource, hlt', hlt]
    · unfold ScanInnerIterator Corresponds
      simp [tableSource, hlt', hlt, h1, h2, h3, h4, h5, h7, h8, h9, hs, hl1, hl2,
        Call.isOuterRead]
  · have hlt' : ¬ l.inner_iterator.2 < l.inner_iterator.1 := by rw [hl2, h9]; exact hlt
    rw [if_neg hlt]
    by_cases hnull : c.join_type = JoinType.OUTER ∧ c.outer_row_matched = false
    · have hnull' : l.join_type = JoinType.OUTER ∧ l.outer_row_matched = false := by
        rw [← h3, ← h6]; exact hnull
      rw [if_pos hnull]
      refine ⟨_, rfl, ?_, ?_⟩
      · simp [ScanInnerIterator, tableSource, hlt', hlt, hnull'.1, hnull'.2]
      · unfold ScanInnerIterator Corresponds
        simp [tableSource, hlt', hlt, hnull'.1, hnull'.2, h1, h2, h3, h4, h5, h7, h8, h9, hs,
          hl1, hl2, Call.isOuterRead]
    · have hnull' : ¬ (l.join_type = JoinType.OUTER ∧ l.outer_row_matched = false) := by
        rw [← h3, ← h6]; exact hnull
      rw [if_neg hnull]
      have hl' : ScanInnerIterator O tableSource l
          = ReadOuterRow O tableSource
              { l with calls := Call.inner_Read (-1) :: l.calls } := by
        unfold ScanInnerIterator
        simp only [tableSource, hlt', if_false]
        simp only [if_neg hnull']
        simp
      rw [hl']
      refine ⟨_, rfl, ReadOuterRow_corresponds O I ct c _ ?_⟩
      unfold Corresponds
      simp [h1, h2, h3, h4, h5, h6, h7, h8, h9, hs, hl1, hl2, Call.isOuterRead]

/-- A `Read()` on corresponding iterators: when the cache path returns, the live path returns
the same code within the same number of loop iterations, and the two leave
corresponding iterators. -/
theorem Read_corresponds (O : RowIterator σo) (I : RowIterator σi) (ct : CachedTable) :
    ∀ (fuel : Nat) (c : OptimizedNestedLoopIterator σo σi)
      (l : OptimizedNestedLoopIterator σo (Nat × Nat)) (r : Int)
      (c' : OptimizedNestedLoopIterator σo σi),
      Corresponds ct c l → Read O I fuel c = some (r, c') →
      ∃ l', Read O tableSource fuel l = some (r, l') ∧ Corresponds ct c' l' := by
  intro fuel
  induction fuel with
  | zero => intro c l r c' _ h; simp [Read] at h
  | succ n ih =>
    intro c l r c' hcl h
    have h10 := hcl.2.2.2.2.2.2.2.2.2
    rw [Read] at h
    rw [Read]
    cases hstate : c.state with
    | READING_FIRST_OUTER_ROW =>
      have hl : l.state = State.READING_FIRST_OUTER_ROW := by
        rcases h10 with ⟨_, h⟩ | ⟨h, _⟩ | ⟨h, _⟩ | ⟨h, _⟩
        · exact h
        · rw [hstate] at h; cases h
        · rw [hstate] at h; cases h
        · rw [hstate] at h; cases h
      obtain ⟨e1, e2⟩ := ReadOuterRow_corresponds O I ct c l hcl
      simp only [hstate] at h
      simp only [hl, ← e1]
      split_ifs at h with h1 h2
      · simp only [Option.some.injEq, Prod.mk.injEq] at h
        obtain ⟨rfl, rfl⟩ := h
        rw [if_pos h1, if_pos h2]
        refine ⟨_, rfl, ?_⟩
        obtain ⟨g1, g2, g3, g4, g5, g6, g7, g8, g9, _⟩ := e2
        exact ⟨g1, g2, g3, g4, g5, g6, g7, g8, g9, Or.inr (Or.inr (Or.inr ⟨rfl, rfl⟩))⟩
      · simp only [Option.some.injEq, Prod.mk.injEq] at h
        obtain ⟨rfl, rfl⟩ := h
        rw [if_pos h1, if_neg h2]
        exact ⟨_, rfl, e2⟩
      · rw [if_neg h1]
        exact ih _ _ r c' e2 h
    | READING_FROM_CACHE =>
      have hl : l.state = State.READING_FROM_ITERATOR := by
        rcases h10 with ⟨h, _⟩ | ⟨_, h, _⟩ | ⟨h, _⟩ | ⟨h, _⟩
        · rw [hstate] at h; cases h
        · exact h
        · rw [hstate] at h; cases h
        · rw [hstate] at h; cases h
      obtain ⟨q, hq, e1, e2⟩ := Scan_corresponds O I ct c l hcl hstate
      simp only [hstate, hq] at h
      simp only [hl, ← e1]
      split_ifs at h with h1 h2
      · simp only [Option.some.injEq, Prod.mk.injEq] at h
        obtain ⟨rfl, rfl⟩ := h
        rw [if_pos h1]
        exact ⟨_, rfl, e2⟩
      · simp only [Option.some.injEq, Prod.mk.injEq] at h
        obtain ⟨rfl, rfl⟩ := h
        rw [if_neg h1, if_pos h2]
        exact ⟨_, rfl, e2⟩
      · rw [if_neg h1, if_neg h2]
        exact ih _ _ r c' e2 h
    | READING_FROM_ITERATOR =>
      rcases h10 with ⟨h, _⟩ | ⟨h, _⟩ | ⟨h, _⟩ | ⟨h, _⟩ <;> rw [hstate] at h <;> cases h
    | END_OF_OUTER_ROWS =>
      have hl : l.state = State.END_OF_OUTER_ROWS := by
        rcases h10 with ⟨h, _⟩ | ⟨h, _⟩ | ⟨_, h⟩ | ⟨h, _⟩
        · rw [hstate] at h; cases h
        · rw [hstate] at h; cases h
        · exact h
        · rw [hstate] at h; cases h
      simp only [hstate, Option.some.injEq, Prod.mk.injEq] at h
      obtain ⟨rfl, rfl⟩ := h
      simp only [hl]
      exact ⟨_, rfl, hcl⟩
    | END_OF_JOIN =>
      have hl : l.state = State.END_OF_JOIN := by
        rcases h10 with ⟨h, _⟩ | ⟨h, _⟩ | ⟨h, _⟩ | ⟨_, h⟩
        · rw [hstate] at h; cases h
        · rw [hstate] at h; cases h
        · rw [hstate] at h; cases h
        · exact h
      simp only [hstate, Option.some.injEq, Prod.mk.injEq] at h
      obtain ⟨rfl, rfl⟩ := h
      simp only [hl]
      exact ⟨_, rfl, hcl⟩

/-- Any number of `Read()` calls on corresponding iterators run through on both, return the
same codes and leave corresponding iterators. -/
theorem ReadMany_corresponds (O : RowIterator σo) (I : RowIterator σi) (ct : CachedTable)
    (n : Nat) :
    ∀ (k : Nat) (c : OptimizedNestedLoopIterator σo σi)
      (l : OptimizedNestedLoopIterator σo (Nat × Nat)),
      Corresponds ct c l →
      ∃ codes c' l', ReadMany O I (n + 3) k c = some (codes, c') ∧
        ReadMany O tableSource (n + 3) k l = some (codes, l') ∧ Corresponds ct c' l' := by
  intro k
  induction k with
  | zero => intro c l h; exact ⟨[], c, l, rfl, rfl, h⟩
  | succ k ih =>
    intro c l hcl
    obtain ⟨⟨r, c1⟩, hc⟩ := Read_total O I n c (fun _ => by rw [hcl.1]; rfl)
    obtain ⟨l1, hl, h1⟩ := Read_corresponds O I ct _ c l r c1 hcl hc
    obtain ⟨codes, c', l', i1, i2, i3⟩ := ih c1 l1 h1
    refine ⟨r :: codes, c', l', ?_, ?_, i3⟩
    · simp only [ReadMany, hc, i1]
    · simp only [ReadMany, hl, i2]

/-- C31. The cache path and the live path are observationally equivalent. For every join
type, every outer source `O` started in the same position on both sides, and
every snapshot `ct` (of any number of rows): take an iterator in its initial
state that holds `ct`, and an iterator in its initial state that holds no
snapshot and whose inner source is a `tableSource` over `RowCount()` rows (its
`Init` always succeeds and rewinds; it yields that many rows and then end of data
on every further read). Then any number `k` of `Read()` calls run through on both,
return the same sequence of codes, make the same reads of the outer source with
the same results and leave it in the same position, and end with equal
`outer_rows_scanned` and with `cache_hits` of the first equal to
`inner_rows_scanned` of the second. -/
theorem cache_path_live_path_equivalent (O : RowIterator σo) (I : RowIterator σi)
    (join_type : JoinType) (outer_iterator : σo) (inner_iterator : σi)
    (pfs_batch_mode : Bool) (inner_table inner_table_live : TABLE) (ct : CachedTable)
    (position n k : Nat) :
    ∃ codes c l,
      ReadMany O I (n + 3) k
        { OptimizedNestedLoopIterator.create outer_iterator inner_iterator join_type
            pfs_batch_mode inner_table with cached_inner_table := some ct }
        = some (codes, c) ∧
      ReadMany O tableSource (n + 3) k
        (OptimizedNestedLoopIterator.create outer_iterator (ct.RowCount, position) join_type
          pfs_batch_mode inner_table_live)
        = some (codes, l) ∧
      c.calls.filter Call.isOuterRead = l.calls.filter Call.isOuterRead ∧
      c.calls.countP Call.isOuterRead = l.calls.countP Call.isOuterRead ∧
      c.outer_iterator = l.outer_iterator ∧
      c.outer_rows_scanned = l.outer_rows_scanned ∧
      c.cache_hits = l.inner_rows_scanned := by
  obtain ⟨codes, c, l, h1, h2, g1, g2, g3, g4, g5, g6, g7, g8, g9, g10⟩ :=
    ReadMany_corresponds O I ct n k
      { OptimizedNestedLoopIterator.create outer_iterator inner_iterator join_type
          pfs_batch_mode inner_table with cached_inner_table := some ct }
      (OptimizedNestedLoopIterator.create outer_iterator (ct.RowCount, position) join_type
        pfs_batch_mode inner_table_live)
      ⟨rfl, rfl, rfl, rfl, rfl, rfl, rfl, rfl, rfl, Or.inl ⟨rfl, rfl⟩⟩
  refine ⟨codes, c, l, h1, h2, g5, ?_, g4, g7, g8⟩
  rw [List.countP_eq_length_filter, List.countP_eq_length_filter, g5]

/-- The two runs of C31 evaluated on an example: LEFT join, outer source with the rows o1, o2,
snapshot [i1] = [[7]] against a live table of one row, read five times: both
return 0, 0, 0, -1, -1, with two outer rows scanned, three reads of the outer
source, and two inner rows counted (`cache_hits` on the one side,
`inner_rows_scanned` on the other). -/
theorem cache_path_live_path_example :
    (ReadMany scriptedSource tableSource 3 5
        (cachedJoin JoinType.OUTER [0, 0] (snapshotOf 1 [[7]]) [0])).map
        (fun r => (r.1, r.2.outer_rows_scanned, r.2.cache_hits,
          r.2.calls.countP Call.isOuterRead))
      = some ([0, 0, 0, -1, -1], 2, 2, 3) ∧
    (ReadMany scriptedSource tableSource 3 5 (liveJoin JoinType.OUTER [0, 0] 1)).map
        (fun r => (r.1, r.2.outer_rows_scanned, r.2.inner_rows_scanned,
          r.2.calls.countP Call.isOuterRead))
      = some ([0, 0, 0, -1, -1], 2, 2, 3) := by
  refine ⟨?_, ?_⟩ <;> rfl

end Executor

end ShannonBase

namespace ShannonBase

/-! ### Claims about a stored entry, on the stores the cache can be in -/

end ShannonBase
namespace ShannonBase

namespace Executor

variable {σo σi : Type}

/-! ### Claims about the cache path, on the states the iterator can be in -/

end Executor

end ShannonBase
namespace ShannonBase

namespace Executor

/-- What the cache path would do for a single outer row if a snapshot were held (`cachedJoin`
writes one into the iterator directly). INNER join, outer = [o1], snapshot =
[i1, i2]: the calls return 0, 0, -1, with rows i1 and i2 copied into the buffer in
turn and `cache_hits` = 2. INNER join, outer = [o1], empty snapshot: the first
`Read()` returns -1 with one outer row scanned. -/
theorem cached_join_single_outer_row :
    ((List.range 4).map (fun k =>
      (ReadMany scriptedSource tableSource 3 k
        (cachedJoin JoinType.INNER [0] (snapshotOf 2 [[1, 2], [3, 4]]) [9, 9])).map
        (fun r => (r.1, r.2.outer_rows_scanned, r.2.current_inner_row_index, r.2.cache_hits,
          r.2.inner_table.record0))))
      = [some ([], 0, 0, 0, [9, 9]), some ([0], 1, 1, 1, [1, 2]),
          some ([0, 0], 1, 2, 2, [3, 4]), some ([0, 0, -1], 1, 2, 2, [3, 4])] ∧
    (ReadMany scriptedSource tableSource 3 2
        (cachedJoin JoinType.INNER [0] (snapshotOf 1 []) [0])).map
        (fun r => (r.1, r.2.outer_rows_scanned, r.2.cache_hits))
      = some ([-1, -1], 1, 0) ∧
    yieldsRows scriptedSource 1 [0] = true := by
  refine ⟨?_, ?_, ?_⟩ <;> rfl

end Executor

end ShannonBase
